import Mathlib

/-!
# Feature-matching benchmark (taller2c2/combination_tester.cpp)

A shallow embedding of the benchmark harness.

* The OpenCV library and the clock are external collaborators: every library call is
  answered by an oracle of the record `OpenCV`, which receives the whole history of
  events so far and may return a value or throw, and every call is logged as an `Event`.
* Distances (`float` in the source) are exact rationals and float literals stand for
  their decimal values; the rounding of floating-point products is not modelled.
* An access outside a keypoint vector is undefined behaviour in C++; the model stops
  there and marks the run as `undefinedBehaviour`.
* The std::map of results is the list of its entries in iteration order, that is in
  ascending key order.
* The cap of taller2c2/surf_surf.cpp and the function arreglar_bordes of
  segmentacion2/main.cpp are embedded in the namespaces SurfSurf and Segmentacion.
-/

set_option autoImplicit false

namespace CombinationTester

/-! ## Data model -/

/-- The cv::Point2f of the source. -/
structure Point2f where
  x : ℚ
  y : ℚ
  deriving DecidableEq

/-- The cv::KeyPoint of the source: only the position is read by the harness. -/
structure KeyPoint where
  pt : Point2f
  deriving DecidableEq

/-- The cv::DMatch of the source. -/
structure DMatch where
  queryIdx : Int
  trainIdx : Int
  imgIdx : Int
  distance : ℚ
  deriving DecidableEq

/-- FLT_MAX, the distance of a default-constructed DMatch. -/
def FLT_MAX : ℚ := 340282346638528859811704183484516925440

/-- The default constructor DMatch(): all indices -1, distance FLT_MAX. -/
def DMatch.default : DMatch := ⟨-1, -1, -1, FLT_MAX⟩

/-- The struct MatchResult of the source (lines 23-28); processingTime holds a whole
number of milliseconds. -/
structure MatchResult where
  numMatches : Int
  numGoodMatches : Int
  processingTime : Int
  homographySuccess : Bool
  deriving DecidableEq

/-- Conversion of a container size (size_t) to a 32-bit signed int: the value modulo
2^32 = 4294967296 in the range from -2^31 = -2147483648. -/
def intOfSize (n : Nat) : Int := ((n : Int) + 2147483648) % 4294967296 - 2147483648

/-! ## Ratio test (lines 153-157, 198-207) -/

/-- Lines 154-157: the descriptor names compared via Hamming distance. -/
def isBinaryDescriptor (descriptorName : String) : Bool :=
  descriptorName == "ORB" || descriptorName == "BRIEF" ||
    descriptorName == "BRISK" || descriptorName == "FREAK"

/-- Line 200: RATIO_THRESHOLD = isBinaryDescriptor ? 0.8f : 0.75f. -/
def RATIO_THRESHOLD (isBinary : Bool) : ℚ := if isBinary then 8 / 10 else 75 / 100

/-- Lines 202-207: the loop over knnMatches, appending to goodMatches. -/
def filterLoop (threshold : ℚ) : List (List DMatch) → List DMatch → List DMatch
  | [], goodMatches => goodMatches
  | (m0 :: m1 :: _) :: rest, goodMatches =>
      if m0.distance < threshold * m1.distance then
        filterLoop threshold rest (goodMatches ++ [m0])
      else
        filterLoop threshold rest goodMatches
  | _ :: rest, goodMatches => filterLoop threshold rest goodMatches

/-- Lines 199-207: goodMatches starts empty and is filled by the loop. -/
def filterGoodMatches (threshold : ℚ) (knnMatches : List (List DMatch)) : List DMatch :=
  filterLoop threshold knnMatches []

/-- The ratio test as the specification words it: an entry passes when it has at least
two neighbours and d0 < t * d1. -/
def passesRatioTest (t : ℚ) (entry : List DMatch) : Bool :=
  decide (2 ≤ entry.length) &&
    match entry[0]?, entry[1]? with
    | some d0, some d1 => decide (d0.distance < t * d1.distance)
    | _, _ => false

/-- The good matches as the specification words them: the nearest neighbours of the
entries that pass, in query order. -/
def goodMatchesSpec (t : ℚ) (knnMatches : List (List DMatch)) : List DMatch :=
  (knnMatches.filter (passesRatioTest t)).filterMap List.head?

/-! ## Validity of a combination (lines 299-307) -/

/-- The function isCombinationValid of the source. -/
def isCombinationValid (detector : String) (_descriptor : String) : Bool :=
  if detector == "BRIEF" || detector == "FREAK" then false else true

/-! ## Strategy registry (lines 30-90) -/

/-- A constructed cv::Feature2D object, identified by its algorithm and the
constructor arguments the source passes. -/
inductive Feature2D
  | SIFT (nfeatures : Nat)
  | SURF (hessianThreshold nOctaves nOctaveLayers : Nat) (extended : Bool)
  | ORB (nfeatures : Nat)
  | BRISK (thresh octaves : Nat) (patternScale : ℚ)
  | FAST (threshold : Nat)
  | BRIEF (bytes : Nat)
  | FREAK
  deriving DecidableEq

/-- A constructed cv::DescriptorMatcher object. -/
inductive DescriptorMatcher
  | bruteForceHamming
  | bruteForce
  | flannLsh (tableNumber keySize multiProbeLevel checks : Nat)
  | flannBased
  deriving DecidableEq

/-- The function createDetector of the source; nullptr is none. -/
def createDetector (detectorName : String) : Option Feature2D :=
  if detectorName == "SIFT" then some (.SIFT 500)
  else if detectorName == "SURF" then some (.SURF 100 3 3 false)
  else if detectorName == "ORB" then some (.ORB 700)
  else if detectorName == "BRISK" then some (.BRISK 30 3 1)
  else if detectorName == "FAST" then some (.FAST 20)
  else none

/-- The function createDescriptor of the source; nullptr is none. -/
def createDescriptor (descriptorName : String) : Option Feature2D :=
  if descriptorName == "SIFT" then some (.SIFT 500)
  else if descriptorName == "SURF" then some (.SURF 100 3 3 false)
  else if descriptorName == "ORB" then some (.ORB 700)
  else if descriptorName == "BRISK" then some (.BRISK 30 3 1)
  else if descriptorName == "BRIEF" then some (.BRIEF 32)
  else if descriptorName == "FREAK" then some .FREAK
  else none

/-- The function createMatcher of the source; nullptr is none. -/
def createMatcher (matcherName : String) (isBinary : Bool) : Option DescriptorMatcher :=
  if matcherName == "BF" then
    if isBinary then some .bruteForceHamming else some .bruteForce
  else if matcherName == "FLANN" then
    if isBinary then some (.flannLsh 6 12 1 50) else some .flannBased
  else none

/-! ## The library as an external collaborator -/

/-- A grayscale image (cv::Mat): its size and its pixels in row-major order. -/
structure Image where
  cols : Nat
  rows : Nat
  data : List Nat
  deriving DecidableEq

/-- A descriptor matrix (cv::Mat): one row per keypoint; isCV32F tells whether the
element type is CV_32F. -/
structure Descriptors where
  rows : Nat
  cols : Nat
  isCV32F : Bool
  data : List Nat
  deriving DecidableEq

/-- The method Mat::empty: no element at all. -/
def Descriptors.empty (d : Descriptors) : Bool := d.rows * d.cols == 0

/-- The call convertTo(_, CV_32F) guarded by type() != CV_32F (lines 161-166). -/
def Descriptors.toCV32F (d : Descriptors) : Descriptors :=
  if d.isCV32F then d else { d with isCV32F := true }

/-- The matrix returned by findHomography, row by row; an empty cv::Mat has no entry. -/
abbrev Homography := List (List ℚ)

/-- The method Mat::empty on a homography. -/
def Homography.empty (h : Homography) : Bool := h.flatten.isEmpty

/-- The three classes of exception that the handlers of lines 280-286 tell apart. -/
inductive Thrown
  | cvException
  | stdException
  | unknown
  deriving DecidableEq

/-- One observable step of a run: a console line, a clock reading, a library call or
an element access of a keypoint vector. -/
inductive Event
  | procesando (detectorName descriptorName matcherName : String)
  | now
  | detect (detector : Feature2D) (image : Nat)
  | compute (descriptor : Feature2D) (image : Nat)
  | knnMatch (matcher : DescriptorMatcher) (k : Nat)
  | matchSingle (matcher : DescriptorMatcher)
  | keypoints1At (idx : Int)
  | keypoints2At (idx : Int)
  | findHomography (obj scene : List Point2f)
  | drawMatches
  | perspectiveTransform
  | line
  | imwrite (fileName : String)
  | namedWindow (title : String)
  | imshow (title : String)
  | waitKey (delay : Nat)
  | destroyWindow (title : String)
  | destroyAllWindows
  deriving DecidableEq

/-- The behaviour of the library and of the clock.  Every oracle receives the events
of the run so far, so that a call may answer differently each time it is made.
knnMatch fills its output argument and may throw after filling part of it; the other
calls either return a value or throw.  The clock counts nanoseconds. -/
structure OpenCV where
  clock : List Event → Int
  detect : List Event → Feature2D → Image → Except Thrown (List KeyPoint)
  compute : List Event → Feature2D → Image → List KeyPoint →
    Except Thrown (List KeyPoint × Descriptors)
  knnMatch : List Event → DescriptorMatcher → Descriptors → Descriptors → Nat →
    List (List DMatch) × Option Thrown
  matchSingle : List Event → DescriptorMatcher → Descriptors → Descriptors →
    Except Thrown (List DMatch)
  findHomography : List Event → List Point2f → List Point2f → Except Thrown Homography
  gui : List Event → Event → Option Thrown
  guiMain : List Event → Event → Option Thrown

/-! ## processCombination (lines 93-297) -/

/-- The stages of the try block in which a library call can throw. -/
inductive Stage
  | detection
  | description
  | matching
  | homography
  | display
  deriving DecidableEq

/-- How the try block of processCombination is left: by one of its return statements
(named by its source line), through one of the handlers of lines 280-286, by running
to its end, or by an access outside a keypoint vector, whose behaviour is undefined. -/
inductive Exit
  | returnedAt (line : Nat)
  | caught (stage : Stage) (e : Thrown)
  | undefinedBehaviour
  | completed
  deriving DecidableEq

/-- The exits of the try block that precede the assignment of line 196. -/
def Exit.beforeCounts : Exit → Bool
  | .returnedAt _ => true
  | .caught .detection _ => true
  | .caught .description _ => true
  | .caught .matching _ => true
  | _ => false

/-- The outcome of one stage. -/
inductive Outcome (α : Type)
  | ok (a : α)
  | thrown (e : Thrown)
  | undefinedBehaviour

/-- The state of a call of processCombination when it ends: how the try block was
left, the local variable result, and the events so far. -/
structure Run where
  exit : Exit
  result : MatchResult
  trace : List Event

/-- Lines 119-129: keypoint detection on both images. -/
def detectKeypoints (cv : OpenCV) (detectorName : String) (detector : Feature2D)
    (img1 img2 : Image) (trace : List Event) :
    Except Thrown (List KeyPoint × List KeyPoint) × List Event :=
  let used := if detectorName == "BRIEF" || detectorName == "FREAK" then Feature2D.FAST 20
    else detector
  match cv.detect trace used img1 with
  | .error e => (.error e, trace ++ [.detect used 1])
  | .ok keypoints1 =>
    match cv.detect (trace ++ [.detect used 1]) used img2 with
    | .error e => (.error e, trace ++ [.detect used 1, .detect used 2])
    | .ok keypoints2 => (.ok (keypoints1, keypoints2), trace ++ [.detect used 1, .detect used 2])

/-- Line 132. -/
def MAX_KEYPOINTS : Nat := 500

/-- Lines 133-138: resize to MAX_KEYPOINTS when there are more. -/
def limitKeypoints (keypoints : List KeyPoint) : List KeyPoint :=
  if keypoints.length > MAX_KEYPOINTS then keypoints.take MAX_KEYPOINTS else keypoints

/-- Lines 144-146: descriptor computation on both images; compute may also change the
keypoint vector it is given. -/
def computeDescriptors (cv : OpenCV) (descriptor : Feature2D) (img1 img2 : Image)
    (keypoints1 keypoints2 : List KeyPoint) (trace : List Event) :
    Except Thrown ((List KeyPoint × Descriptors) × (List KeyPoint × Descriptors)) ×
      List Event :=
  match cv.compute trace descriptor img1 keypoints1 with
  | .error e => (.error e, trace ++ [.compute descriptor 1])
  | .ok r1 =>
    match cv.compute (trace ++ [.compute descriptor 1]) descriptor img2 keypoints2 with
    | .error e => (.error e, trace ++ [.compute descriptor 1, .compute descriptor 2])
    | .ok r2 => (.ok (r1, r2), trace ++ [.compute descriptor 1, .compute descriptor 2])

/-- Lines 190-191: the fictitious second neighbour. -/
def fictitiousMatch (m : DMatch) : DMatch :=
  { DMatch.default with distance := m.distance * (15 / 10) }

/-- The method vector::resize on the list of neighbour lists. -/
def resizeTo (n : Nat) (v : List (List DMatch)) : List (List DMatch) :=
  v.take n ++ List.replicate (n - v.length) []

/-- Lines 186-193: knnMatches is resized to the number of regular matches and each
entry receives the regular match followed by the fictitious one. -/
def fallbackKnn (knnMatches : List (List DMatch)) (regularMatches : List DMatch) :
    List (List DMatch) :=
  List.zipWith (fun entry m => entry ++ [m, fictitiousMatch m])
    (resizeTo regularMatches.length knnMatches) regularMatches

/-- Lines 176-194: k-NN matching with k = 2; a cv::Exception is handled by the inner
handler, which falls back on single matching; any other exception propagates. -/
def matchDescriptors (cv : OpenCV) (matcher : DescriptorMatcher)
    (descriptors1 descriptors2 : Descriptors) (trace : List Event) :
    Except Thrown (List (List DMatch)) × List Event :=
  match cv.knnMatch trace matcher descriptors1 descriptors2 2 with
  | (knnMatches, none) => (.ok knnMatches, trace ++ [.knnMatch matcher 2])
  | (knnMatches, some .cvException) =>
    match cv.matchSingle (trace ++ [.knnMatch matcher 2]) matcher descriptors1 descriptors2 with
    | .error e => (.error e, trace ++ [.knnMatch matcher 2, .matchSingle matcher])
    | .ok regularMatches =>
      (.ok (fallbackKnn knnMatches regularMatches),
        trace ++ [.knnMatch matcher 2, .matchSingle matcher])
  | (_, some e) => (.error e, trace ++ [.knnMatch matcher 2])

/-- The operator[] of a keypoint vector at an int index; none stands for an access
outside the vector. -/
def keypointAt (keypoints : List KeyPoint) (idx : Int) : Option KeyPoint :=
  if 0 ≤ idx then keypoints[idx.toNat]? else none

/-- Lines 219-225: the loop that builds obj and scene.  The result is none when an
access falls outside its vector. -/
def collectPoints (keypoints1 keypoints2 : List KeyPoint) :
    List DMatch → List Point2f → List Point2f → List Event →
      Option (List Point2f × List Point2f) × List Event
  | [], obj, scene, trace => (some (obj, scene), trace)
  | m :: rest, obj, scene, trace =>
    if m.queryIdx < intOfSize keypoints1.length ∧ m.trainIdx < intOfSize keypoints2.length then
      match keypointAt keypoints1 m.queryIdx with
      | none => (none, trace ++ [.keypoints1At m.queryIdx])
      | some k1 =>
        match keypointAt keypoints2 m.trainIdx with
        | none => (none, trace ++ [.keypoints1At m.queryIdx, .keypoints2At m.trainIdx])
        | some k2 =>
          collectPoints keypoints1 keypoints2 rest (obj ++ [k1.pt]) (scene ++ [k2.pt])
            (trace ++ [.keypoints1At m.queryIdx, .keypoints2At m.trainIdx])
    else collectPoints keypoints1 keypoints2 rest obj scene trace

/-- Lines 213-231: homography estimation.  Returns the matrix homography, the updated
result and the events. -/
def homographyStage (cv : OpenCV) (goodMatches : List DMatch)
    (keypoints1 keypoints2 : List KeyPoint) (result : MatchResult) (trace : List Event) :
    Outcome Homography × MatchResult × List Event :=
  if goodMatches.length ≥ 4 then
    match collectPoints keypoints1 keypoints2 goodMatches [] [] trace with
    | (none, trace) => (.undefinedBehaviour, result, trace)
    | (some (obj, scene), trace) =>
      if obj.length ≥ 4 ∧ scene.length ≥ 4 then
        match cv.findHomography trace obj scene with
        | .error e => (.thrown e, result, trace ++ [.findHomography obj scene])
        | .ok homography =>
          (.ok homography, { result with homographySuccess := !homography.empty },
            trace ++ [.findHomography obj scene])
      else (.ok [], result, trace)
  else (.ok [], result, trace)

/-- The library calls of lines 235-278, in order. -/
def showCalls (detectorName descriptorName matcherName : String)
    (homographySuccess isSpecificCombination : Bool) : List Event :=
  [.drawMatches] ++
    (if homographySuccess then [.perspectiveTransform, .line, .line, .line, .line] else []) ++
    [.imwrite ("result_" ++ detectorName ++ "_" ++ descriptorName ++ "_" ++ matcherName ++ ".jpg"),
      .namedWindow (detectorName ++ "_" ++ descriptorName ++ "_" ++ matcherName),
      .imshow (detectorName ++ "_" ++ descriptorName ++ "_" ++ matcherName),
      .waitKey (if isSpecificCombination then 0 else 500),
      .destroyWindow (detectorName ++ "_" ++ descriptorName ++ "_" ++ matcherName)]

/-- A sequence of display calls, left at the first one that throws. -/
def runCalls (cv : OpenCV) : List Event → List Event → Option Thrown × List Event
  | [], trace => (none, trace)
  | c :: rest, trace =>
    match cv.gui trace c with
    | some e => (some e, trace ++ [c])
    | none => runCalls cv rest (trace ++ [c])

/-- Lines 233-279: saving and showing the result image. -/
def showResult (cv : OpenCV) (detectorName descriptorName matcherName : String)
    (saveResult isSpecificCombination : Bool) (goodMatches : List DMatch)
    (result : MatchResult) (trace : List Event) : Option Thrown × List Event :=
  if saveResult && !goodMatches.isEmpty then
    runCalls cv (showCalls detectorName descriptorName matcherName result.homographySuccess
      isSpecificCombination) trace
  else (none, trace)

/-- Lines 196-279: the try block from the point where knnMatches is known. -/
def afterMatching (cv : OpenCV) (detectorName descriptorName matcherName : String)
    (saveResult isSpecificCombination : Bool) (isBinary : Bool)
    (keypoints1 keypoints2 : List KeyPoint) (knnMatches : List (List DMatch))
    (result : MatchResult) (trace : List Event) : Run :=
  let result := { result with numMatches := intOfSize knnMatches.length }
  let goodMatches := filterGoodMatches (RATIO_THRESHOLD isBinary) knnMatches
  let result := { result with numGoodMatches := intOfSize goodMatches.length }
  match homographyStage cv goodMatches keypoints1 keypoints2 result trace with
  | (.undefinedBehaviour, result, trace) => ⟨.undefinedBehaviour, result, trace⟩
  | (.thrown e, result, trace) => ⟨.caught .homography e, result, trace⟩
  | (.ok _, result, trace) =>
    match showResult cv detectorName descriptorName matcherName saveResult
        isSpecificCombination goodMatches result trace with
    | (some e, trace) => ⟨.caught .display e, result, trace⟩
    | (none, trace) => ⟨.completed, result, trace⟩

/-- Lines 109-279: the try block. -/
def tryBlock (cv : OpenCV) (img1 img2 : Image)
    (detectorName descriptorName matcherName : String)
    (saveResult isSpecificCombination : Bool) (result : MatchResult) (trace : List Event) :
    Run :=
  match createDetector detectorName, createDescriptor descriptorName with
  | some detector, some descriptor =>
    match detectKeypoints cv detectorName detector img1 img2 trace with
    | (.error e, trace) => ⟨.caught .detection e, result, trace⟩
    | (.ok (keypoints1, keypoints2), trace) =>
      match computeDescriptors cv descriptor img1 img2 (limitKeypoints keypoints1)
          (limitKeypoints keypoints2) trace with
      | (.error e, trace) => ⟨.caught .description e, result, trace⟩
      | (.ok ((keypoints1, descriptors1), (keypoints2, descriptors2)), trace) =>
        if descriptors1.empty || descriptors2.empty then ⟨.returnedAt 150, result, trace⟩
        else
          let isBinary := isBinaryDescriptor descriptorName
          let convert := matcherName == "FLANN" && !isBinary
          let descriptors1 := if convert then descriptors1.toCV32F else descriptors1
          let descriptors2 := if convert then descriptors2.toCV32F else descriptors2
          match createMatcher matcherName isBinary with
          | none => ⟨.returnedAt 172, result, trace⟩
          | some matcher =>
            match matchDescriptors cv matcher descriptors1 descriptors2 trace with
            | (.error e, trace) => ⟨.caught .matching e, result, trace⟩
            | (.ok knnMatches, trace) =>
              afterMatching cv detectorName descriptorName matcherName saveResult
                isSpecificCombination isBinary keypoints1 keypoints2 knnMatches result trace
  | _, _ => ⟨.returnedAt 115, result, trace⟩

/-- The function processCombination of the source.  The trace argument holds the
events that precede the call.  A return statement inside the try block leaves the
function before the time is measured (lines 288-290). -/
def processCombination (cv : OpenCV) (img1 img2 : Image)
    (detectorName descriptorName matcherName : String)
    (saveResult isSpecificCombination : Bool) (trace : List Event) : Run :=
  let result : MatchResult := ⟨0, 0, 0, false⟩
  let trace := trace ++ [.procesando detectorName descriptorName matcherName]
  let start := cv.clock trace
  let run := tryBlock cv img1 img2 detectorName descriptorName matcherName saveResult
    isSpecificCombination result (trace ++ [.now])
  match run.exit with
  | .returnedAt _ => run
  | .undefinedBehaviour => run
  | _ =>
    { run with
      result := { run.result with
        processingTime := Int.tdiv (cv.clock run.trace - start) 1000000 }
      trace := run.trace ++ [.now] }

/-- The test of lines 220-221 that guards the two accesses. -/
def passesBoundsCheck (keypoints1 keypoints2 : List KeyPoint) (m : DMatch) : Bool :=
  decide (m.queryIdx < intOfSize keypoints1.length ∧ m.trainIdx < intOfSize keypoints2.length)

/-- Whether an event is a call of findHomography. -/
def Event.isFindHomography : Event → Bool
  | .findHomography _ _ => true
  | _ => false

/-- The number of calls of findHomography among the events. -/
def estimatorCalls (trace : List Event) : Nat := trace.countP Event.isFindHomography

/-! ## The results mapping and the full-grid traversal (lines 355-358, 437-467) -/

/-- The key type tuple<string, string, string> of the results mapping. -/
abbrev CombinationKey := String × String × String

/-- The operator< of std::tuple: lexicographic, built from the operator< of the
components alone. -/
def tupleLess (a b : CombinationKey) : Bool :=
  decide (a.1 < b.1) ||
    (!decide (b.1 < a.1) &&
      (decide (a.2.1 < b.2.1) ||
        (!decide (b.2.1 < a.2.1) && decide (a.2.2 < b.2.2))))

/-- The std::map of line 438, as the sequence of its entries in iteration order, that
is in ascending key order. -/
abbrev Results := List (CombinationKey × MatchResult)

/-- The statement results[key] = value: the entry of an equivalent key receives the
value, otherwise a new entry is inserted at the place the key order gives it. -/
def mapAssign : Results → CombinationKey → MatchResult → Results
  | [], key, value => [(key, value)]
  | (k, v) :: rest, key, value =>
    if tupleLess key k then (key, value) :: (k, v) :: rest
    else if tupleLess k key then (k, v) :: mapAssign rest key value
    else (k, value) :: rest

/-- Line 356. -/
def detectors : List String := ["SIFT", "SURF", "ORB", "FAST", "BRISK"]

/-- Line 357. -/
def descriptors : List String := ["SIFT", "SURF", "ORB", "BRIEF", "FREAK", "BRISK"]

/-- Line 358. -/
def matchers : List String := ["BF", "FLANN"]

/-- The two ways in which the traversal can end before its last combination: an
exception that no handler catches, or undefined behaviour. -/
inductive Abort
  | uncaught (e : Thrown)
  | undefinedBehaviour
  deriving DecidableEq

/-- The state of the traversal: the results mapping, the events so far, and whether
the program was aborted. -/
structure GridState where
  results : Results
  trace : List Event
  aborted : Option Abort

/-- Lines 450-464: the body of the innermost loop. -/
def combinationBody (cv : OpenCV) (img_object img_scene : Image)
    (detector descriptor matcher : String) (st : GridState) : GridState :=
  let isBinary := isBinaryDescriptor descriptor
  if matcher == "FLANN" && isBinary then st
  else
    let run := processCombination cv img_object img_scene detector descriptor matcher
      true false st.trace
    match run.exit with
    | .undefinedBehaviour => ⟨st.results, run.trace, some .undefinedBehaviour⟩
    | _ =>
      let results := mapAssign st.results (detector, descriptor, matcher) run.result
      match cv.guiMain run.trace (.waitKey 500) with
      | some e => ⟨results, run.trace ++ [.waitKey 500], some (.uncaught e)⟩
      | none =>
        match cv.guiMain (run.trace ++ [.waitKey 500]) .destroyAllWindows with
        | some e => ⟨results, run.trace ++ [.waitKey 500, .destroyAllWindows], some (.uncaught e)⟩
        | none => ⟨results, run.trace ++ [.waitKey 500, .destroyAllWindows], none⟩

/-- Lines 449-465: the loop over the matchers. -/
def matcherLoop (cv : OpenCV) (img_object img_scene : Image) (detector descriptor : String)
    (st : GridState) : GridState :=
  matchers.foldl
    (fun st matcher =>
      if st.aborted.isSome then st
      else combinationBody cv img_object img_scene detector descriptor matcher st)
    st

/-- Lines 444-466: the loop over the descriptors. -/
def descriptorLoop (cv : OpenCV) (img_object img_scene : Image) (detector : String)
    (st : GridState) : GridState :=
  descriptors.foldl
    (fun st descriptor =>
      if st.aborted.isSome then st
      else if !isCombinationValid detector descriptor then st
      else matcherLoop cv img_object img_scene detector descriptor st)
    st

/-- Lines 438-467 with processAll set: the loop over the detectors, from an empty
results mapping. -/
def runGrid (cv : OpenCV) (img_object img_scene : Image) (trace : List Event) : GridState :=
  detectors.foldl
    (fun st detector =>
      if st.aborted.isSome then st
      else descriptorLoop cv img_object img_scene detector st)
    ⟨[], trace, none⟩

/-! ## Ranking (lines 495-507) -/

/-- The loop of std::max_element: the candidate is replaced when comp(candidate, next)
holds. -/
def maxLoop {α : Type} (comp : α → α → Bool) : α → List α → α
  | largest, [] => largest
  | largest, x :: rest => if comp largest x then maxLoop comp x rest else maxLoop comp largest rest

/-- The algorithm std::max_element over a range; none is the end iterator. -/
def max_element {α : Type} (comp : α → α → Bool) : List α → Option α
  | [] => none
  | first :: rest => some (maxLoop comp first rest)

/-- The loop of std::min_element: the candidate is replaced when comp(next, candidate)
holds. -/
def minLoop {α : Type} (comp : α → α → Bool) : α → List α → α
  | smallest, [] => smallest
  | smallest, x :: rest =>
    if comp x smallest then minLoop comp x rest else minLoop comp smallest rest

/-- The algorithm std::min_element over a range; none is the end iterator. -/
def min_element {α : Type} (comp : α → α → Bool) : List α → Option α
  | [] => none
  | first :: rest => some (minLoop comp first rest)

/-- Lines 496-500. -/
def bestMatch (results : Results) : Option (CombinationKey × MatchResult) :=
  max_element (fun a b => decide (a.2.numGoodMatches < b.2.numGoodMatches)) results

/-- Lines 503-507. -/
def fastestMatch (results : Results) : Option (CombinationKey × MatchResult) :=
  min_element (fun a b => decide (a.2.processingTime < b.2.processingTime)) results

/-- The entries stand in strictly ascending key order. -/
def Results.Ordered (results : Results) : Prop :=
  results.Pairwise (fun x y => tupleLess x.1 y.1 = true)

/-- The combinations in the order in which processCombination announces them on the
console (line 103). -/
def traversalOrder (trace : List Event) : List CombinationKey :=
  trace.filterMap fun e =>
    match e with
    | .procesando detectorName descriptorName matcherName =>
      some (detectorName, descriptorName, matcherName)
    | _ => none

/-- The combinations that the traversal leaves out at lines 455-457. -/
def isFlannWithBinary (key : CombinationKey) : Bool :=
  key.2.2 == "FLANN" && isBinaryDescriptor key.2.1

/-- The library never reports a negative index in a match. -/
def OpenCV.indicesNonneg (cv : OpenCV) : Prop :=
  (∀ hist matcher d1 d2 k, ∀ entry ∈ (cv.knnMatch hist matcher d1 d2 k).1, ∀ m ∈ entry,
      0 ≤ m.queryIdx ∧ 0 ≤ m.trainIdx) ∧
    (∀ hist matcher d1 d2 regular, cv.matchSingle hist matcher d1 d2 = .ok regular →
      ∀ m ∈ regular, 0 ≤ m.queryIdx ∧ 0 ≤ m.trainIdx)

/-- The calls that main itself makes after each combination (lines 463-464) return
normally. -/
def OpenCV.loopCallsReturn (cv : OpenCV) : Prop :=
  ∀ hist e, cv.guiMain hist e = none

/-- The effect of mapAssign on the sequence of keys. -/
def insertKey : List CombinationKey → CombinationKey → List CombinationKey
  | [], key => [key]
  | k :: rest, key =>
    if tupleLess key k then key :: k :: rest
    else if tupleLess k key then k :: insertKey rest key
    else k :: rest

/-- The keys that the three loops of lines 443-467 record when every combination is
attempted. -/
def gridKeys : List CombinationKey :=
  detectors.foldl
    (fun keys detector =>
      descriptors.foldl
        (fun keys descriptor =>
          if !isCombinationValid detector descriptor then keys
          else
            matchers.foldl
              (fun keys matcher =>
                if matcher == "FLANN" && isBinaryDescriptor descriptor then keys
                else insertKey keys (detector, descriptor, matcher))
              keys)
        keys)
    []

/-- The traversal is not aborted and has recorded the given keys. -/
def keysRecorded (st : GridState) (keys : List CombinationKey) : Prop :=
  st.aborted = none ∧ st.results.map Prod.fst = keys

/-! ## The program (lines 309-546) -/

/-- The method Mat::empty on an image. -/
def Image.empty (img : Image) : Bool := img.cols * img.rows == 0

/-- What the program receives from outside: the image files (which change while results
are written, hence the events), the resizing of the library, the command-line arguments
argv[1], argv[2], ... and the integers read from the console, in the order in which they
are asked for; every extraction is taken to succeed. -/
structure Environment where
  imread : List Event → String → Image
  resize : Image → ℚ → Image
  args : List String
  input : Nat → Int

/-- Lines 311-339: the three attempts to load the two images; none stands for the
return of line 336. -/
def loadImages (imread : List Event → String → Image) : Option (Image × Image) :=
  if (imread [] "../Data/box.png").empty || (imread [] "../Data/box_in_scene.png").empty then
    if (imread [] "../Data/ima1.png").empty || (imread [] "../Data/ima21.png").empty then
      if (imread [] "Data/box.png").empty || (imread [] "Data/box_in_scene.png").empty then none
      else some (imread [] "Data/box.png", imread [] "Data/box_in_scene.png")
    else some (imread [] "../Data/ima1.png", imread [] "../Data/ima21.png")
  else some (imread [] "../Data/box.png", imread [] "../Data/box_in_scene.png")

/-- Line 344. -/
def MAX_SIZE : Nat := 800

/-- Lines 346 and 351: the scale min(MAX_SIZE / cols, MAX_SIZE / rows). -/
def scaleOf (img : Image) : ℚ := min ((MAX_SIZE : ℚ) / img.cols) ((MAX_SIZE : ℚ) / img.rows)

/-- Lines 345-348 and 350-353: an image larger than MAX_SIZE in one dimension is
resized with the same scale on both axes. -/
def downscale (resize : Image → ℚ → Image) (img : Image) : Image :=
  if img.cols > MAX_SIZE ∨ img.rows > MAX_SIZE then resize img (scaleOf img) else img

/-- What lines 360-435 decide: all combinations, one combination, or one of the
returns of lines 393, 410, 427 and 433. -/
inductive Selection
  | all
  | specific (detector descriptor matcher : String)
  | invalid
  deriving DecidableEq

/-- Lines 360-435. -/
def selectCombination (args : List String) (input : Nat → Int) : Selection :=
  match args with
  | requestedDetector :: requestedDescriptor :: requestedMatcher :: _ =>
    .specific requestedDetector requestedDescriptor requestedMatcher
  | _ =>
    if input 0 = 1 then .all
    else if input 0 = 2 then
      if input 1 < 1 ∨ input 1 > intOfSize detectors.length then .invalid
      else if input 2 < 1 ∨ input 2 > intOfSize descriptors.length then .invalid
      else if input 3 < 1 ∨ input 3 > intOfSize matchers.length then .invalid
      else
        .specific (detectors.getD (input 1 - 1).toNat "") (descriptors.getD (input 2 - 1).toNat "")
          (matchers.getD (input 3 - 1).toNat "")
    else .invalid

/-- What lines 479-519 print: the table of results and the two selected entries. -/
structure Report where
  results : Results
  best : Option (CombinationKey × MatchResult)
  fastest : Option (CombinationKey × MatchResult)
  deriving DecidableEq

/-- How the program ends: by a return statement of main, or aborted. -/
inductive Termination
  | returned (code : Int)
  | aborted (a : Abort)
  deriving DecidableEq

/-- The outcome of a run of the program; report is none when the table of results was
not printed. -/
structure MainRun where
  termination : Termination
  report : Option Report
  trace : List Event

/-- A sequence of display calls made by main itself, left at the first one that throws. -/
def runMainCalls (cv : OpenCV) : List Event → List Event → Option Thrown × List Event
  | [], trace => (none, trace)
  | c :: rest, trace =>
    match cv.guiMain trace c with
    | some e => (some e, trace ++ [c])
    | none => runMainCalls cv rest (trace ++ [c])

/-- Lines 479-545: the report, and with processAll the display of the image saved for
the best combination. -/
def reportResults (cv : OpenCV) (env : Environment) (processAll : Bool) (results : Results)
    (trace : List Event) : MainRun :=
  let report : Report := ⟨results, bestMatch results, fastestMatch results⟩
  match processAll, bestMatch results with
  | true, some best =>
    let name := best.1.1 ++ "_" ++ best.1.2.1 ++ "_" ++ best.1.2.2
    if (env.imread trace ("result_" ++ name ++ ".jpg")).empty then
      ⟨.returned 0, some report, trace⟩
    else
      match runMainCalls cv
          [.namedWindow ("Mejor combinación: " ++ name), .imshow ("Mejor combinación: " ++ name),
            .waitKey 0, .destroyWindow ("Mejor combinación: " ++ name)] trace with
      | (some e, trace) => ⟨.aborted (.uncaught e), some report, trace⟩
      | (none, trace) => ⟨.returned 0, some report, trace⟩
  | _, _ => ⟨.returned 0, some report, trace⟩

/-- The function main of the source. -/
def main (cv : OpenCV) (env : Environment) : MainRun :=
  match loadImages env.imread with
  | none => ⟨.returned (-1), none, []⟩
  | some (img_object, img_scene) =>
    match selectCombination env.args env.input with
    | .invalid => ⟨.returned (-1), none, []⟩
    | .all =>
      let st := runGrid cv (downscale env.resize img_object) (downscale env.resize img_scene) []
      match st.aborted with
      | some a => ⟨.aborted a, none, st.trace⟩
      | none => reportResults cv env true st.results st.trace
    | .specific requestedDetector requestedDescriptor requestedMatcher =>
      if !isCombinationValid requestedDetector requestedDescriptor then
        ⟨.returned (-1), none, []⟩
      else
        let run := processCombination cv (downscale env.resize img_object)
          (downscale env.resize img_scene) requestedDetector requestedDescriptor
          requestedMatcher true true []
        match run.exit with
        | .undefinedBehaviour => ⟨.aborted .undefinedBehaviour, none, run.trace⟩
        | _ =>
          reportResults cv env false
            (mapAssign [] (requestedDetector, requestedDescriptor, requestedMatcher) run.result)
            run.trace

/-! ## The estimated matrix -/

/-- The determinant of a matrix of three rows of three entries, and 0 for any other
shape. -/
def Homography.det (h : Homography) : ℚ :=
  match h with
  | [[a, b, c], [d, e, f], [g, k, l]] =>
    a * (e * l - f * k) - b * (d * l - f * g) + c * (d * k - e * g)
  | _ => 0

/-- A present and invertible 3x3 matrix. -/
def Homography.nonDegenerate (h : Homography) : Bool :=
  h.length == 3 && h.all (fun row => row.length == 3) && decide (h.det ≠ 0)

/-- The descriptor computation of the library returns one descriptor row for each
keypoint that it returns. -/
def OpenCV.oneRowPerKeypoint (cv : OpenCV) : Prop :=
  ∀ hist descriptor img keypoints keypoints1 descriptors,
    cv.compute hist descriptor img keypoints = .ok (keypoints1, descriptors) →
      descriptors.rows = keypoints1.length

/-- The descriptor computation of the library changes the keypoint vector only by
removing keypoints that it cannot describe. -/
def OpenCV.onlyRemovesKeypoints (cv : OpenCV) : Prop :=
  ∀ hist descriptor img keypoints keypoints1 descriptors,
    cv.compute hist descriptor img keypoints = .ok (keypoints1, descriptors) →
      keypoints1.Sublist keypoints

/-- The points at which the loop of lines 219-225 reads the first keypoint vector, for
the matches that pass the test of lines 220-221. -/
def objPoints (keypoints1 keypoints2 : List KeyPoint) (goodMatches : List DMatch) :
    List Point2f :=
  (goodMatches.filter (passesBoundsCheck keypoints1 keypoints2)).filterMap
    (fun m => (keypointAt keypoints1 m.queryIdx).map KeyPoint.pt)

/-- The points at which the loop of lines 219-225 reads the second keypoint vector. -/
def scenePoints (keypoints1 keypoints2 : List KeyPoint) (goodMatches : List DMatch) :
    List Point2f :=
  (goodMatches.filter (passesBoundsCheck keypoints1 keypoints2)).filterMap
    (fun m => (keypointAt keypoints2 m.trainIdx).map KeyPoint.pt)

/-- The lists of matches that the library returns have fewer than 2^31 entries, so that
their sizes fit an int. -/
def OpenCV.sizesFitInt (cv : OpenCV) : Prop :=
  (∀ hist matcher d1 d2 k, (cv.knnMatch hist matcher d1 d2 k).1.length < 2147483648) ∧
    (∀ hist matcher d1 d2 regular, cv.matchSingle hist matcher d1 d2 = .ok regular →
      regular.length < 2147483648)

/-! ## Sample inputs -/

/-- Four keypoints, the corners of the unit square. -/
def sampleKeypoints : List KeyPoint := [⟨⟨0, 0⟩⟩, ⟨⟨1, 0⟩⟩, ⟨⟨1, 1⟩⟩, ⟨⟨0, 1⟩⟩]

/-- Four neighbour lists that all pass the ratio test for both thresholds. -/
def sampleKnn : List (List DMatch) :=
  [[⟨0, 0, 0, 1⟩, ⟨0, 1, 0, 2⟩], [⟨1, 1, 0, 1⟩, ⟨1, 2, 0, 2⟩],
    [⟨2, 2, 0, 1⟩, ⟨2, 3, 0, 2⟩], [⟨3, 3, 0, 1⟩, ⟨3, 0, 0, 2⟩]]

/-- A clock that advances by one millisecond with every event. -/
def eventClock (trace : List Event) : Int := 1000000 * trace.length

/-- A clock too coarse to advance during the run. -/
def frozenClock (_trace : List Event) : Int := 0

/-- A library in which detection finds the four sample keypoints, every keypoint gets a
descriptor, matching returns the given lists, no display call throws, findHomography
answers as given, and the time is read from the given clock. -/
def sampleCV (clock : List Event → Int) (knnMatches : List (List DMatch))
    (estimate : Except Thrown Homography) : OpenCV where
  clock := clock
  detect := fun _ _ _ => .ok sampleKeypoints
  compute := fun _ _ _ keypoints => .ok (keypoints, ⟨keypoints.length, 32, false, []⟩)
  knnMatch := fun _ _ _ _ _ => (knnMatches, none)
  matchSingle := fun _ _ _ _ => .ok []
  findHomography := fun _ _ _ => estimate
  gui := fun _ _ => none
  guiMain := fun _ _ => none

/-- An image of one pixel. -/
def sampleImage : Image := ⟨1, 1, [0]⟩

/-- Four good matches, the first of which carries the query index -1. -/
def negativeIndexMatches : List DMatch :=
  [⟨-1, 0, 0, 1⟩, ⟨1, 1, 0, 1⟩, ⟨2, 2, 0, 1⟩, ⟨3, 3, 0, 1⟩]

/-- Three good matches without a negative index; the query index of the second lies
beyond the four sample keypoints. -/
def mixedMatches : List DMatch := [⟨0, 0, 0, 1⟩, ⟨7, 1, 0, 1⟩, ⟨2, 2, 0, 1⟩]

/-- Six hundred detected keypoints. -/
def manyKeypoints : List KeyPoint := List.replicate 600 ⟨⟨0, 0⟩⟩

/-- A library whose descriptor computation cannot describe the last keypoint it is given
and removes it, as the library does for a keypoint too close to the image border;
otherwise the sample library. -/
def droppingCV : OpenCV :=
  { sampleCV eventClock sampleKnn (.ok [[1]]) with
    compute := fun _ _ _ keypoints =>
      .ok (keypoints.dropLast, ⟨keypoints.dropLast.length, 32, false, []⟩) }

/-- The full-grid traversal in the sample library whose estimator returns a matrix. -/
def sampleGrid : GridState :=
  runGrid (sampleCV frozenClock sampleKnn (.ok [[1]])) sampleImage sampleImage []

/-- A library whose knnMatch throws a cv::Exception without filling its output and
whose single matching returns the given matches. -/
def fallbackCV (regularMatches : List DMatch) : OpenCV where
  clock := eventClock
  detect := fun _ _ _ => .ok sampleKeypoints
  compute := fun _ _ _ keypoints => .ok (keypoints, ⟨keypoints.length, 32, false, []⟩)
  knnMatch := fun _ _ _ _ _ => ([], some .cvException)
  matchSingle := fun _ _ _ _ => .ok regularMatches
  findHomography := fun _ _ _ => .ok []
  gui := fun _ _ => none
  guiMain := fun _ _ => none

/-- The value of a stage that ended normally. -/
def Outcome.value? {α : Type} : Outcome α → Option α
  | .ok a => some a
  | _ => none

/-- An environment in which every image file holds the one-pixel image, resizing leaves
an image as it is, the command line carries the given arguments and every number typed
is the given one. -/
def sampleEnvironment (args : List String) (typed : Int) : Environment where
  imread := fun _ _ => sampleImage
  resize := fun img _ => img
  args := args
  input := fun _ => typed

/-- A library in which detection finds no keypoint, so that both descriptor matrices
are empty; the time is read from the clock that advances with every event. -/
def featurelessCV : OpenCV where
  clock := eventClock
  detect := fun _ _ _ => .ok []
  compute := fun _ _ _ keypoints => .ok (keypoints, ⟨keypoints.length, 32, false, []⟩)
  knnMatch := fun _ _ _ _ _ => ([], none)
  matchSingle := fun _ _ _ _ => .ok []
  findHomography := fun _ _ _ => .ok []
  gui := fun _ _ => none
  guiMain := fun _ _ => none

/-- A results mapping with one measured combination and one that returned early. -/
def sampleResults : Results :=
  [(("ORB", "ORB", "BF"), ⟨4, 4, 12, true⟩), (("SIFT", "SIFT", "BF"), ⟨0, 0, 0, false⟩)]

/-- An image of 1600 columns and 1200 rows; the pixels play no part. -/
def largeImage : Image := ⟨1600, 1200, []⟩

/-- The 3x3 matrix of zeros. -/
def zeroMatrix : Homography := [[0, 0, 0], [0, 0, 0], [0, 0, 0]]

end CombinationTester

/-! # The single-combination program (taller2c2/surf_surf.cpp) -/

namespace SurfSurf

open CombinationTester

/-- Line 79. -/
def MAX_KEYPOINTS : Nat := 500

/-- The method Mat::rowRange(startrow, endrow): the rows from startrow up to endrow,
endrow excluded; a range that does not fit the matrix raises a cv::Exception. -/
def rowRange (d : Descriptors) (startrow endrow : Nat) : Except Thrown Descriptors :=
  if startrow ≤ endrow ∧ endrow ≤ d.rows then
    .ok { d with
      rows := endrow - startrow
      data := (d.data.drop (startrow * d.cols)).take ((endrow - startrow) * d.cols) }
  else .error .cvException

/-- Lines 78-83 (and 85-88 for the scene): keypoints and descriptors are cut to
MAX_KEYPOINTS when there are more keypoints. -/
def limitFeatures (keypoints : List KeyPoint) (descriptors : Descriptors) :
    Except Thrown (List KeyPoint × Descriptors) :=
  if keypoints.length > MAX_KEYPOINTS then
    match rowRange descriptors 0 MAX_KEYPOINTS with
    | .ok cut => .ok (keypoints.take MAX_KEYPOINTS, cut)
    | .error e => .error e
  else .ok (keypoints, descriptors)

end SurfSurf

/-! # Interactive segmentation (segmentacion2/main.cpp) -/

namespace Segmentacion

/-- The cv::Point of the source. -/
structure Point where
  x : Int
  y : Int
  deriving DecidableEq

/-- The cv::Rect of the source; all values stay far inside the range of int. -/
structure Rect where
  x : Int
  y : Int
  width : Int
  height : Int
  deriving DecidableEq

/-- Lines 66-82 of mouse: the rectangle spanned by the start and end points. -/
def rectOfPoints (p1 p2 : Point) : Rect :=
  let (x, width) := if p1.x > p2.x then (p2.x, p1.x - p2.x) else (p1.x, p2.x - p1.x)
  let (y, height) := if p1.y > p2.y then (p2.y, p1.y - p2.y) else (p1.y, p2.y - p1.y)
  ⟨x, y, width, height⟩

/-- The function arreglar_bordes of the source, on the global rect and the size of the
global img. -/
def arreglar_bordes (rect : Rect) (cols rows : Int) : Rect :=
  let rect := if rect.width > cols - rect.x then { rect with width := cols - rect.x } else rect
  let rect := if rect.height > rows - rect.y then { rect with height := rows - rect.y } else rect
  let rect := if rect.x < 0 then { rect with x := 0 } else rect
  let rect := if rect.y < 0 then { rect with y := 0 } else rect
  rect

end Segmentacion

/-! # Coin classification (monedas/main.cpp) -/

namespace Monedas

/-- The struct CoinInfo of the source; the diameter is an exact rational. -/
structure CoinInfo where
  value : Int
  diameter_mm : ℚ
  color : Nat × Nat × Nat
  deriving DecidableEq

/-- The test diff < min_diff of line 25, where none stands for the initial value
INFINITY of min_diff. -/
def belowMin (diff : ℚ) (min_diff : Option ℚ) : Bool :=
  match min_diff with
  | none => true
  | some m => decide (diff < m)

/-- Lines 23-29: the loop over coin_types on the variables best_value and min_diff. -/
def classifyLoop (diameter_mm : ℚ) : List CoinInfo → Int → Option ℚ → Int
  | [], best_value, _ => best_value
  | coin :: rest, best_value, min_diff =>
    if belowMin |diameter_mm - coin.diameter_mm| min_diff then
      classifyLoop diameter_mm rest coin.value (some |diameter_mm - coin.diameter_mm|)
    else classifyLoop diameter_mm rest best_value min_diff

/-- The function classifyCoin of the source. -/
def classifyCoin (diameter_mm : ℚ) (coin_types : List CoinInfo) : Int :=
  classifyLoop diameter_mm coin_types 0 none

/-- Lines 36-42: the coin types of main. -/
def coin_types : List CoinInfo :=
  [⟨1, 20, (200, 200, 200)⟩, ⟨2, 215 / 10, (200, 255, 200)⟩, ⟨5, 23, (200, 200, 255)⟩,
    ⟨10, 245 / 10, (100, 100, 255)⟩, ⟨20, 26, (255, 200, 100)⟩]

end Monedas

namespace CombinationTester

/-! ## Ratio test: theorems -/

theorem passesRatioTest_two (t : ℚ) (d0 d1 : DMatch) (tail : List DMatch) :
    passesRatioTest t (d0 :: d1 :: tail) = decide (d0.distance < t * d1.distance) := by
  simp [passesRatioTest]

theorem passesRatioTest_short (t : ℚ) (entry : List DMatch) (h : entry.length < 2) :
    passesRatioTest t entry = false := by
  have : ¬ 2 ≤ entry.length := by omega
  simp [passesRatioTest, this]

theorem goodMatchesSpec_cons (t : ℚ) (entry : List DMatch) (rest : List (List DMatch)) :
    goodMatchesSpec t (entry :: rest) =
      (if passesRatioTest t entry then entry.head?.toList else []) ++ goodMatchesSpec t rest := by
  unfold goodMatchesSpec
  by_cases h : passesRatioTest t entry = true
  · cases entry with
    | nil => simp [passesRatioTest] at h
    | cons d0 tail => simp [List.filter_cons, h, List.filterMap_cons]
  · simp [List.filter_cons, h]

theorem filterLoop_eq (t : ℚ) (knnMatches : List (List DMatch)) (goodMatches : List DMatch) :
    filterLoop t knnMatches goodMatches = goodMatches ++ goodMatchesSpec t knnMatches := by
  induction knnMatches generalizing goodMatches with
  | nil => simp [filterLoop, goodMatchesSpec]
  | cons entry rest ih =>
    rw [goodMatchesSpec_cons]
    match entry with
    | [] => simp [filterLoop, ih, passesRatioTest]
    | [d0] => simp [filterLoop, ih, passesRatioTest]
    | d0 :: d1 :: tail =>
      rw [passesRatioTest_two]
      by_cases h : d0.distance < t * d1.distance
      · simp [filterLoop, ih, h]
      · simp [filterLoop, ih, h]

theorem filterGoodMatches_eq (t : ℚ) (knnMatches : List (List DMatch)) :
    filterGoodMatches t knnMatches = goodMatchesSpec t knnMatches := by
  simp [filterGoodMatches, filterLoop_eq]

theorem goodMatchesSpec_append (t : ℚ) (l₁ l₂ : List (List DMatch)) :
    goodMatchesSpec t (l₁ ++ l₂) = goodMatchesSpec t l₁ ++ goodMatchesSpec t l₂ := by
  simp [goodMatchesSpec, List.filter_append, List.filterMap_append]

theorem goodMatchesSpec_sublist (t : ℚ) (knnMatches : List (List DMatch)) :
    (goodMatchesSpec t knnMatches).Sublist (knnMatches.filterMap List.head?) := by
  unfold goodMatchesSpec
  exact List.Sublist.filterMap _ (List.filter_sublist _)

/-- C1: the good-match list built by processCombination is, in query order, exactly
the nearest neighbours of the entries that have at least two neighbours and satisfy
d0 < t * d1; an entry with fewer than two neighbours contributes nothing, wherever it
stands in the list. -/
theorem good_matches_are_ratio_survivors (t : ℚ) (knnMatches : List (List DMatch)) :
    filterGoodMatches t knnMatches =
        (knnMatches.filter (passesRatioTest t)).filterMap List.head? ∧
      (∀ (d0 d1 : DMatch) (tail : List DMatch),
        passesRatioTest t (d0 :: d1 :: tail) = decide (d0.distance < t * d1.distance)) ∧
      (∀ (before after : List (List DMatch)) (entry : List DMatch), entry.length < 2 →
        filterGoodMatches t (before ++ entry :: after) =
          filterGoodMatches t (before ++ after)) := by
  refine ⟨filterGoodMatches_eq t knnMatches, passesRatioTest_two t, ?_⟩
  intro before after entry h
  rw [filterGoodMatches_eq, filterGoodMatches_eq, goodMatchesSpec_append,
    goodMatchesSpec_append, goodMatchesSpec_cons, passesRatioTest_short t entry h]
  simp

/-- A single-neighbour entry in front of a passing entry is dropped by the filter. -/
theorem good_matches_are_ratio_survivors_witness :
    [DMatch.mk 0 0 0 1].length < 2 ∧
      filterGoodMatches (3 / 4) ([] ++ [DMatch.mk 0 0 0 1] :: [[⟨1, 1, 0, 1⟩, ⟨1, 2, 0, 2⟩]]) =
        filterGoodMatches (3 / 4) ([] ++ [[⟨1, 1, 0, 1⟩, ⟨1, 2, 0, 2⟩]]) :=
  ⟨by decide,
    (good_matches_are_ratio_survivors (3 / 4) []).2.2 [] [[⟨1, 1, 0, 1⟩, ⟨1, 2, 0, 2⟩]]
      [DMatch.mk 0 0 0 1] (by decide)⟩

theorem isBinaryDescriptor_of_mem (descriptorName : String) :
    (descriptorName ∈ ["ORB", "BRIEF", "BRISK", "FREAK"] →
        isBinaryDescriptor descriptorName = true) ∧
      (descriptorName ∉ ["ORB", "BRIEF", "BRISK", "FREAK"] →
        isBinaryDescriptor descriptorName = false) := by
  constructor
  · intro h
    simp only [List.mem_cons, List.mem_singleton, List.not_mem_nil, or_false] at h
    rcases h with h | h | h | h <;> subst h <;> decide
  · intro h
    simp only [List.mem_cons, List.mem_singleton, List.not_mem_nil, or_false, not_or] at h
    simp [isBinaryDescriptor, h]

/-! ## Homography stage: theorems -/

theorem estimatorCalls_append (t₁ t₂ : List Event) :
    estimatorCalls (t₁ ++ t₂) = estimatorCalls t₁ + estimatorCalls t₂ := by
  simp [estimatorCalls]

theorem collectPoints_spec (keypoints1 keypoints2 : List KeyPoint) (goodMatches : List DMatch)
    (obj scene : List Point2f) (trace : List Event) :
    estimatorCalls (collectPoints keypoints1 keypoints2 goodMatches obj scene trace).2 =
        estimatorCalls trace ∧
      ∀ obj1 scene1,
        (collectPoints keypoints1 keypoints2 goodMatches obj scene trace).1 =
            some (obj1, scene1) →
          obj1.length =
              obj.length + (goodMatches.filter (passesBoundsCheck keypoints1 keypoints2)).length ∧
            scene1.length =
              scene.length +
                (goodMatches.filter (passesBoundsCheck keypoints1 keypoints2)).length := by
  induction goodMatches generalizing obj scene trace with
  | nil => simp [collectPoints]
  | cons m rest ih =>
    rw [collectPoints]
    by_cases hc : m.queryIdx < intOfSize keypoints1.length ∧
        m.trainIdx < intOfSize keypoints2.length
    · have hp : passesBoundsCheck keypoints1 keypoints2 m = true := by
        simp [passesBoundsCheck, hc]
      rw [if_pos hc]
      cases h1 : keypointAt keypoints1 m.queryIdx with
      | none => simp [estimatorCalls_append, estimatorCalls, Event.isFindHomography]
      | some k1 =>
        cases h2 : keypointAt keypoints2 m.trainIdx with
        | none => simp [estimatorCalls_append, estimatorCalls, Event.isFindHomography]
        | some k2 =>
          simp only []
          obtain ⟨ih1, ih2⟩ := ih (obj ++ [k1.pt]) (scene ++ [k2.pt])
            (trace ++ [.keypoints1At m.queryIdx, .keypoints2At m.trainIdx])
          refine ⟨?_, ?_⟩
          · rw [ih1]
            simp [estimatorCalls_append, estimatorCalls, Event.isFindHomography]
          · intro obj1 scene1 h
            have := ih2 obj1 scene1 h
            simp [List.filter_cons, hp] at this ⊢
            omega
    · have hp : passesBoundsCheck keypoints1 keypoints2 m = false := by
        simp [passesBoundsCheck, hc]
      rw [if_neg hc]
      obtain ⟨ih1, ih2⟩ := ih obj scene trace
      refine ⟨ih1, ?_⟩
      intro obj1 scene1 h
      have := ih2 obj1 scene1 h
      simpa [List.filter_cons, hp] using this

theorem homographyStage_few (cv : OpenCV) (goodMatches : List DMatch)
    (keypoints1 keypoints2 : List KeyPoint) (result : MatchResult) (trace : List Event)
    (h : (goodMatches.filter (passesBoundsCheck keypoints1 keypoints2)).length < 4) :
    (homographyStage cv goodMatches keypoints1 keypoints2 result trace).2.1 = result ∧
      estimatorCalls (homographyStage cv goodMatches keypoints1 keypoints2 result trace).2.2 =
        estimatorCalls trace := by
  unfold homographyStage
  by_cases hl : goodMatches.length ≥ 4
  · rw [if_pos hl]
    obtain ⟨hc1, hc2⟩ := collectPoints_spec keypoints1 keypoints2 goodMatches [] [] trace
    rcases hcp : collectPoints keypoints1 keypoints2 goodMatches [] [] trace with ⟨_ | ⟨obj, scene⟩, tr⟩
    · rw [hcp] at hc1
      exact ⟨rfl, hc1⟩
    · rw [hcp] at hc1 hc2
      have hlen := (hc2 obj scene rfl).1
      simp only [List.length_nil, Nat.zero_add] at hlen
      have hno : ¬ (obj.length ≥ 4 ∧ scene.length ≥ 4) := by omega
      simp only []
      rw [if_neg hno]
      exact ⟨rfl, hc1⟩
  · rw [if_neg hl]
    exact ⟨rfl, rfl⟩

theorem homographyStage_short (cv : OpenCV) (goodMatches : List DMatch)
    (keypoints1 keypoints2 : List KeyPoint) (result : MatchResult) (trace : List Event)
    (h : goodMatches.length < 4) :
    homographyStage cv goodMatches keypoints1 keypoints2 result trace =
      (.ok [], result, trace) := by
  unfold homographyStage
  rw [if_neg (by omega)]

theorem estimatorCalls_single (e : Event) (h : e.isFindHomography = false) (t : List Event) :
    estimatorCalls (t ++ [e]) = estimatorCalls t := by
  simp [estimatorCalls, h]

theorem homographyStage_cases (cv : OpenCV) (goodMatches : List DMatch)
    (keypoints1 keypoints2 : List KeyPoint) (result : MatchResult) (trace : List Event) :
    (∃ tr, estimatorCalls tr = estimatorCalls trace ∧
        (homographyStage cv goodMatches keypoints1 keypoints2 result trace = (.ok [], result, tr) ∨
          homographyStage cv goodMatches keypoints1 keypoints2 result trace =
            (.undefinedBehaviour, result, tr))) ∨
      (∃ tr obj scene, estimatorCalls tr = estimatorCalls trace ∧ 4 ≤ obj.length ∧
        4 ≤ goodMatches.length ∧
        ((∃ e, homographyStage cv goodMatches keypoints1 keypoints2 result trace =
            (.thrown e, result, tr ++ [.findHomography obj scene])) ∨
          (∃ h, homographyStage cv goodMatches keypoints1 keypoints2 result trace =
            (.ok h, { result with homographySuccess := !h.empty },
              tr ++ [.findHomography obj scene])))) := by
  unfold homographyStage
  by_cases hl : goodMatches.length ≥ 4
  · rw [if_pos hl]
    obtain ⟨hc1, -⟩ := collectPoints_spec keypoints1 keypoints2 goodMatches [] [] trace
    rcases hcp : collectPoints keypoints1 keypoints2 goodMatches [] [] trace with
      ⟨_ | ⟨obj, scene⟩, tr⟩
    · rw [hcp] at hc1
      exact Or.inl ⟨tr, hc1, Or.inr rfl⟩
    · rw [hcp] at hc1
      simp only []
      by_cases hn : obj.length ≥ 4 ∧ scene.length ≥ 4
      · rw [if_pos hn]
        right
        refine ⟨tr, obj, scene, hc1, hn.1, hl, ?_⟩
        cases hf : cv.findHomography tr obj scene with
        | error e => exact Or.inl ⟨e, rfl⟩
        | ok h => exact Or.inr ⟨h, rfl⟩
      · rw [if_neg hn]
        exact Or.inl ⟨tr, hc1, Or.inl rfl⟩
  · rw [if_neg hl]
    exact Or.inl ⟨trace, rfl, Or.inl rfl⟩

theorem runCalls_estimatorCalls (cv : OpenCV) (calls : List Event)
    (h : ∀ c ∈ calls, c.isFindHomography = false) (trace : List Event) :
    estimatorCalls (runCalls cv calls trace).2 = estimatorCalls trace := by
  induction calls generalizing trace with
  | nil => rfl
  | cons c rest ih =>
    have hc : c.isFindHomography = false := h c (List.mem_cons_self _ _)
    rw [runCalls]
    cases cv.gui trace c with
    | some e => exact estimatorCalls_single c hc trace
    | none =>
      simp only []
      rw [ih (fun c hc => h c (List.mem_cons_of_mem _ hc)), estimatorCalls_single c hc]

theorem showResult_estimatorCalls (cv : OpenCV) (detectorName descriptorName matcherName : String)
    (saveResult isSpecificCombination : Bool) (goodMatches : List DMatch)
    (result : MatchResult) (trace : List Event) :
    estimatorCalls (showResult cv detectorName descriptorName matcherName saveResult
      isSpecificCombination goodMatches result trace).2 = estimatorCalls trace := by
  unfold showResult
  split
  · apply runCalls_estimatorCalls
    intro c hc
    simp only [showCalls, List.mem_append, List.mem_cons, List.mem_singleton,
      List.not_mem_nil, or_false] at hc
    rcases hc with (hc | hc) | hc
    · subst hc; rfl
    · split at hc
      · simp only [List.mem_cons, List.mem_singleton, List.not_mem_nil, or_false] at hc
        rcases hc with hc | hc | hc | hc | hc <;> subst hc <;> rfl
      · simp at hc
    · rcases hc with hc | hc | hc | hc | hc <;> subst hc <;> rfl
  · rfl

theorem detectKeypoints_estimatorCalls (cv : OpenCV) (detectorName : String)
    (detector : Feature2D) (img1 img2 : Image) (trace : List Event) :
    estimatorCalls (detectKeypoints cv detectorName detector img1 img2 trace).2 =
      estimatorCalls trace := by
  unfold detectKeypoints
  simp only []
  split
  · simp [estimatorCalls, Event.isFindHomography]
  · split <;> simp [estimatorCalls, Event.isFindHomography]

theorem computeDescriptors_estimatorCalls (cv : OpenCV) (descriptor : Feature2D)
    (img1 img2 : Image) (keypoints1 keypoints2 : List KeyPoint) (trace : List Event) :
    estimatorCalls (computeDescriptors cv descriptor img1 img2 keypoints1 keypoints2 trace).2 =
      estimatorCalls trace := by
  unfold computeDescriptors
  split
  · simp [estimatorCalls, Event.isFindHomography]
  · split <;> simp [estimatorCalls, Event.isFindHomography]

theorem matchDescriptors_estimatorCalls (cv : OpenCV) (matcher : DescriptorMatcher)
    (descriptors1 descriptors2 : Descriptors) (trace : List Event) :
    estimatorCalls (matchDescriptors cv matcher descriptors1 descriptors2 trace).2 =
      estimatorCalls trace := by
  unfold matchDescriptors
  split
  · simp [estimatorCalls, Event.isFindHomography]
  · split <;> simp [estimatorCalls, Event.isFindHomography]
  · simp [estimatorCalls, Event.isFindHomography]

theorem afterMatching_cases (cv : OpenCV) (detectorName descriptorName matcherName : String)
    (saveResult isSpecificCombination : Bool) (isBinary : Bool)
    (keypoints1 keypoints2 : List KeyPoint) (knnMatches : List (List DMatch))
    (result : MatchResult) (trace : List Event) :
    let run := afterMatching cv detectorName descriptorName matcherName saveResult
      isSpecificCombination isBinary keypoints1 keypoints2 knnMatches result trace
    let goodMatches := filterGoodMatches (RATIO_THRESHOLD isBinary) knnMatches
    let base : MatchResult :=
      { result with
        numMatches := intOfSize knnMatches.length
        numGoodMatches := intOfSize goodMatches.length }
    run.exit.beforeCounts = false ∧
    ((run.result = base ∧ estimatorCalls run.trace = estimatorCalls trace ∧
        ∀ e, run.exit ≠ .caught .homography e) ∨
      (run.result = base ∧ estimatorCalls run.trace = estimatorCalls trace + 1 ∧
        4 ≤ goodMatches.length ∧ ∃ e, run.exit = .caught .homography e) ∨
      (∃ h, run.result = { base with homographySuccess := !Homography.empty h } ∧
        estimatorCalls run.trace = estimatorCalls trace + 1 ∧ 4 ≤ goodMatches.length ∧
        run.exit ≠ .undefinedBehaviour ∧ ∀ e, run.exit ≠ .caught .homography e)) := by
  intro run goodMatches base
  have hs := fun r tr => showResult_estimatorCalls cv detectorName descriptorName matcherName
    saveResult isSpecificCombination goodMatches r tr
  rcases homographyStage_cases cv goodMatches keypoints1 keypoints2 base trace with
    ⟨tr, htr, h | h⟩ | ⟨tr, obj, scene, htr, -, hlen, ⟨e, h⟩ | ⟨hm, h⟩⟩
  · have hrun : run = match showResult cv detectorName descriptorName matcherName saveResult
          isSpecificCombination goodMatches base tr with
        | (some e, trace) => ⟨.caught .display e, base, trace⟩
        | (none, trace) => ⟨.completed, base, trace⟩ := by
      show afterMatching _ _ _ _ _ _ _ _ _ _ _ _ = _
      unfold afterMatching
      simp only []
      rw [h]
    have hs1 := hs base tr
    rcases hsr : showResult cv detectorName descriptorName matcherName saveResult
      isSpecificCombination goodMatches base tr with ⟨_ | e, tr2⟩
    · rw [hsr] at hrun hs1
      rw [hrun]
      exact ⟨rfl, Or.inl ⟨rfl, by rw [hs1, htr], by intro e; simp⟩⟩
    · rw [hsr] at hrun hs1
      rw [hrun]
      exact ⟨rfl, Or.inl ⟨rfl, by rw [hs1, htr], by intro e; simp⟩⟩
  · have hrun : run = ⟨.undefinedBehaviour, base, tr⟩ := by
      show afterMatching _ _ _ _ _ _ _ _ _ _ _ _ = _
      unfold afterMatching
      simp only []
      rw [h]
    rw [hrun]
    exact ⟨rfl, Or.inl ⟨rfl, htr, by intro e; simp⟩⟩
  · have hrun : run = ⟨.caught .homography e, base, tr ++ [.findHomography obj scene]⟩ := by
      show afterMatching _ _ _ _ _ _ _ _ _ _ _ _ = _
      unfold afterMatching
      simp only []
      rw [h]
    rw [hrun]
    refine ⟨rfl, Or.inr (Or.inl ⟨rfl, ?_, hlen, e, rfl⟩)⟩
    simp [estimatorCalls_append, estimatorCalls, Event.isFindHomography] at htr ⊢
    exact htr
  · have hrun : run = match showResult cv detectorName descriptorName matcherName saveResult
          isSpecificCombination goodMatches { base with homographySuccess := !hm.empty }
          (tr ++ [.findHomography obj scene]) with
        | (some e, trace) =>
          ⟨.caught .display e, { base with homographySuccess := !hm.empty }, trace⟩
        | (none, trace) => ⟨.completed, { base with homographySuccess := !hm.empty }, trace⟩ := by
      show afterMatching _ _ _ _ _ _ _ _ _ _ _ _ = _
      unfold afterMatching
      simp only []
      rw [h]
    have hs1 := hs { base with homographySuccess := !hm.empty } (tr ++ [.findHomography obj scene])
    have hcalls : estimatorCalls (tr ++ [.findHomography obj scene]) =
        estimatorCalls trace + 1 := by
      simp [estimatorCalls_append, estimatorCalls, Event.isFindHomography] at htr ⊢
      exact htr
    rcases hsr : showResult cv detectorName descriptorName matcherName saveResult
      isSpecificCombination goodMatches { base with homographySuccess := !hm.empty }
      (tr ++ [.findHomography obj scene]) with ⟨_ | e, tr2⟩
    · rw [hsr] at hrun hs1
      rw [hrun]
      exact ⟨rfl, Or.inr (Or.inr ⟨hm, rfl, by rw [hs1, hcalls], hlen, by simp, by intro e; simp⟩)⟩
    · rw [hsr] at hrun hs1
      rw [hrun]
      exact ⟨rfl, Or.inr (Or.inr ⟨hm, rfl, by rw [hs1, hcalls], hlen, by simp, by intro e; simp⟩)⟩

theorem afterMatching_beforeCounts (cv : OpenCV)
    (detectorName descriptorName matcherName : String)
    (saveResult isSpecificCombination : Bool) (isBinary : Bool)
    (keypoints1 keypoints2 : List KeyPoint) (knnMatches : List (List DMatch))
    (result : MatchResult) (trace : List Event) :
    (afterMatching cv detectorName descriptorName matcherName saveResult
      isSpecificCombination isBinary keypoints1 keypoints2 knnMatches result
      trace).exit.beforeCounts = false :=
  (afterMatching_cases cv detectorName descriptorName matcherName saveResult
    isSpecificCombination isBinary keypoints1 keypoints2 knnMatches result trace).1

theorem tryBlock_cases (cv : OpenCV) (img1 img2 : Image)
    (detectorName descriptorName matcherName : String)
    (saveResult isSpecificCombination : Bool) (result : MatchResult) (trace : List Event) :
    ((tryBlock cv img1 img2 detectorName descriptorName matcherName saveResult
          isSpecificCombination result trace).exit.beforeCounts = true ∧
        (tryBlock cv img1 img2 detectorName descriptorName matcherName saveResult
          isSpecificCombination result trace).result = result ∧
        estimatorCalls (tryBlock cv img1 img2 detectorName descriptorName matcherName saveResult
          isSpecificCombination result trace).trace = estimatorCalls trace) ∨
      ∃ keypoints1 keypoints2 knnMatches tr, estimatorCalls tr = estimatorCalls trace ∧
        (∃ matcher d1 d2 tr0,
          matchDescriptors cv matcher d1 d2 tr0 = (.ok knnMatches, tr)) ∧
        tryBlock cv img1 img2 detectorName descriptorName matcherName saveResult
          isSpecificCombination result trace =
        afterMatching cv detectorName descriptorName matcherName saveResult
          isSpecificCombination (isBinaryDescriptor descriptorName) keypoints1 keypoints2
          knnMatches result tr := by
  unfold tryBlock
  split
  next detector descriptor hd hs =>
    have h1 := detectKeypoints_estimatorCalls cv detectorName detector img1 img2 trace
    split
    next e tr1 hdet =>
      rw [hdet] at h1
      exact Or.inl ⟨rfl, rfl, h1⟩
    next kp1 kp2 tr1 hdet =>
      rw [hdet] at h1
      have h2 := computeDescriptors_estimatorCalls cv descriptor img1 img2
        (limitKeypoints kp1) (limitKeypoints kp2) tr1
      split
      next e tr2 hcomp =>
        rw [hcomp] at h2
        exact Or.inl ⟨rfl, rfl, by rw [h2, h1]⟩
      next k1 d1 k2 d2 tr2 hcomp =>
        rw [hcomp] at h2
        split
        · exact Or.inl ⟨rfl, rfl, by rw [h2, h1]⟩
        · simp only []
          split
          · exact Or.inl ⟨rfl, rfl, by rw [h2, h1]⟩
          next matcher hm =>
            have h3 := fun a b => matchDescriptors_estimatorCalls cv matcher a b tr2
            split
            next e tr3 hmat =>
              have h3 := congrArg (fun p => estimatorCalls p.2) hmat
              simp only [matchDescriptors_estimatorCalls] at h3
              exact Or.inl ⟨rfl, rfl, h3.symm.trans (h2.trans h1)⟩
            next knn tr3 hmat =>
              have h3 := congrArg (fun p => estimatorCalls p.2) hmat
              simp only [matchDescriptors_estimatorCalls] at h3
              exact Or.inr ⟨k1, k2, knn, tr3, h3.symm.trans (h2.trans h1), ⟨_, _, _, _, hmat⟩, rfl⟩
  · exact Or.inl ⟨rfl, rfl, rfl⟩

theorem processCombination_fields (cv : OpenCV) (img1 img2 : Image)
    (detectorName descriptorName matcherName : String)
    (saveResult isSpecificCombination : Bool) (trace : List Event) :
    (processCombination cv img1 img2 detectorName descriptorName matcherName
        saveResult isSpecificCombination trace).exit =
      (tryBlock cv img1 img2 detectorName descriptorName matcherName saveResult
        isSpecificCombination ⟨0, 0, 0, false⟩
        (trace ++ [.procesando detectorName descriptorName matcherName] ++ [.now])).exit ∧
    (processCombination cv img1 img2 detectorName descriptorName matcherName
        saveResult isSpecificCombination trace).result.numMatches =
      (tryBlock cv img1 img2 detectorName descriptorName matcherName saveResult
        isSpecificCombination ⟨0, 0, 0, false⟩
        (trace ++ [.procesando detectorName descriptorName matcherName] ++ [.now])).result.numMatches ∧
    (processCombination cv img1 img2 detectorName descriptorName matcherName
        saveResult isSpecificCombination trace).result.numGoodMatches =
      (tryBlock cv img1 img2 detectorName descriptorName matcherName saveResult
        isSpecificCombination ⟨0, 0, 0, false⟩
        (trace ++ [.procesando detectorName descriptorName matcherName] ++ [.now])).result.numGoodMatches ∧
    (processCombination cv img1 img2 detectorName descriptorName matcherName
        saveResult isSpecificCombination trace).result.homographySuccess =
      (tryBlock cv img1 img2 detectorName descriptorName matcherName saveResult
        isSpecificCombination ⟨0, 0, 0, false⟩
        (trace ++ [.procesando detectorName descriptorName matcherName] ++ [.now])).result.homographySuccess ∧
    estimatorCalls (processCombination cv img1 img2 detectorName descriptorName matcherName
        saveResult isSpecificCombination trace).trace =
      estimatorCalls (tryBlock cv img1 img2 detectorName descriptorName matcherName saveResult
        isSpecificCombination ⟨0, 0, 0, false⟩
        (trace ++ [.procesando detectorName descriptorName matcherName] ++ [.now])).trace := by
  unfold processCombination
  simp only []
  split
  · exact ⟨rfl, rfl, rfl, rfl, rfl⟩
  · exact ⟨rfl, rfl, rfl, rfl, rfl⟩
  · exact ⟨rfl, rfl, rfl, rfl, by simp [estimatorCalls, Event.isFindHomography]⟩

/-- What a call of processCombination leaves behind, according to the way its try block
was left. -/
theorem processCombination_cases (cv : OpenCV) (img1 img2 : Image)
    (detectorName descriptorName matcherName : String)
    (saveResult isSpecificCombination : Bool) (trace : List Event) :
    let run := processCombination cv img1 img2 detectorName descriptorName matcherName
      saveResult isSpecificCombination trace
    (run.exit.beforeCounts = true ∧ run.result.numMatches = 0 ∧ run.result.numGoodMatches = 0 ∧
        run.result.homographySuccess = false ∧
        estimatorCalls run.trace = estimatorCalls trace) ∨
      (run.exit.beforeCounts = false ∧
        ∃ knnMatches : List (List DMatch),
          run.result.numMatches = intOfSize knnMatches.length ∧
          run.result.numGoodMatches = intOfSize
            (filterGoodMatches (RATIO_THRESHOLD (isBinaryDescriptor descriptorName))
              knnMatches).length ∧
          ((run.result.homographySuccess = false ∧
              estimatorCalls run.trace ≤ estimatorCalls trace + 1) ∨
            (estimatorCalls run.trace = estimatorCalls trace + 1 ∧
              4 ≤ (filterGoodMatches (RATIO_THRESHOLD (isBinaryDescriptor descriptorName))
                knnMatches).length ∧
              run.exit ≠ .undefinedBehaviour ∧ ∀ e, run.exit ≠ .caught .homography e))) := by
  intro run
  obtain ⟨he, hn, hg, hh, hc⟩ := processCombination_fields cv img1 img2 detectorName descriptorName
    matcherName saveResult isSpecificCombination trace
  have hbase : estimatorCalls
      (trace ++ [.procesando detectorName descriptorName matcherName] ++ [.now]) =
      estimatorCalls trace := by
    simp [estimatorCalls, Event.isFindHomography]
  rcases tryBlock_cases cv img1 img2 detectorName descriptorName matcherName saveResult
      isSpecificCombination ⟨0, 0, 0, false⟩
      (trace ++ [.procesando detectorName descriptorName matcherName] ++ [.now]) with
    ⟨hb, hr, ht⟩ | ⟨k1, k2, knn, tr, htr, -, hrun⟩
  · left
    rw [he, hn, hg, hh, hc, hr, ht, hbase]
    exact ⟨hb, rfl, rfl, rfl, rfl⟩
  · right
    rw [he, hn, hg, hh, hc, hrun]
    obtain ⟨hb, hcases⟩ := afterMatching_cases cv detectorName descriptorName matcherName
      saveResult isSpecificCombination (isBinaryDescriptor descriptorName) k1 k2 knn
      ⟨0, 0, 0, false⟩ tr
    refine ⟨hb, knn, ?_⟩
    rcases hcases with ⟨hr, ht, -⟩ | ⟨hr, ht, -, -⟩ | ⟨h, hr, ht, hlen, hub, hne⟩
    · rw [hr, ht, htr, hbase]
      exact ⟨rfl, rfl, Or.inl ⟨rfl, Nat.le_succ _⟩⟩
    · rw [hr, ht, htr, hbase]
      exact ⟨rfl, rfl, Or.inl ⟨rfl, le_refl _⟩⟩
    · rw [hr, ht, htr, hbase]
      exact ⟨rfl, rfl, Or.inr ⟨rfl, hlen, hub, hne⟩⟩

theorem afterMatching_counts (cv : OpenCV) (detectorName descriptorName matcherName : String)
    (saveResult isSpecificCombination : Bool) (isBinary : Bool)
    (keypoints1 keypoints2 : List KeyPoint) (knnMatches : List (List DMatch))
    (result : MatchResult) (trace : List Event) :
    (afterMatching cv detectorName descriptorName matcherName saveResult
        isSpecificCombination isBinary keypoints1 keypoints2 knnMatches result
        trace).result.numMatches = intOfSize knnMatches.length ∧
      (afterMatching cv detectorName descriptorName matcherName saveResult
        isSpecificCombination isBinary keypoints1 keypoints2 knnMatches result
        trace).result.numGoodMatches =
        intOfSize (filterGoodMatches (RATIO_THRESHOLD isBinary) knnMatches).length := by
  rcases (afterMatching_cases cv detectorName descriptorName matcherName saveResult
      isSpecificCombination isBinary keypoints1 keypoints2 knnMatches result trace).2 with
    ⟨hr, -⟩ | ⟨hr, -⟩ | ⟨h, hr, -⟩ <;> rw [hr] <;> exact ⟨rfl, rfl⟩

/-- C2: the ratio threshold is 0.80 for the binary descriptor names ORB, BRIEF, BRISK
and FREAK and 0.75 for every other name; two names of the same binary-ness get the same
threshold; for either value of the flag the filter only selects among the nearest
candidates it is given, so their distances are untouched; and after matching the flag
enters the two counts of the result through the threshold alone. -/
theorem threshold_is_function_of_binaryness (descriptorName : String) :
    (descriptorName ∈ ["ORB", "BRIEF", "BRISK", "FREAK"] →
        isBinaryDescriptor descriptorName = true ∧
          RATIO_THRESHOLD (isBinaryDescriptor descriptorName) = 80 / 100) ∧
      (descriptorName ∉ ["ORB", "BRIEF", "BRISK", "FREAK"] →
        isBinaryDescriptor descriptorName = false ∧
          RATIO_THRESHOLD (isBinaryDescriptor descriptorName) = 75 / 100) ∧
      (∀ other : String, isBinaryDescriptor other = isBinaryDescriptor descriptorName →
        RATIO_THRESHOLD (isBinaryDescriptor other) =
          RATIO_THRESHOLD (isBinaryDescriptor descriptorName)) ∧
      (∀ (flag : Bool) (knnMatches : List (List DMatch)),
        (filterGoodMatches (RATIO_THRESHOLD flag) knnMatches).Sublist
          (knnMatches.filterMap List.head?)) ∧
      (∀ (cv : OpenCV) (detectorName matcherName : String)
        (saveResult isSpecificCombination flag : Bool) (keypoints1 keypoints2 : List KeyPoint)
        (knnMatches : List (List DMatch)) (result : MatchResult) (trace : List Event),
        (afterMatching cv detectorName descriptorName matcherName saveResult
            isSpecificCombination flag keypoints1 keypoints2 knnMatches result
            trace).result.numMatches = intOfSize knnMatches.length ∧
          (afterMatching cv detectorName descriptorName matcherName saveResult
            isSpecificCombination flag keypoints1 keypoints2 knnMatches result
            trace).result.numGoodMatches =
            intOfSize (filterGoodMatches (RATIO_THRESHOLD flag) knnMatches).length) := by
  refine ⟨?_, ?_, ?_, ?_, ?_⟩
  · intro h
    have hb : isBinaryDescriptor descriptorName = true := by
      simp only [List.mem_cons, List.mem_singleton, List.not_mem_nil, or_false] at h
      rcases h with h | h | h | h <;> subst h <;> decide
    rw [hb]
    exact ⟨rfl, by norm_num [RATIO_THRESHOLD]⟩
  · intro h
    have hb : isBinaryDescriptor descriptorName = false := by
      simp only [List.mem_cons, List.mem_singleton, List.not_mem_nil, or_false, not_or] at h
      simp [isBinaryDescriptor, h]
    rw [hb]
    exact ⟨rfl, by norm_num [RATIO_THRESHOLD]⟩
  · intro other h
    rw [h]
  · intro flag knnMatches
    rw [filterGoodMatches_eq]
    exact goodMatchesSpec_sublist _ _
  · intro cv detectorName matcherName saveResult isSpecificCombination flag keypoints1
      keypoints2 knnMatches result trace
    exact afterMatching_counts cv detectorName descriptorName matcherName saveResult
      isSpecificCombination flag keypoints1 keypoints2 knnMatches result trace

/-- The name ORB is binary and gets the threshold 0.80. -/
theorem threshold_is_function_of_binaryness_witness :
    "ORB" ∈ ["ORB", "BRIEF", "BRISK", "FREAK"] ∧
      isBinaryDescriptor "ORB" = true ∧ RATIO_THRESHOLD (isBinaryDescriptor "ORB") = 80 / 100 :=
  ⟨by decide, (threshold_is_function_of_binaryness "ORB").1 (by decide)⟩

/-- C3: isCombinationValid is false exactly when the detector name is BRIEF or FREAK,
whatever the descriptor name. -/
theorem isCombinationValid_iff (detector descriptor : String) :
    (detector ∈ ["BRIEF", "FREAK"] → isCombinationValid detector descriptor = false) ∧
      (detector ∉ ["BRIEF", "FREAK"] → isCombinationValid detector descriptor = true) := by
  constructor
  · intro h
    simp only [List.mem_cons, List.mem_singleton, List.not_mem_nil, or_false] at h
    rcases h with h | h <;> subst h <;> rfl
  · intro h
    simp only [List.mem_cons, List.mem_singleton, List.not_mem_nil, or_false, not_or] at h
    simp [isCombinationValid, h]

/-- The detector name FREAK is rejected with the descriptor name SIFT. -/
theorem isCombinationValid_iff_witness :
    "FREAK" ∈ ["BRIEF", "FREAK"] ∧ isCombinationValid "FREAK" "SIFT" = false :=
  ⟨by decide, (isCombinationValid_iff "FREAK" "SIFT").1 (by decide)⟩

/-- C4: a good-match list from which fewer than four pairs pass the test that guards
the keypoint accesses leaves result as it was and adds no call of findHomography; a list
of fewer than four good matches does not even reach the accesses; and a call of
processCombination during which findHomography is not called reports
homographySuccess = false. -/
theorem no_estimation_below_four (cv : OpenCV) :
    (∀ (goodMatches : List DMatch) (keypoints1 keypoints2 : List KeyPoint)
        (result : MatchResult) (trace : List Event),
        (goodMatches.filter (passesBoundsCheck keypoints1 keypoints2)).length < 4 →
        (homographyStage cv goodMatches keypoints1 keypoints2 result trace).2.1 = result ∧
          estimatorCalls
              (homographyStage cv goodMatches keypoints1 keypoints2 result trace).2.2 =
            estimatorCalls trace) ∧
      (∀ (goodMatches : List DMatch) (keypoints1 keypoints2 : List KeyPoint)
        (result : MatchResult) (trace : List Event), goodMatches.length < 4 →
        homographyStage cv goodMatches keypoints1 keypoints2 result trace =
          (.ok [], result, trace)) ∧
      (∀ (img1 img2 : Image) (detectorName descriptorName matcherName : String)
        (saveResult isSpecificCombination : Bool) (trace : List Event),
        estimatorCalls (processCombination cv img1 img2 detectorName descriptorName
            matcherName saveResult isSpecificCombination trace).trace = estimatorCalls trace →
        (processCombination cv img1 img2 detectorName descriptorName matcherName saveResult
          isSpecificCombination trace).result.homographySuccess = false) := by
  refine ⟨fun gm k1 k2 r tr h => homographyStage_few cv gm k1 k2 r tr h,
    fun gm k1 k2 r tr h => homographyStage_short cv gm k1 k2 r tr h, ?_⟩
  intro img1 img2 d s m save spec trace hcalls
  rcases processCombination_cases cv img1 img2 d s m save spec trace with
    ⟨-, -, -, hh, -⟩ | ⟨-, knn, -, -, ⟨hh, -⟩ | ⟨hc, -⟩⟩
  · exact hh
  · exact hh
  · omega

/-- Three good matches with valid indices: the estimator is not called. -/
theorem no_estimation_below_four_witness :
    ((sampleKnn.take 3).filterMap List.head?).length < 4 ∧
      homographyStage (sampleCV eventClock sampleKnn (.ok [[1]])) ((sampleKnn.take 3).filterMap List.head?)
          sampleKeypoints sampleKeypoints ⟨3, 3, 0, false⟩ [] =
        (.ok [], ⟨3, 3, 0, false⟩, []) :=
  ⟨by decide,
    (no_estimation_below_four (sampleCV eventClock sampleKnn (.ok [[1]]))).2.1
      ((sampleKnn.take 3).filterMap List.head?) sampleKeypoints sampleKeypoints
      ⟨3, 3, 0, false⟩ [] (by decide)⟩

theorem tryBlock_returnedAt (cv : OpenCV) (img1 img2 : Image)
    (detectorName descriptorName matcherName : String)
    (saveResult isSpecificCombination : Bool) (result : MatchResult) (trace : List Event)
    (line : Nat)
    (h : (tryBlock cv img1 img2 detectorName descriptorName matcherName saveResult
      isSpecificCombination result trace).exit = .returnedAt line) :
    (line = 115 ∧ (createDetector detectorName = none ∨ createDescriptor descriptorName = none)) ∨
      line = 150 ∨
      (line = 172 ∧ createMatcher matcherName (isBinaryDescriptor descriptorName) = none) := by
  unfold tryBlock at h
  split at h
  next detector descriptor hd hs =>
    split at h
    · simp at h
    · split at h
      · simp at h
      · split at h
        · simp only [Exit.returnedAt.injEq] at h
          exact Or.inr (Or.inl h.symm)
        · simp only [] at h
          split at h
          next hm =>
            simp only [Exit.returnedAt.injEq] at h
            exact Or.inr (Or.inr ⟨h.symm, hm⟩)
          · split at h
            · simp at h
            · have := congrArg Exit.beforeCounts h
              rw [afterMatching_beforeCounts] at this
              simp [Exit.beforeCounts] at this
  next hne =>
    simp only [Exit.returnedAt.injEq] at h
    refine Or.inl ⟨h.symm, ?_⟩
    cases hd : createDetector detectorName with
    | none => exact Or.inl rfl
    | some detector =>
      cases hs : createDescriptor descriptorName with
      | none => exact Or.inr rfl
      | some descriptor => exact absurd hs (hne detector descriptor hd)

/-- C8 as stated fails: when findHomography throws on four good matches, the handler is
reached with numMatches = 4 and numGoodMatches = 4, and these are returned. -/
theorem error_in_estimation_keeps_counts :
    (processCombination (sampleCV eventClock sampleKnn (.error .cvException)) sampleImage sampleImage
          "SIFT" "SIFT" "BF" true false []).exit = .caught .homography .cvException ∧
      (processCombination (sampleCV eventClock sampleKnn (.error .cvException)) sampleImage sampleImage
          "SIFT" "SIFT" "BF" true false []).result = ⟨4, 4, 15, false⟩ := by
  decide!

/-! ## Ranking: theorems -/

theorem maxLoop_spec {α : Type} (f : α → Int) (largest : α) (rest : List α) :
    ∃ before after,
      largest :: rest = before ++ maxLoop (fun a b => decide (f a < f b)) largest rest :: after ∧
        (∀ y ∈ before, f y < f (maxLoop (fun a b => decide (f a < f b)) largest rest)) ∧
        (∀ y ∈ after, f y ≤ f (maxLoop (fun a b => decide (f a < f b)) largest rest)) := by
  induction rest generalizing largest with
  | nil => exact ⟨[], [], rfl, by simp, by simp⟩
  | cons x rest ih =>
    rw [maxLoop]
    by_cases hlt : f largest < f x
    · simp only [hlt, decide_True, if_true]
      obtain ⟨before, after, heq, hb, ha⟩ := ih x
      refine ⟨largest :: before, after, by rw [List.cons_append, ← heq], ?_, ha⟩
      intro y hy
      rcases List.mem_cons.1 hy with rfl | hy
      · cases before with
        | nil =>
          simp only [List.nil_append, List.cons.injEq] at heq
          rw [← heq.1]
          exact hlt
        | cons b before =>
          simp only [List.cons_append, List.cons.injEq] at heq
          have := hb b (List.mem_cons_self _ _)
          rw [← heq.1] at this
          exact lt_trans hlt this
      · exact hb y hy
    · simp only [hlt, decide_False, Bool.false_eq_true, if_false]
      obtain ⟨before, after, heq, hb, ha⟩ := ih largest
      cases before with
      | nil =>
        simp only [List.nil_append, List.cons.injEq] at heq
        refine ⟨[], x :: after, ?_, by simp, ?_⟩
        · rw [List.nil_append, ← heq.1, heq.2]
        · intro y hy
          rcases List.mem_cons.1 hy with rfl | hy
          · rw [← heq.1]
            exact not_lt.1 hlt
          · exact ha y hy
      | cons b before =>
        simp only [List.cons_append, List.cons.injEq] at heq
        have hbl := hb b (List.mem_cons_self _ _)
        rw [← heq.1] at hbl
        refine ⟨largest :: x :: before, after, ?_, ?_, ha⟩
        · exact congrArg (fun l => largest :: x :: l) heq.2
        · intro y hy
          rcases List.mem_cons.1 hy with rfl | hy
          · exact hbl
          · rcases List.mem_cons.1 hy with rfl | hy
            · exact lt_of_le_of_lt (not_lt.1 hlt) hbl
            · exact hb y (List.mem_cons_of_mem _ hy)

theorem minLoop_spec {α : Type} (f : α → Int) (smallest : α) (rest : List α) :
    ∃ before after,
      smallest :: rest = before ++ minLoop (fun a b => decide (f a < f b)) smallest rest :: after ∧
        (∀ y ∈ before, f (minLoop (fun a b => decide (f a < f b)) smallest rest) < f y) ∧
        (∀ y ∈ after, f (minLoop (fun a b => decide (f a < f b)) smallest rest) ≤ f y) := by
  induction rest generalizing smallest with
  | nil => exact ⟨[], [], rfl, by simp, by simp⟩
  | cons x rest ih =>
    rw [minLoop]
    by_cases hlt : f x < f smallest
    · simp only [hlt, decide_True, if_true]
      obtain ⟨before, after, heq, hb, ha⟩ := ih x
      refine ⟨smallest :: before, after, by rw [List.cons_append, ← heq], ?_, ha⟩
      intro y hy
      rcases List.mem_cons.1 hy with rfl | hy
      · cases before with
        | nil =>
          simp only [List.nil_append, List.cons.injEq] at heq
          rw [← heq.1]
          exact hlt
        | cons b before =>
          simp only [List.cons_append, List.cons.injEq] at heq
          have := hb b (List.mem_cons_self _ _)
          rw [← heq.1] at this
          exact lt_trans this hlt
      · exact hb y hy
    · simp only [hlt, decide_False, Bool.false_eq_true, if_false]
      obtain ⟨before, after, heq, hb, ha⟩ := ih smallest
      cases before with
      | nil =>
        simp only [List.nil_append, List.cons.injEq] at heq
        refine ⟨[], x :: after, ?_, by simp, ?_⟩
        · rw [List.nil_append, ← heq.1, heq.2]
        · intro y hy
          rcases List.mem_cons.1 hy with rfl | hy
          · rw [← heq.1]
            exact not_lt.1 hlt
          · exact ha y hy
      | cons b before =>
        simp only [List.cons_append, List.cons.injEq] at heq
        have hbl := hb b (List.mem_cons_self _ _)
        rw [← heq.1] at hbl
        refine ⟨smallest :: x :: before, after, ?_, ?_, ha⟩
        · exact congrArg (fun l => smallest :: x :: l) heq.2
        · intro y hy
          rcases List.mem_cons.1 hy with rfl | hy
          · exact hbl
          · rcases List.mem_cons.1 hy with rfl | hy
            · exact lt_of_lt_of_le hbl (not_lt.1 hlt)
            · exact hb y (List.mem_cons_of_mem _ hy)

theorem maxLoop_map {α β : Type} (g : α → β) (comp : α → α → Bool) (comp2 : β → β → Bool)
    (h : ∀ a b, comp2 (g a) (g b) = comp a b) (largest : α) (rest : List α) :
    g (maxLoop comp largest rest) = maxLoop comp2 (g largest) (rest.map g) := by
  induction rest generalizing largest with
  | nil => rfl
  | cons x rest ih =>
    rw [maxLoop, List.map_cons, maxLoop, h]
    split
    · exact ih x
    · exact ih largest

theorem minLoop_map {α β : Type} (g : α → β) (comp : α → α → Bool) (comp2 : β → β → Bool)
    (h : ∀ a b, comp2 (g a) (g b) = comp a b) (smallest : α) (rest : List α) :
    g (minLoop comp smallest rest) = minLoop comp2 (g smallest) (rest.map g) := by
  induction rest generalizing smallest with
  | nil => rfl
  | cons x rest ih =>
    rw [minLoop, List.map_cons, minLoop, h]
    split
    · exact ih x
    · exact ih smallest

theorem max_element_map {α β : Type} (g : α → β) (comp : α → α → Bool) (comp2 : β → β → Bool)
    (h : ∀ a b, comp2 (g a) (g b) = comp a b) (l : List α) :
    (max_element comp l).map g = max_element comp2 (l.map g) := by
  cases l with
  | nil => rfl
  | cons x rest => simp [max_element, maxLoop_map g comp comp2 h]

theorem min_element_map {α β : Type} (g : α → β) (comp : α → α → Bool) (comp2 : β → β → Bool)
    (h : ∀ a b, comp2 (g a) (g b) = comp a b) (l : List α) :
    (min_element comp l).map g = min_element comp2 (l.map g) := by
  cases l with
  | nil => rfl
  | cons x rest => simp [min_element, minLoop_map g comp comp2 h]

/-- The reported best entry stands at the first position of the maximal good-match
count. -/
theorem bestMatch_first (results : Results) (b : CombinationKey × MatchResult)
    (h : bestMatch results = some b) :
    ∃ before after, results = before ++ b :: after ∧
      (∀ r ∈ before, r.2.numGoodMatches < b.2.numGoodMatches) ∧
      (∀ r ∈ after, r.2.numGoodMatches ≤ b.2.numGoodMatches) := by
  cases results with
  | nil => simp [bestMatch, max_element] at h
  | cons first rest =>
    simp only [bestMatch, max_element, Option.some.injEq] at h
    have := maxLoop_spec (fun r : CombinationKey × MatchResult => r.2.numGoodMatches) first rest
    rw [h] at this
    exact this

/-- The reported fastest entry stands at the first position of the minimal time. -/
theorem fastestMatch_first (results : Results) (b : CombinationKey × MatchResult)
    (h : fastestMatch results = some b) :
    ∃ before after, results = before ++ b :: after ∧
      (∀ r ∈ before, b.2.processingTime < r.2.processingTime) ∧
      (∀ r ∈ after, b.2.processingTime ≤ r.2.processingTime) := by
  cases results with
  | nil => simp [fastestMatch, min_element] at h
  | cons first rest =>
    simp only [fastestMatch, min_element, Option.some.injEq] at h
    have := minLoop_spec (fun r : CombinationKey × MatchResult => r.2.processingTime) first rest
    rw [h] at this
    exact this

theorem bestMatch_key_of_counts (results : Results) :
    (bestMatch results).map Prod.fst =
      (max_element (fun a b : CombinationKey × Int => decide (a.2 < b.2))
        (results.map (fun r => (r.1, r.2.numGoodMatches)))).map Prod.fst := by
  rw [← max_element_map (fun r : CombinationKey × MatchResult => (r.1, r.2.numGoodMatches))
    (fun a b => decide (a.2.numGoodMatches < b.2.numGoodMatches))
    (fun a b => decide (a.2 < b.2)) (fun _ _ => rfl)]
  rw [Option.map_map]
  rfl

theorem fastestMatch_key_of_times (results : Results) :
    (fastestMatch results).map Prod.fst =
      (min_element (fun a b : CombinationKey × Int => decide (a.2 < b.2))
        (results.map (fun r => (r.1, r.2.processingTime)))).map Prod.fst := by
  rw [← min_element_map (fun r : CombinationKey × MatchResult => (r.1, r.2.processingTime))
    (fun a b => decide (a.2.processingTime < b.2.processingTime))
    (fun a b => decide (a.2 < b.2)) (fun _ _ => rfl)]
  rw [Option.map_map]
  rfl

/-- C5: for a non-empty results mapping the reported best entry is recorded and has a
good-match count at least that of every entry, the reported fastest entry is recorded
and has a time at most that of every entry; the key of the best entry depends only on
the keys and good-match counts, the key of the fastest only on the keys and times; for
counts 12, 45, 7 and times 120, 80, 200 the 45-match entry and the 80 ms entry are
selected, also when the times are paired differently with the counts. -/
theorem ranking_selects_extrema (results : Results) (hne : results ≠ []) :
    (∃ b, bestMatch results = some b ∧ b ∈ results ∧
        ∀ r ∈ results, r.2.numGoodMatches ≤ b.2.numGoodMatches) ∧
      (∃ f, fastestMatch results = some f ∧ f ∈ results ∧
        ∀ r ∈ results, f.2.processingTime ≤ r.2.processingTime) ∧
      (∀ other : Results,
        other.map (fun r => (r.1, r.2.numGoodMatches)) =
            results.map (fun r => (r.1, r.2.numGoodMatches)) →
          (bestMatch other).map Prod.fst = (bestMatch results).map Prod.fst) ∧
      (∀ other : Results,
        other.map (fun r => (r.1, r.2.processingTime)) =
            results.map (fun r => (r.1, r.2.processingTime)) →
          (fastestMatch other).map Prod.fst = (fastestMatch results).map Prod.fst) ∧
      (∀ (k1 k2 k3 : CombinationKey) (n1 n2 n3 : Int) (h1 h2 h3 : Bool),
        bestMatch [(k1, ⟨n1, 12, 120, h1⟩), (k2, ⟨n2, 45, 80, h2⟩), (k3, ⟨n3, 7, 200, h3⟩)] =
            some (k2, ⟨n2, 45, 80, h2⟩) ∧
          fastestMatch [(k1, ⟨n1, 12, 120, h1⟩), (k2, ⟨n2, 45, 80, h2⟩), (k3, ⟨n3, 7, 200, h3⟩)] =
            some (k2, ⟨n2, 45, 80, h2⟩) ∧
          bestMatch [(k1, ⟨n1, 12, 80, h1⟩), (k2, ⟨n2, 45, 200, h2⟩), (k3, ⟨n3, 7, 120, h3⟩)] =
            some (k2, ⟨n2, 45, 200, h2⟩) ∧
          fastestMatch [(k1, ⟨n1, 12, 80, h1⟩), (k2, ⟨n2, 45, 200, h2⟩), (k3, ⟨n3, 7, 120, h3⟩)] =
            some (k1, ⟨n1, 12, 80, h1⟩)) := by
  refine ⟨?_, ?_, ?_, ?_, ?_⟩
  · cases hb : bestMatch results with
    | none =>
      cases results with
      | nil => exact absurd rfl hne
      | cons first rest => simp [bestMatch, max_element] at hb
    | some b =>
      obtain ⟨before, after, heq, h1, h2⟩ := bestMatch_first results b hb
      refine ⟨b, rfl, by rw [heq]; simp, ?_⟩
      intro r hr
      rw [heq] at hr
      rcases List.mem_append.1 hr with hr | hr
      · exact le_of_lt (h1 r hr)
      · rcases List.mem_cons.1 hr with rfl | hr
        · exact le_refl _
        · exact h2 r hr
  · cases hb : fastestMatch results with
    | none =>
      cases results with
      | nil => exact absurd rfl hne
      | cons first rest => simp [fastestMatch, min_element] at hb
    | some b =>
      obtain ⟨before, after, heq, h1, h2⟩ := fastestMatch_first results b hb
      refine ⟨b, rfl, by rw [heq]; simp, ?_⟩
      intro r hr
      rw [heq] at hr
      rcases List.mem_append.1 hr with hr | hr
      · exact le_of_lt (h1 r hr)
      · rcases List.mem_cons.1 hr with rfl | hr
        · exact le_refl _
        · exact h2 r hr
  · intro other h
    rw [bestMatch_key_of_counts, bestMatch_key_of_counts, h]
  · intro other h
    rw [fastestMatch_key_of_times, fastestMatch_key_of_times, h]
  · intro k1 k2 k3 n1 n2 n3 h1 h2 h3
    simp [bestMatch, fastestMatch, max_element, min_element, maxLoop, minLoop]

/-- The ranking scenario of the specification on three recorded combinations. -/
theorem ranking_selects_extrema_witness :
    ([(("SIFT", "SIFT", "BF"), ⟨50, 12, 120, true⟩), (("ORB", "ORB", "BF"), ⟨50, 45, 80, true⟩),
        (("FAST", "BRIEF", "BF"), ⟨50, 7, 200, false⟩)] : Results) ≠ [] ∧
      ∃ b, bestMatch [(("SIFT", "SIFT", "BF"), ⟨50, 12, 120, true⟩),
          (("ORB", "ORB", "BF"), ⟨50, 45, 80, true⟩),
          (("FAST", "BRIEF", "BF"), ⟨50, 7, 200, false⟩)] = some b ∧
        b ∈ ([(("SIFT", "SIFT", "BF"), ⟨50, 12, 120, true⟩),
          (("ORB", "ORB", "BF"), ⟨50, 45, 80, true⟩),
          (("FAST", "BRIEF", "BF"), ⟨50, 7, 200, false⟩)] : Results) ∧
        ∀ r ∈ ([(("SIFT", "SIFT", "BF"), ⟨50, 12, 120, true⟩),
          (("ORB", "ORB", "BF"), ⟨50, 45, 80, true⟩),
          (("FAST", "BRIEF", "BF"), ⟨50, 7, 200, false⟩)] : Results),
          r.2.numGoodMatches ≤ b.2.numGoodMatches :=
  ⟨by simp, (ranking_selects_extrema _ (by simp)).1⟩

/-! ## The key order of the results mapping -/

theorem tupleLess_iff (a b : CombinationKey) :
    tupleLess a b = true ↔
      a.1 < b.1 ∨ (a.1 = b.1 ∧ (a.2.1 < b.2.1 ∨ (a.2.1 = b.2.1 ∧ a.2.2 < b.2.2))) := by
  simp only [tupleLess, Bool.or_eq_true, Bool.and_eq_true, Bool.not_eq_true',
    decide_eq_true_eq, decide_eq_false_iff_not, not_lt]
  constructor
  · rintro (h | ⟨h1, h | ⟨h2, h3⟩⟩)
    · exact Or.inl h
    · rcases lt_or_eq_of_le h1 with h1 | h1
      · exact Or.inl h1
      · exact Or.inr ⟨h1, Or.inl h⟩
    · rcases lt_or_eq_of_le h1 with h1 | h1
      · exact Or.inl h1
      · rcases lt_or_eq_of_le h2 with h2 | h2
        · exact Or.inr ⟨h1, Or.inl h2⟩
        · exact Or.inr ⟨h1, Or.inr ⟨h2, h3⟩⟩
  · rintro (h | ⟨h1, h | ⟨h2, h3⟩⟩)
    · exact Or.inl h
    · exact Or.inr ⟨le_of_eq h1, Or.inl h⟩
    · exact Or.inr ⟨le_of_eq h1, Or.inr ⟨le_of_eq h2, h3⟩⟩

theorem tupleLess_trans (a b c : CombinationKey) (hab : tupleLess a b = true)
    (hbc : tupleLess b c = true) : tupleLess a c = true := by
  rw [tupleLess_iff] at hab hbc ⊢
  rcases hab with h | ⟨h1, h | ⟨h2, h3⟩⟩ <;> rcases hbc with k | ⟨k1, k | ⟨k2, k3⟩⟩
  · exact Or.inl (lt_trans h k)
  · exact Or.inl (k1 ▸ h)
  · exact Or.inl (k1 ▸ h)
  · exact Or.inl (h1 ▸ k)
  · exact Or.inr ⟨h1.trans k1, Or.inl (lt_trans h k)⟩
  · exact Or.inr ⟨h1.trans k1, Or.inl (k2 ▸ h)⟩
  · exact Or.inl (h1 ▸ k)
  · exact Or.inr ⟨h1.trans k1, Or.inl (h2 ▸ k)⟩
  · exact Or.inr ⟨h1.trans k1, Or.inr ⟨h2.trans k2, lt_trans h3 k3⟩⟩

theorem tupleLess_asymm (a b : CombinationKey) (hab : tupleLess a b = true) :
    tupleLess b a = false := by
  cases hba : tupleLess b a with
  | false => rfl
  | true =>
    have haa := tupleLess_trans a b a hab hba
    rw [tupleLess_iff] at haa
    rcases haa with h | ⟨-, h | ⟨-, h⟩⟩ <;> exact absurd h (lt_irrefl _)

theorem mapAssign_keys (results : Results) (key : CombinationKey) (value : MatchResult)
    (x : CombinationKey × MatchResult) (hx : x ∈ mapAssign results key value) :
    x.1 = key ∨ ∃ y ∈ results, y.1 = x.1 := by
  induction results with
  | nil =>
    simp only [mapAssign, List.mem_singleton] at hx
    exact Or.inl (by rw [hx])
  | cons head rest ih =>
    obtain ⟨k, v⟩ := head
    rw [mapAssign] at hx
    split at hx
    · rcases List.mem_cons.1 hx with rfl | hx
      · exact Or.inl rfl
      · exact Or.inr ⟨x, hx, rfl⟩
    · split at hx
      · rcases List.mem_cons.1 hx with rfl | hx
        · exact Or.inr ⟨(k, v), List.mem_cons_self _ _, rfl⟩
        · rcases ih hx with h | ⟨y, hy, h⟩
          · exact Or.inl h
          · exact Or.inr ⟨y, List.mem_cons_of_mem _ hy, h⟩
      · rcases List.mem_cons.1 hx with rfl | hx
        · exact Or.inr ⟨(k, v), List.mem_cons_self _ _, rfl⟩
        · exact Or.inr ⟨x, List.mem_cons_of_mem _ hx, rfl⟩

theorem mapAssign_ordered (results : Results) (key : CombinationKey) (value : MatchResult)
    (h : Results.Ordered results) : Results.Ordered (mapAssign results key value) := by
  induction results with
  | nil => simp [mapAssign, Results.Ordered]
  | cons head rest ih =>
    obtain ⟨k, v⟩ := head
    unfold Results.Ordered at h ih ⊢
    rw [List.pairwise_cons] at h
    rw [mapAssign]
    split
    next hlt =>
      rw [List.pairwise_cons]
      refine ⟨?_, List.pairwise_cons.2 h⟩
      intro y hy
      rcases List.mem_cons.1 hy with rfl | hy
      · exact hlt
      · exact tupleLess_trans _ _ _ hlt (h.1 y hy)
    next hnlt =>
      split
      next hgt =>
        rw [List.pairwise_cons]
        refine ⟨?_, ih h.2⟩
        intro y hy
        rcases mapAssign_keys rest key value y hy with hk | ⟨z, hz, hk⟩
        · rw [hk]; exact hgt
        · rw [← hk]; exact h.1 z hz
      next hngt =>
        rw [List.pairwise_cons]
        exact ⟨h.1, h.2⟩

/-- In an ordered results mapping the reported best entry has the least key among the
entries of its good-match count, and the reported fastest entry the least key among
the entries of its time. -/
theorem ordered_ties (results : Results) (h : Results.Ordered results) :
    (∀ x, bestMatch results = some x → ∀ r ∈ results,
        r.2.numGoodMatches = x.2.numGoodMatches → tupleLess r.1 x.1 = false) ∧
      (∀ x, fastestMatch results = some x → ∀ r ∈ results,
        r.2.processingTime = x.2.processingTime → tupleLess r.1 x.1 = false) := by
  have aux : ∀ (x : CombinationKey × MatchResult) (before after : List _),
      results = before ++ x :: after → ∀ r ∈ after, tupleLess r.1 x.1 = false := by
    intro x before after heq r hr
    unfold Results.Ordered at h
    rw [heq, List.pairwise_append, List.pairwise_cons] at h
    exact tupleLess_asymm _ _ (h.2.1.1 r hr)
  have irrefl : ∀ k : CombinationKey, tupleLess k k = false := by
    intro k
    cases hk : tupleLess k k with
    | false => rfl
    | true =>
      have := tupleLess_asymm k k hk
      rw [hk] at this
      exact absurd this (by decide)
  constructor
  · intro x hx r hr heqc
    obtain ⟨before, after, heq, hb, -⟩ := bestMatch_first results x hx
    rw [heq] at hr
    rcases List.mem_append.1 hr with hr | hr
    · exact absurd heqc (ne_of_lt (hb r hr))
    · rcases List.mem_cons.1 hr with rfl | hr
      · exact irrefl _
      · exact aux x before after heq r hr
  · intro x hx r hr heqc
    obtain ⟨before, after, heq, hb, -⟩ := fastestMatch_first results x hx
    rw [heq] at hr
    rcases List.mem_append.1 hr with hr | hr
    · exact absurd heqc.symm (ne_of_lt (hb r hr))
    · rcases List.mem_cons.1 hr with rfl | hr
      · exact irrefl _
      · exact aux x before after heq r hr

/-! ## The traversal: invariants -/

theorem foldl_invariant {σ α : Type} (P : σ → Prop) (f : σ → α → σ) (l : List α) (s : σ)
    (h0 : P s) (hstep : ∀ s x, x ∈ l → P s → P (f s x)) : P (l.foldl f s) := by
  induction l generalizing s with
  | nil => exact h0
  | cons x rest ih =>
    rw [List.foldl_cons]
    exact ih (f s x) (hstep s x (List.mem_cons_self _ _) h0)
      (fun s y hy hs => hstep s y (List.mem_cons_of_mem _ hy) hs)

theorem isSome_eq_false_iff {α : Type} (o : Option α) : ¬ o.isSome = true → o = none := by
  cases o with
  | none => intro _; rfl
  | some a => intro h; exact absurd rfl h

/-- A property that holds before the traversal and is kept by every execution of the
body of the innermost loop holds after the traversal. -/
theorem runGrid_invariant (cv : OpenCV) (img_object img_scene : Image) (trace : List Event)
    (P : GridState → Prop) (h0 : P ⟨[], trace, none⟩)
    (hstep : ∀ st detector descriptor matcher, detector ∈ detectors →
      descriptor ∈ descriptors → matcher ∈ matchers →
      isCombinationValid detector descriptor = true → st.aborted = none → P st →
      P (combinationBody cv img_object img_scene detector descriptor matcher st)) :
    P (runGrid cv img_object img_scene trace) := by
  unfold runGrid
  refine foldl_invariant P _ _ _ h0 ?_
  intro st detector hd hst
  split
  · exact hst
  · unfold descriptorLoop
    refine foldl_invariant P _ _ _ hst ?_
    intro st descriptor hs hst
    split
    · exact hst
    · split
      · exact hst
      next hvalid =>
        unfold matcherLoop
        refine foldl_invariant P _ _ _ hst ?_
        intro st matcher hm hst
        split
        · exact hst
        next hab =>
          refine hstep st detector descriptor matcher hd hs hm ?_ (isSome_eq_false_iff _ hab) hst
          simpa using hvalid

theorem combinationBody_results (cv : OpenCV) (img_object img_scene : Image)
    (detector descriptor matcher : String) (st : GridState) :
    (combinationBody cv img_object img_scene detector descriptor matcher st).results =
        st.results ∨
      ((matcher == "FLANN" && isBinaryDescriptor descriptor) = false ∧
        (combinationBody cv img_object img_scene detector descriptor matcher st).results =
          mapAssign st.results (detector, descriptor, matcher)
            (processCombination cv img_object img_scene detector descriptor matcher true false
              st.trace).result) := by
  unfold combinationBody
  simp only []
  split
  · exact Or.inl rfl
  next hskip =>
    have hskip : (matcher == "FLANN" && isBinaryDescriptor descriptor) = false := by
      simpa using hskip
    split
    · exact Or.inl rfl
    · split
      · exact Or.inr ⟨hskip, rfl⟩
      · split
        · exact Or.inr ⟨hskip, rfl⟩
        · exact Or.inr ⟨hskip, rfl⟩

theorem runGrid_ordered (cv : OpenCV) (img_object img_scene : Image) (trace : List Event) :
    Results.Ordered (runGrid cv img_object img_scene trace).results := by
  refine runGrid_invariant cv img_object img_scene trace (fun st => Results.Ordered st.results)
    (by simp [Results.Ordered]) ?_
  intro st d s m _ _ _ _ _ hst
  rcases combinationBody_results cv img_object img_scene d s m st with h | ⟨-, h⟩
  · rw [h]; exact hst
  · rw [h]; exact mapAssign_ordered _ _ _ hst

/-- C6, amended: the results mapping of a full-grid traversal is in ascending key order
(lexicographic on detector, descriptor and matcher names), and in a mapping in that
order the combination reported among those that tie for the most good matches is the
one of least key, and likewise among those that tie for the lowest time. -/
theorem ties_follow_key_order :
    (∀ (cv : OpenCV) (img_object img_scene : Image) (trace : List Event),
        Results.Ordered (runGrid cv img_object img_scene trace).results) ∧
      (∀ results : Results, Results.Ordered results →
        (∀ x, bestMatch results = some x → ∀ r ∈ results,
          r.2.numGoodMatches = x.2.numGoodMatches → tupleLess r.1 x.1 = false) ∧
        (∀ x, fastestMatch results = some x → ∀ r ∈ results,
          r.2.processingTime = x.2.processingTime → tupleLess r.1 x.1 = false)) :=
  ⟨runGrid_ordered, ordered_ties⟩

/-- Two recorded combinations that tie: the one of the lesser key is reported. -/
theorem ties_follow_key_order_witness :
    Results.Ordered [(("BRISK", "SIFT", "BF"), ⟨9, 5, 30, true⟩),
        (("SIFT", "SIFT", "BF"), ⟨9, 5, 30, true⟩)] ∧
      bestMatch [(("BRISK", "SIFT", "BF"), ⟨9, 5, 30, true⟩),
        (("SIFT", "SIFT", "BF"), ⟨9, 5, 30, true⟩)] =
        some (("BRISK", "SIFT", "BF"), ⟨9, 5, 30, true⟩) ∧
      tupleLess ("SIFT", "SIFT", "BF") ("BRISK", "SIFT", "BF") = false :=
  ⟨by unfold Results.Ordered; decide!, by decide!,
    (ties_follow_key_order.2
      [(("BRISK", "SIFT", "BF"), ⟨9, 5, 30, true⟩), (("SIFT", "SIFT", "BF"), ⟨9, 5, 30, true⟩)]
      (by unfold Results.Ordered; decide!)).1
      (("BRISK", "SIFT", "BF"), ⟨9, 5, 30, true⟩) (by decide!)
      (("SIFT", "SIFT", "BF"), ⟨9, 5, 30, true⟩) (by decide!) rfl⟩

/-- C6 as stated fails: in the sample library all forty combinations tie with four good
matches and 0 ms, the first combination of the traversal is SIFT, SIFT, BF, and the
combination reported as best and as fastest is BRISK, BRIEF, BF. -/
theorem tie_not_first_encountered :
    (traversalOrder sampleGrid.trace).head? = some ("SIFT", "SIFT", "BF") ∧
      sampleGrid.results.map (fun r => (r.2.numGoodMatches, r.2.processingTime)) =
        List.replicate 40 (4, 0) ∧
      (("SIFT", "SIFT", "BF"), (⟨4, 4, 0, true⟩ : MatchResult)) ∈ sampleGrid.results ∧
      (bestMatch sampleGrid.results).map Prod.fst = some ("BRISK", "BRIEF", "BF") ∧
      (fastestMatch sampleGrid.results).map Prod.fst = some ("BRISK", "BRIEF", "BF") := by
  decide!

/-! ## The combinations that are processed -/

theorem traversalOrder_append (t₁ t₂ : List Event) :
    traversalOrder (t₁ ++ t₂) = traversalOrder t₁ ++ traversalOrder t₂ := by
  simp [traversalOrder]

theorem detectKeypoints_traversal (cv : OpenCV) (detectorName : String)
    (detector : Feature2D) (img1 img2 : Image) (trace : List Event) :
    traversalOrder (detectKeypoints cv detectorName detector img1 img2 trace).2 =
      traversalOrder trace := by
  unfold detectKeypoints
  simp only []
  split
  · simp [traversalOrder]
  · split <;> simp [traversalOrder]

theorem computeDescriptors_traversal (cv : OpenCV) (descriptor : Feature2D)
    (img1 img2 : Image) (keypoints1 keypoints2 : List KeyPoint) (trace : List Event) :
    traversalOrder (computeDescriptors cv descriptor img1 img2 keypoints1 keypoints2 trace).2 =
      traversalOrder trace := by
  unfold computeDescriptors
  split
  · simp [traversalOrder]
  · split <;> simp [traversalOrder]

theorem matchDescriptors_traversal (cv : OpenCV) (matcher : DescriptorMatcher)
    (descriptors1 descriptors2 : Descriptors) (trace : List Event) :
    traversalOrder (matchDescriptors cv matcher descriptors1 descriptors2 trace).2 =
      traversalOrder trace := by
  unfold matchDescriptors
  split
  · simp [traversalOrder]
  · split <;> simp [traversalOrder]
  · simp [traversalOrder]

theorem collectPoints_traversal (keypoints1 keypoints2 : List KeyPoint)
    (goodMatches : List DMatch) (obj scene : List Point2f) (trace : List Event) :
    traversalOrder (collectPoints keypoints1 keypoints2 goodMatches obj scene trace).2 =
      traversalOrder trace := by
  induction goodMatches generalizing obj scene trace with
  | nil => simp [collectPoints]
  | cons m rest ih =>
    rw [collectPoints]
    split
    · split
      · simp [traversalOrder]
      · split
        · simp [traversalOrder]
        · rw [ih]
          simp [traversalOrder]
    · exact ih obj scene trace

theorem homographyStage_traversal (cv : OpenCV) (goodMatches : List DMatch)
    (keypoints1 keypoints2 : List KeyPoint) (result : MatchResult) (trace : List Event) :
    traversalOrder (homographyStage cv goodMatches keypoints1 keypoints2 result trace).2.2 =
      traversalOrder trace := by
  have hc := collectPoints_traversal keypoints1 keypoints2 goodMatches [] [] trace
  unfold homographyStage
  split
  · split
    next tr heq =>
      rw [heq] at hc
      exact hc
    next obj scene tr heq =>
      rw [heq] at hc
      split
      · split <;> simpa [traversalOrder] using hc
      · exact hc
  · rfl

theorem runCalls_traversal (cv : OpenCV) (calls : List Event)
    (h : traversalOrder calls = []) (trace : List Event) :
    traversalOrder (runCalls cv calls trace).2 = traversalOrder trace := by
  induction calls generalizing trace with
  | nil => rfl
  | cons c rest ih =>
    have hsplit : traversalOrder [c] ++ traversalOrder rest = [] := by
      rw [← traversalOrder_append]
      exact h
    have hc : traversalOrder [c] = [] := (List.append_eq_nil.1 hsplit).1
    have hrest : traversalOrder rest = [] := (List.append_eq_nil.1 hsplit).2
    rw [runCalls]
    split
    · rw [traversalOrder_append, hc, List.append_nil]
    · rw [ih hrest, traversalOrder_append, hc, List.append_nil]

theorem showResult_traversal (cv : OpenCV) (detectorName descriptorName matcherName : String)
    (saveResult isSpecificCombination : Bool) (goodMatches : List DMatch)
    (result : MatchResult) (trace : List Event) :
    traversalOrder (showResult cv detectorName descriptorName matcherName saveResult
      isSpecificCombination goodMatches result trace).2 = traversalOrder trace := by
  unfold showResult
  split
  · apply runCalls_traversal
    unfold showCalls
    split <;> simp [traversalOrder]
  · rfl

theorem afterMatching_traversal (cv : OpenCV)
    (detectorName descriptorName matcherName : String)
    (saveResult isSpecificCombination : Bool) (isBinary : Bool)
    (keypoints1 keypoints2 : List KeyPoint) (knnMatches : List (List DMatch))
    (result : MatchResult) (trace : List Event) :
    traversalOrder (afterMatching cv detectorName descriptorName matcherName saveResult
      isSpecificCombination isBinary keypoints1 keypoints2 knnMatches result trace).trace =
      traversalOrder trace := by
  unfold afterMatching
  simp only []
  split
  next r tr heq =>
    have := homographyStage_traversal cv
      (filterGoodMatches (RATIO_THRESHOLD isBinary) knnMatches) keypoints1 keypoints2
      { numMatches := intOfSize knnMatches.length,
        numGoodMatches := intOfSize
          (filterGoodMatches (RATIO_THRESHOLD isBinary) knnMatches).length,
        processingTime := result.processingTime,
        homographySuccess := result.homographySuccess } trace
    rw [heq] at this
    exact this
  next e r tr heq =>
    have := homographyStage_traversal cv
      (filterGoodMatches (RATIO_THRESHOLD isBinary) knnMatches) keypoints1 keypoints2
      { numMatches := intOfSize knnMatches.length,
        numGoodMatches := intOfSize
          (filterGoodMatches (RATIO_THRESHOLD isBinary) knnMatches).length,
        processingTime := result.processingTime,
        homographySuccess := result.homographySuccess } trace
    rw [heq] at this
    exact this
  next h r tr heq =>
    have := homographyStage_traversal cv
      (filterGoodMatches (RATIO_THRESHOLD isBinary) knnMatches) keypoints1 keypoints2
      { numMatches := intOfSize knnMatches.length,
        numGoodMatches := intOfSize
          (filterGoodMatches (RATIO_THRESHOLD isBinary) knnMatches).length,
        processingTime := result.processingTime,
        homographySuccess := result.homographySuccess } trace
    rw [heq] at this
    have hs := showResult_traversal cv detectorName descriptorName matcherName saveResult
      isSpecificCombination (filterGoodMatches (RATIO_THRESHOLD isBinary) knnMatches) r tr
    split
    next e tr2 heq2 =>
      rw [heq2] at hs
      exact hs.trans this
    next tr2 heq2 =>
      rw [heq2] at hs
      exact hs.trans this

theorem tryBlock_traversal (cv : OpenCV) (img1 img2 : Image)
    (detectorName descriptorName matcherName : String)
    (saveResult isSpecificCombination : Bool) (result : MatchResult) (trace : List Event) :
    traversalOrder (tryBlock cv img1 img2 detectorName descriptorName matcherName saveResult
      isSpecificCombination result trace).trace = traversalOrder trace := by
  unfold tryBlock
  split
  next detector descriptor hd hs =>
    have h1 := detectKeypoints_traversal cv detectorName detector img1 img2 trace
    split
    next e tr1 hdet =>
      rw [hdet] at h1
      exact h1
    next kp1 kp2 tr1 hdet =>
      rw [hdet] at h1
      have h2 := computeDescriptors_traversal cv descriptor img1 img2
        (limitKeypoints kp1) (limitKeypoints kp2) tr1
      split
      next e tr2 hcomp =>
        rw [hcomp] at h2
        exact h2.trans h1
      next k1 d1 k2 d2 tr2 hcomp =>
        rw [hcomp] at h2
        split
        · exact h2.trans h1
        · simp only []
          split
          · exact h2.trans h1
          next matcher hm =>
            split
            next e tr3 hmat =>
              have h3 := congrArg (fun p => traversalOrder p.2) hmat
              simp only [matchDescriptors_traversal] at h3
              exact h3.symm.trans (h2.trans h1)
            next knn tr3 hmat =>
              have h3 := congrArg (fun p => traversalOrder p.2) hmat
              simp only [matchDescriptors_traversal] at h3
              rw [afterMatching_traversal]
              exact h3.symm.trans (h2.trans h1)
  · rfl

/-- A call of processCombination announces exactly its own combination. -/
theorem processCombination_traversal (cv : OpenCV) (img1 img2 : Image)
    (detectorName descriptorName matcherName : String)
    (saveResult isSpecificCombination : Bool) (trace : List Event) :
    traversalOrder (processCombination cv img1 img2 detectorName descriptorName matcherName
      saveResult isSpecificCombination trace).trace =
      traversalOrder trace ++ [(detectorName, descriptorName, matcherName)] := by
  have h := tryBlock_traversal cv img1 img2 detectorName descriptorName matcherName
    saveResult isSpecificCombination ⟨0, 0, 0, false⟩
    (trace ++ [.procesando detectorName descriptorName matcherName] ++ [.now])
  have hbase : traversalOrder
      (trace ++ [.procesando detectorName descriptorName matcherName] ++ [.now]) =
      traversalOrder trace ++ [(detectorName, descriptorName, matcherName)] := by
    simp [traversalOrder]
  rw [hbase] at h
  unfold processCombination
  simp only []
  split
  · exact h
  · exact h
  · rw [traversalOrder_append, h]
    simp [traversalOrder]

theorem combinationBody_traversal (cv : OpenCV) (img_object img_scene : Image)
    (detector descriptor matcher : String) (st : GridState) :
    traversalOrder (combinationBody cv img_object img_scene detector descriptor matcher
        st).trace = traversalOrder st.trace ∨
      (isFlannWithBinary (detector, descriptor, matcher) = false ∧
        traversalOrder (combinationBody cv img_object img_scene detector descriptor matcher
          st).trace = traversalOrder st.trace ++ [(detector, descriptor, matcher)]) := by
  have hp := processCombination_traversal cv img_object img_scene detector descriptor matcher
    true false st.trace
  unfold combinationBody
  simp only []
  split
  · exact Or.inl rfl
  next hskip =>
    have hskip : isFlannWithBinary (detector, descriptor, matcher) = false := by
      simpa [isFlannWithBinary] using hskip
    right
    refine ⟨hskip, ?_⟩
    split
    · exact hp
    · split
      · rw [traversalOrder_append, hp]
        simp [traversalOrder]
      · split
        · rw [traversalOrder_append, hp]
          simp [traversalOrder]
        · rw [traversalOrder_append, hp]
          simp [traversalOrder]

/-- C7: after a full-grid traversal no key of the results mapping has the matcher FLANN
together with a binary descriptor (ORB, BRIEF, BRISK or FREAK), and no such combination
is among those that processCombination was called with during the traversal. -/
theorem flann_with_binary_excluded (cv : OpenCV) (img_object img_scene : Image)
    (trace : List Event) :
    (∀ x ∈ (runGrid cv img_object img_scene trace).results,
        ¬ (x.1.2.2 = "FLANN" ∧ x.1.2.1 ∈ ["ORB", "BRIEF", "BRISK", "FREAK"])) ∧
      ∃ calls, traversalOrder (runGrid cv img_object img_scene trace).trace =
          traversalOrder trace ++ calls ∧
        ∀ k ∈ calls, ¬ (k.2.2 = "FLANN" ∧ k.2.1 ∈ ["ORB", "BRIEF", "BRISK", "FREAK"]) := by
  have hconv : ∀ k : CombinationKey, isFlannWithBinary k = false →
      ¬ (k.2.2 = "FLANN" ∧ k.2.1 ∈ ["ORB", "BRIEF", "BRISK", "FREAK"]) := by
    intro k hk ⟨h1, h2⟩
    have hb : isBinaryDescriptor k.2.1 = true :=
      ((isBinaryDescriptor_of_mem k.2.1).1 h2)
    simp [isFlannWithBinary, h1, hb] at hk
  have hinv := runGrid_invariant cv img_object img_scene trace
    (fun st => (∀ x ∈ st.results, isFlannWithBinary x.1 = false) ∧
      ∃ calls, traversalOrder st.trace = traversalOrder trace ++ calls ∧
        ∀ k ∈ calls, isFlannWithBinary k = false)
    ⟨by simp, [], by simp, by simp⟩ ?_
  · obtain ⟨h1, calls, h2, h3⟩ := hinv
    exact ⟨fun x hx => hconv _ (h1 x hx), calls, h2, fun k hk => hconv _ (h3 k hk)⟩
  · intro st d s m _ _ _ _ _ ⟨hres, calls, htr, hcalls⟩
    constructor
    · intro x hx
      rcases combinationBody_results cv img_object img_scene d s m st with h | ⟨hskip, h⟩
      · rw [h] at hx
        exact hres x hx
      · rw [h] at hx
        rcases mapAssign_keys _ _ _ x hx with hk | ⟨y, hy, hk⟩
        · rw [hk]
          simpa [isFlannWithBinary] using hskip
        · rw [← hk]
          exact hres y hy
    · rcases combinationBody_traversal cv img_object img_scene d s m st with h | ⟨hskip, h⟩
      · exact ⟨calls, by rw [h, htr], hcalls⟩
      · refine ⟨calls ++ [(d, s, m)], by rw [h, htr, List.append_assoc], ?_⟩
        intro k hk
        rcases List.mem_append.1 hk with hk | hk
        · exact hcalls k hk
        · rw [List.mem_singleton.1 hk]
          exact hskip

/-! ## The traversal is not aborted -/

theorem intOfSize_le (n : Nat) : intOfSize n ≤ (n : Int) := by
  unfold intOfSize
  omega

theorem keypointAt_isSome (keypoints : List KeyPoint) (idx : Int) (h0 : 0 ≤ idx)
    (h1 : idx < intOfSize keypoints.length) : ∃ k, keypointAt keypoints idx = some k := by
  have hle := intOfSize_le keypoints.length
  have hlt : idx.toNat < keypoints.length := by omega
  refine ⟨keypoints[idx.toNat], ?_⟩
  unfold keypointAt
  rw [if_pos h0]
  exact List.getElem?_eq_getElem hlt

theorem collectPoints_defined (keypoints1 keypoints2 : List KeyPoint)
    (goodMatches : List DMatch) (h : ∀ m ∈ goodMatches, 0 ≤ m.queryIdx ∧ 0 ≤ m.trainIdx)
    (obj scene : List Point2f) (trace : List Event) :
    (collectPoints keypoints1 keypoints2 goodMatches obj scene trace).1 ≠ none := by
  induction goodMatches generalizing obj scene trace with
  | nil => simp [collectPoints]
  | cons m rest ih =>
    have hm := h m (List.mem_cons_self _ _)
    have hrest : ∀ x ∈ rest, 0 ≤ x.queryIdx ∧ 0 ≤ x.trainIdx :=
      fun x hx => h x (List.mem_cons_of_mem _ hx)
    rw [collectPoints]
    split
    next hc =>
      obtain ⟨k1, hk1⟩ := keypointAt_isSome keypoints1 m.queryIdx hm.1 hc.1
      obtain ⟨k2, hk2⟩ := keypointAt_isSome keypoints2 m.trainIdx hm.2 hc.2
      rw [hk1, hk2]
      exact ih hrest _ _ _
    · exact ih hrest _ _ _

theorem homographyStage_defined (cv : OpenCV) (goodMatches : List DMatch)
    (keypoints1 keypoints2 : List KeyPoint) (result : MatchResult) (trace : List Event)
    (h : ∀ m ∈ goodMatches, 0 ≤ m.queryIdx ∧ 0 ≤ m.trainIdx) :
    ∀ r tr, homographyStage cv goodMatches keypoints1 keypoints2 result trace ≠
      (.undefinedBehaviour, r, tr) := by
  intro r tr
  have hc := collectPoints_defined keypoints1 keypoints2 goodMatches h [] [] trace
  unfold homographyStage
  split
  · split
    next tr1 heq =>
      rw [heq] at hc
      exact absurd rfl hc
    · split
      · split <;> simp
      · simp
  · simp

theorem afterMatching_defined (cv : OpenCV)
    (detectorName descriptorName matcherName : String)
    (saveResult isSpecificCombination : Bool) (isBinary : Bool)
    (keypoints1 keypoints2 : List KeyPoint) (knnMatches : List (List DMatch))
    (result : MatchResult) (trace : List Event)
    (h : ∀ m ∈ filterGoodMatches (RATIO_THRESHOLD isBinary) knnMatches,
      0 ≤ m.queryIdx ∧ 0 ≤ m.trainIdx) :
    (afterMatching cv detectorName descriptorName matcherName saveResult
      isSpecificCombination isBinary keypoints1 keypoints2 knnMatches result trace).exit ≠
      .undefinedBehaviour := by
  unfold afterMatching
  simp only []
  split
  next r tr heq =>
    exact absurd heq (homographyStage_defined cv _ keypoints1 keypoints2 _ trace h r tr)
  · simp
  · split <;> simp

theorem mem_zipWith {α β γ : Type} (f : α → β → γ) (l₁ : List α) (l₂ : List β) (c : γ)
    (h : c ∈ List.zipWith f l₁ l₂) : ∃ a b, a ∈ l₁ ∧ b ∈ l₂ ∧ f a b = c := by
  induction l₁ generalizing l₂ with
  | nil => simp at h
  | cons x xs ih =>
    cases l₂ with
    | nil => simp at h
    | cons y ys =>
      rw [List.zipWith_cons_cons] at h
      rcases List.mem_cons.1 h with h | h
      · exact ⟨x, y, List.mem_cons_self _ _, List.mem_cons_self _ _, h.symm⟩
      · obtain ⟨a, b, ha, hb, hf⟩ := ih ys h
        exact ⟨a, b, List.mem_cons_of_mem _ ha, List.mem_cons_of_mem _ hb, hf⟩

theorem fallbackKnn_heads (knnMatches : List (List DMatch)) (regularMatches : List DMatch)
    (h1 : ∀ entry ∈ knnMatches, ∀ m ∈ entry, 0 ≤ m.queryIdx ∧ 0 ≤ m.trainIdx)
    (h2 : ∀ m ∈ regularMatches, 0 ≤ m.queryIdx ∧ 0 ≤ m.trainIdx) :
    ∀ entry ∈ fallbackKnn knnMatches regularMatches, ∀ m, entry.head? = some m →
      0 ≤ m.queryIdx ∧ 0 ≤ m.trainIdx := by
  intro entry hentry m hm
  unfold fallbackKnn at hentry
  obtain ⟨e, r, hmem1, hmem2, hget⟩ := mem_zipWith _ _ _ _ hentry
  subst hget
  cases e with
  | nil =>
    simp only [List.nil_append, List.head?_cons, Option.some.injEq] at hm
    rw [← hm]
    exact h2 r hmem2
  | cons x rest =>
    simp only [List.cons_append, List.head?_cons, Option.some.injEq] at hm
    rw [← hm]
    unfold resizeTo at hmem1
    rcases List.mem_append.1 hmem1 with hx | hx
    · exact h1 _ (List.mem_of_mem_take hx) x (List.mem_cons_self _ _)
    · exact absurd (List.eq_of_mem_replicate hx) (by simp)

theorem matchDescriptors_heads (cv : OpenCV) (hcv : cv.indicesNonneg)
    (matcher : DescriptorMatcher) (descriptors1 descriptors2 : Descriptors)
    (trace : List Event) (knnMatches : List (List DMatch)) (tr : List Event)
    (h : matchDescriptors cv matcher descriptors1 descriptors2 trace = (.ok knnMatches, tr)) :
    ∀ entry ∈ knnMatches, ∀ m, entry.head? = some m → 0 ≤ m.queryIdx ∧ 0 ≤ m.trainIdx := by
  have hk := hcv.1 trace matcher descriptors1 descriptors2 2
  unfold matchDescriptors at h
  split at h
  next knn hq =>
    rw [hq] at hk
    simp only [Prod.mk.injEq, Except.ok.injEq] at h
    rw [← h.1]
    intro entry he m hm
    exact hk entry he m (List.mem_of_mem_head? hm)
  next knn hq =>
    rw [hq] at hk
    split at h
    · simp at h
    next regular hr =>
      simp only [Prod.mk.injEq, Except.ok.injEq] at h
      rw [← h.1]
      exact fallbackKnn_heads knn regular hk (hcv.2 _ _ _ _ regular hr)
  · simp at h

theorem filterGoodMatches_mem (t : ℚ) (knnMatches : List (List DMatch)) (m : DMatch)
    (h : m ∈ filterGoodMatches t knnMatches) :
    ∃ entry ∈ knnMatches, entry.head? = some m := by
  rw [filterGoodMatches_eq] at h
  have := (goodMatchesSpec_sublist t knnMatches).subset h
  rw [List.mem_filterMap] at this
  exact this

theorem processCombination_defined (cv : OpenCV) (hcv : cv.indicesNonneg)
    (img1 img2 : Image) (detectorName descriptorName matcherName : String)
    (saveResult isSpecificCombination : Bool) (trace : List Event) :
    (processCombination cv img1 img2 detectorName descriptorName matcherName saveResult
      isSpecificCombination trace).exit ≠ .undefinedBehaviour := by
  rw [(processCombination_fields cv img1 img2 detectorName descriptorName matcherName
    saveResult isSpecificCombination trace).1]
  rcases tryBlock_cases cv img1 img2 detectorName descriptorName matcherName saveResult
      isSpecificCombination ⟨0, 0, 0, false⟩
      (trace ++ [.procesando detectorName descriptorName matcherName] ++ [.now]) with
    ⟨hb, -, -⟩ | ⟨k1, k2, knn, tr, -, ⟨matcher, d1, d2, tr0, hmat⟩, hrun⟩
  · intro h
    rw [h] at hb
    exact absurd hb (by decide)
  · rw [hrun]
    apply afterMatching_defined
    intro m hm
    obtain ⟨entry, he, hhead⟩ := filterGoodMatches_mem _ _ m hm
    exact matchDescriptors_heads cv hcv matcher d1 d2 tr0 knn tr hmat entry he m hhead

theorem mapAssign_fst (results : Results) (key : CombinationKey) (value : MatchResult) :
    (mapAssign results key value).map Prod.fst = insertKey (results.map Prod.fst) key := by
  induction results with
  | nil => rfl
  | cons head rest ih =>
    obtain ⟨k, v⟩ := head
    rw [mapAssign, List.map_cons, insertKey]
    split
    · rfl
    · split
      · rw [List.map_cons, ih]
      · rfl

theorem foldl_simulation {σ κ α : Type} (R : σ → κ → Prop) (f : σ → α → σ) (g : κ → α → κ)
    (l : List α) (s : σ) (k : κ) (h0 : R s k)
    (hstep : ∀ s k x, x ∈ l → R s k → R (f s x) (g k x)) :
    R (l.foldl f s) (l.foldl g k) := by
  induction l generalizing s k with
  | nil => exact h0
  | cons x rest ih =>
    rw [List.foldl_cons, List.foldl_cons]
    exact ih _ _ (hstep s k x (List.mem_cons_self _ _) h0)
      (fun s k y hy hs => hstep s k y (List.mem_cons_of_mem _ hy) hs)

theorem combinationBody_keys (cv : OpenCV) (h1 : cv.loopCallsReturn) (h2 : cv.indicesNonneg)
    (img_object img_scene : Image) (detector descriptor matcher : String) (st : GridState)
    (hst : st.aborted = none) :
    (combinationBody cv img_object img_scene detector descriptor matcher st).aborted = none ∧
      (combinationBody cv img_object img_scene detector descriptor matcher st).results.map
          Prod.fst =
        if matcher == "FLANN" && isBinaryDescriptor descriptor then st.results.map Prod.fst
        else insertKey (st.results.map Prod.fst) (detector, descriptor, matcher) := by
  have hdef := processCombination_defined cv h2 img_object img_scene detector descriptor
    matcher true false st.trace
  have h1 : ∀ hist e, cv.guiMain hist e = none := h1
  unfold combinationBody
  simp only [h1]
  split
  · exact ⟨hst, rfl⟩
  · exact ⟨rfl, mapAssign_fst _ _ _⟩

/-- When the calls of lines 463-464 return and the matches carry no negative index, the
traversal runs to its end and records the keys of gridKeys. -/
theorem runGrid_keys (cv : OpenCV) (h1 : cv.loopCallsReturn) (h2 : cv.indicesNonneg)
    (img_object img_scene : Image) (trace : List Event) :
    (runGrid cv img_object img_scene trace).aborted = none ∧
      (runGrid cv img_object img_scene trace).results.map Prod.fst = gridKeys := by
  unfold runGrid gridKeys
  refine foldl_simulation keysRecorded
    _ _ _ _ _ ⟨rfl, rfl⟩ ?_
  intro st keys detector _ ⟨hab, hkeys⟩
  simp only [hab, Option.isSome_none, Bool.false_eq_true, if_false]
  unfold descriptorLoop
  refine foldl_simulation keysRecorded
    _ _ _ _ _ ⟨hab, hkeys⟩ ?_
  intro st keys descriptor _ ⟨hab, hkeys⟩
  simp only [hab, Option.isSome_none, Bool.false_eq_true, if_false]
  split
  · exact ⟨hab, hkeys⟩
  · unfold matcherLoop
    refine foldl_simulation keysRecorded
      _ _ _ _ _ ⟨hab, hkeys⟩ ?_
    intro st keys matcher _ ⟨hab, hkeys⟩
    simp only [hab, Option.isSome_none, Bool.false_eq_true, if_false]
    obtain ⟨ha, hk⟩ := combinationBody_keys cv h1 h2 img_object img_scene detector descriptor
      matcher st hab
    refine ⟨ha, ?_⟩
    rw [hk, hkeys]

theorem gridKeys_length : gridKeys.length = 40 := by decide!

theorem gridKeys_complete :
    ∀ d ∈ detectors, ∀ s ∈ descriptors, ∀ m ∈ matchers, isCombinationValid d s = true →
      ¬ (m = "FLANN" ∧ isBinaryDescriptor s = true) → (d, s, m) ∈ gridKeys := by
  decide!

theorem gridKeys_sound :
    ∀ k ∈ gridKeys, k.1 ∈ detectors ∧ k.2.1 ∈ descriptors ∧ k.2.2 ∈ matchers ∧
      isCombinationValid k.1 k.2.1 = true ∧
      ¬ (k.2.2 = "FLANN" ∧ isBinaryDescriptor k.2.1 = true) := by
  decide!

/-- C9: in full-grid mode, whatever the library calls inside processCombination return
or throw, as long as the calls that main itself makes after each combination return and
the matches carry no negative index, the traversal is not aborted and the results
mapping ends with exactly one entry for every triple of the grid that passes
isCombinationValid and is not FLANN with a binary descriptor: 40 entries. -/
theorem grid_never_aborted (cv : OpenCV) (img_object img_scene : Image) (trace : List Event)
    (h1 : cv.loopCallsReturn) (h2 : cv.indicesNonneg) :
    (runGrid cv img_object img_scene trace).aborted = none ∧
      (runGrid cv img_object img_scene trace).results.length = 40 ∧
      (∀ d ∈ detectors, ∀ s ∈ descriptors, ∀ m ∈ matchers, isCombinationValid d s = true →
        ¬ (m = "FLANN" ∧ isBinaryDescriptor s = true) →
        ∃ r, ((d, s, m), r) ∈ (runGrid cv img_object img_scene trace).results) ∧
      (∀ x ∈ (runGrid cv img_object img_scene trace).results,
        x.1.1 ∈ detectors ∧ x.1.2.1 ∈ descriptors ∧ x.1.2.2 ∈ matchers ∧
          isCombinationValid x.1.1 x.1.2.1 = true ∧
          ¬ (x.1.2.2 = "FLANN" ∧ isBinaryDescriptor x.1.2.1 = true)) := by
  obtain ⟨hab, hkeys⟩ := runGrid_keys cv h1 h2 img_object img_scene trace
  refine ⟨hab, ?_, ?_, ?_⟩
  · have := congrArg List.length hkeys
    rw [List.length_map, gridKeys_length] at this
    exact this
  · intro d hd s hs m hm hv hf
    have hmem := gridKeys_complete d hd s hs m hm hv hf
    rw [← hkeys, List.mem_map] at hmem
    obtain ⟨x, hx, hxk⟩ := hmem
    refine ⟨x.2, ?_⟩
    rw [← hxk]
    exact hx
  · intro x hx
    apply gridKeys_sound
    rw [← hkeys]
    exact List.mem_map_of_mem _ hx

theorem sampleCV_loopCallsReturn (clock : List Event → Int) (knnMatches : List (List DMatch))
    (estimate : Except Thrown Homography) :
    (sampleCV clock knnMatches estimate).loopCallsReturn :=
  fun _ _ => rfl

theorem sampleCV_indicesNonneg (clock : List Event → Int)
    (estimate : Except Thrown Homography) :
    (sampleCV clock sampleKnn estimate).indicesNonneg := by
  constructor
  · intro hist matcher d1 d2 k entry he m hm
    have hall : ∀ entry ∈ sampleKnn, ∀ m ∈ entry, 0 ≤ m.queryIdx ∧ 0 ≤ m.trainIdx := by
      decide
    exact hall entry he m hm
  · intro hist matcher d1 d2 regular hr m hm
    have : regular = [] := by
      simp only [sampleCV, Except.ok.injEq] at hr
      exact hr.symm
    rw [this] at hm
    exact absurd hm (List.not_mem_nil _)

/-- In the sample library whose estimator throws at every call, all forty combinations
are recorded. -/
theorem grid_never_aborted_witness :
    (sampleCV frozenClock sampleKnn (.error .cvException)).loopCallsReturn ∧
      (sampleCV frozenClock sampleKnn (.error .cvException)).indicesNonneg ∧
      (runGrid (sampleCV frozenClock sampleKnn (.error .cvException)) sampleImage sampleImage
        []).aborted = none ∧
      (runGrid (sampleCV frozenClock sampleKnn (.error .cvException)) sampleImage sampleImage
        []).results.length = 40 :=
  ⟨sampleCV_loopCallsReturn _ _ _, sampleCV_indicesNonneg _ _,
    (grid_never_aborted (sampleCV frozenClock sampleKnn (.error .cvException)) sampleImage
      sampleImage [] (sampleCV_loopCallsReturn _ _ _) (sampleCV_indicesNonneg _ _)).1,
    (grid_never_aborted (sampleCV frozenClock sampleKnn (.error .cvException)) sampleImage
      sampleImage [] (sampleCV_loopCallsReturn _ _ _) (sampleCV_indicesNonneg _ _)).2.1⟩

/-! ## The accesses to the keypoint vectors -/

/-- C10 as stated fails: the test of lines 220-221 compares the indices with the sizes
only, so a good match with queryIdx = -1 passes it although 0 <= queryIdx does not hold,
and the loop reads keypoints1 at -1, outside the vector. -/
theorem negative_index_is_dereferenced :
    ¬ (0 ≤ (DMatch.mk (-1) 0 0 1).queryIdx) ∧
      passesBoundsCheck sampleKeypoints sampleKeypoints ⟨-1, 0, 0, 1⟩ = true ∧
      keypointAt sampleKeypoints (-1) = none ∧
      collectPoints sampleKeypoints sampleKeypoints negativeIndexMatches [] [] [] =
        (none, [.keypoints1At (-1)]) := by
  decide!

theorem collectPoints_nonneg (keypoints1 keypoints2 : List KeyPoint)
    (goodMatches : List DMatch) (h : ∀ m ∈ goodMatches, 0 ≤ m.queryIdx ∧ 0 ≤ m.trainIdx)
    (obj scene : List Point2f) (trace : List Event) :
    ∃ tr, collectPoints keypoints1 keypoints2 goodMatches obj scene trace =
        (some (obj ++ objPoints keypoints1 keypoints2 goodMatches,
          scene ++ scenePoints keypoints1 keypoints2 goodMatches), tr) ∧
      (∀ i, Event.keypoints1At i ∈ tr →
        Event.keypoints1At i ∈ trace ∨ (0 ≤ i ∧ i < (keypoints1.length : Int))) ∧
      (∀ i, Event.keypoints2At i ∈ tr →
        Event.keypoints2At i ∈ trace ∨ (0 ≤ i ∧ i < (keypoints2.length : Int))) := by
  induction goodMatches generalizing obj scene trace with
  | nil =>
    refine ⟨trace, ?_, fun i hi => Or.inl hi, fun i hi => Or.inl hi⟩
    simp [collectPoints, objPoints, scenePoints]
  | cons m rest ih =>
    have hm := h m (List.mem_cons_self _ _)
    have hrest : ∀ x ∈ rest, 0 ≤ x.queryIdx ∧ 0 ≤ x.trainIdx :=
      fun x hx => h x (List.mem_cons_of_mem _ hx)
    rw [collectPoints]
    by_cases hc : m.queryIdx < intOfSize keypoints1.length ∧
        m.trainIdx < intOfSize keypoints2.length
    · have hp : passesBoundsCheck keypoints1 keypoints2 m = true := by
        simp [passesBoundsCheck, hc]
      obtain ⟨ka, hka⟩ := keypointAt_isSome keypoints1 m.queryIdx hm.1 hc.1
      obtain ⟨kb, hkb⟩ := keypointAt_isSome keypoints2 m.trainIdx hm.2 hc.2
      have hl1 := intOfSize_le keypoints1.length
      have hl2 := intOfSize_le keypoints2.length
      rw [if_pos hc, hka, hkb]
      simp only []
      obtain ⟨tr, heq, ha, hb⟩ := ih hrest (obj ++ [ka.pt]) (scene ++ [kb.pt])
        (trace ++ [.keypoints1At m.queryIdx, .keypoints2At m.trainIdx])
      refine ⟨tr, ?_, ?_, ?_⟩
      · rw [heq]
        simp [objPoints, scenePoints, List.filter_cons, hp, hka, hkb]
      · intro i hi
        rcases ha i hi with hin | hin
        · rcases List.mem_append.1 hin with hin | hin
          · exact Or.inl hin
          · simp only [List.mem_cons, Event.keypoints1At.injEq, List.mem_singleton,
              List.not_mem_nil, or_false, reduceCtorEq] at hin
            right
            rw [hin]
            exact ⟨hm.1, by omega⟩
        · exact Or.inr hin
      · intro i hi
        rcases hb i hi with hin | hin
        · rcases List.mem_append.1 hin with hin | hin
          · exact Or.inl hin
          · simp only [List.mem_cons, Event.keypoints2At.injEq, List.mem_singleton,
              List.not_mem_nil, or_false, false_or, reduceCtorEq] at hin
            right
            rw [hin]
            exact ⟨hm.2, by omega⟩
        · exact Or.inr hin
    · have hp : passesBoundsCheck keypoints1 keypoints2 m = false := by
        simp [passesBoundsCheck, hc]
      rw [if_neg hc]
      obtain ⟨tr, heq, ha, hb⟩ := ih hrest obj scene trace
      refine ⟨tr, ?_, ha, hb⟩
      rw [heq]
      simp [objPoints, scenePoints, List.filter_cons, hp]

/-- C10, amended: for every list of good matches without a negative index and every
pair of keypoint sequences, the loop of lines 219-225 reaches its end; it reads
keypoints1 and keypoints2 only at indices i with 0 <= i < length; the points it collects
are those of the matches that pass the test of lines 220-221, one pair per such match
and in their order, every other match being skipped; for sequences shorter than 2^31
the test holds exactly when both indices lie below the lengths; and with a library that
reports no negative index no call of processCombination reads outside a vector. -/
theorem nonnegative_indices_stay_in_bounds (keypoints1 keypoints2 : List KeyPoint)
    (goodMatches : List DMatch) (h : ∀ m ∈ goodMatches, 0 ≤ m.queryIdx ∧ 0 ≤ m.trainIdx) :
    (∃ tr, collectPoints keypoints1 keypoints2 goodMatches [] [] [] =
        (some (objPoints keypoints1 keypoints2 goodMatches,
          scenePoints keypoints1 keypoints2 goodMatches), tr) ∧
      (∀ i, Event.keypoints1At i ∈ tr → 0 ≤ i ∧ i < (keypoints1.length : Int)) ∧
      (∀ i, Event.keypoints2At i ∈ tr → 0 ≤ i ∧ i < (keypoints2.length : Int))) ∧
      (objPoints keypoints1 keypoints2 goodMatches).length =
        (goodMatches.filter (passesBoundsCheck keypoints1 keypoints2)).length ∧
      (scenePoints keypoints1 keypoints2 goodMatches).length =
        (goodMatches.filter (passesBoundsCheck keypoints1 keypoints2)).length ∧
      (keypoints1.length < 2147483648 → keypoints2.length < 2147483648 →
        ∀ m : DMatch, passesBoundsCheck keypoints1 keypoints2 m = true ↔
          (m.queryIdx < (keypoints1.length : Int) ∧ m.trainIdx < (keypoints2.length : Int))) ∧
      (∀ (cv : OpenCV) (img1 img2 : Image) (detectorName descriptorName matcherName : String)
        (saveResult isSpecificCombination : Bool) (trace : List Event), cv.indicesNonneg →
        (processCombination cv img1 img2 detectorName descriptorName matcherName saveResult
          isSpecificCombination trace).exit ≠ .undefinedBehaviour) := by
  obtain ⟨tr, heq, ha, hb⟩ := collectPoints_nonneg keypoints1 keypoints2 goodMatches h [] [] []
  have hlen := (collectPoints_spec keypoints1 keypoints2 goodMatches [] [] []).2 _ _
    (congrArg Prod.fst heq)
  simp only [List.nil_append, List.length_nil, Nat.zero_add] at heq hlen
  refine ⟨⟨tr, heq, ?_, ?_⟩, hlen.1, hlen.2, ?_, ?_⟩
  · intro i hi
    rcases ha i hi with hin | hin
    · exact absurd hin (List.not_mem_nil _)
    · exact hin
  · intro i hi
    rcases hb i hi with hin | hin
    · exact absurd hin (List.not_mem_nil _)
    · exact hin
  · intro h1 h2 m
    unfold passesBoundsCheck intOfSize
    rw [decide_eq_true_iff]
    omega
  · intro cv img1 img2 detectorName descriptorName matcherName saveResult
      isSpecificCombination trace hcv
    exact processCombination_defined cv hcv img1 img2 detectorName descriptorName matcherName
      saveResult isSpecificCombination trace

/-- Of three matches on four keypoints the one with query index 7 is skipped and the
other two are read at their indices. -/
theorem nonnegative_indices_stay_in_bounds_witness :
    (∀ m ∈ mixedMatches, 0 ≤ m.queryIdx ∧ 0 ≤ m.trainIdx) ∧
      collectPoints sampleKeypoints sampleKeypoints mixedMatches [] [] [] =
        (some ([⟨0, 0⟩, ⟨1, 1⟩], [⟨0, 0⟩, ⟨1, 1⟩]),
          [.keypoints1At 0, .keypoints2At 0, .keypoints1At 2, .keypoints2At 2]) ∧
      (objPoints sampleKeypoints sampleKeypoints mixedMatches).length =
        (mixedMatches.filter (passesBoundsCheck sampleKeypoints sampleKeypoints)).length :=
  ⟨by decide, by decide!,
    (nonnegative_indices_stay_in_bounds sampleKeypoints sampleKeypoints mixedMatches
      (by decide)).2.1⟩

/-! ## The cap on the keypoints -/

theorem limitKeypoints_eq (keypoints : List KeyPoint) :
    limitKeypoints keypoints = keypoints.take (min keypoints.length 500) ∧
      (limitKeypoints keypoints).length = min keypoints.length 500 := by
  unfold limitKeypoints MAX_KEYPOINTS
  by_cases h : keypoints.length > 500
  · rw [if_pos h, Nat.min_eq_right (Nat.le_of_lt h)]
    exact ⟨rfl, by rw [List.length_take]; omega⟩
  · rw [if_neg h, Nat.min_eq_left (by omega)]
    exact ⟨(List.take_length keypoints).symm, rfl⟩

theorem limitFeatures_eq (keypoints : List KeyPoint) (descriptors : Descriptors)
    (h : descriptors.rows = keypoints.length) :
    ∃ cut, SurfSurf.limitFeatures keypoints descriptors =
        .ok (keypoints.take (min keypoints.length 500), cut) ∧
      cut.rows = min keypoints.length 500 ∧ cut.cols = descriptors.cols ∧
      cut.data = (if keypoints.length > 500 then descriptors.data.take (500 * descriptors.cols)
        else descriptors.data) := by
  unfold SurfSurf.limitFeatures SurfSurf.rowRange SurfSurf.MAX_KEYPOINTS
  by_cases hl : keypoints.length > 500
  · have hr : 0 ≤ 500 ∧ 500 ≤ descriptors.rows := ⟨Nat.zero_le _, by omega⟩
    rw [if_pos hl, if_pos hr, if_pos hl, Nat.min_eq_right (Nat.le_of_lt hl)]
    exact ⟨_, rfl, rfl, rfl, by simp⟩
  · rw [if_neg hl, if_neg hl, Nat.min_eq_left (by omega), List.take_length keypoints]
    exact ⟨descriptors, rfl, h, rfl, rfl⟩

theorem computeDescriptors_calls (cv : OpenCV) (descriptor : Feature2D) (img1 img2 : Image)
    (keypoints1 keypoints2 : List KeyPoint) (trace : List Event) (k1 k2 : List KeyPoint)
    (d1 d2 : Descriptors) (tr : List Event)
    (h : computeDescriptors cv descriptor img1 img2 keypoints1 keypoints2 trace =
      (.ok ((k1, d1), (k2, d2)), tr)) :
    cv.compute trace descriptor img1 keypoints1 = .ok (k1, d1) ∧
      cv.compute (trace ++ [.compute descriptor 1]) descriptor img2 keypoints2 =
        .ok (k2, d2) := by
  unfold computeDescriptors at h
  split at h
  · simp at h
  next r1 h1 =>
    split at h
    · simp at h
    next r2 h2 =>
      simp only [Prod.mk.injEq, Except.ok.injEq] at h
      obtain ⟨⟨hr1, hr2⟩, -⟩ := h
      subst hr1 hr2
      exact ⟨h1, h2⟩

theorem sublist_length_eq_iff {α : Type} (l1 l2 : List α) (h : l1.Sublist l2) :
    l1.length = l2.length ↔ l1 = l2 :=
  ⟨fun hl => h.eq_of_length hl, fun he => by rw [he]⟩

/-- C11, amended: the cap keeps the first min(L, 500) keypoints in their order.  In
surf_surf.cpp a descriptor matrix with one row per keypoint is cut together with the
keypoints, so that both have min(L, 500) entries.  In combination_tester.cpp the cap is
applied to the keypoints alone, before there are descriptors: compute is called with
the first min(L, 500) keypoints, and the keypoints and descriptors used afterwards are
the ones it returns; when it returns one row per keypoint their numbers agree, and when
it only removes keypoints there are at most min(L, 500) of them, with equality exactly
when none was removed. -/
theorem cap_keeps_first_keypoints (keypoints : List KeyPoint) :
    (limitKeypoints keypoints = keypoints.take (min keypoints.length 500) ∧
        (limitKeypoints keypoints).length = min keypoints.length 500) ∧
      (∀ descriptors : Descriptors, descriptors.rows = keypoints.length →
        ∃ cut, SurfSurf.limitFeatures keypoints descriptors =
            .ok (keypoints.take (min keypoints.length 500), cut) ∧
          cut.rows = min keypoints.length 500 ∧
          (keypoints.take (min keypoints.length 500)).length = min keypoints.length 500 ∧
          cut.cols = descriptors.cols ∧
          cut.data = (if keypoints.length > 500 then
            descriptors.data.take (500 * descriptors.cols) else descriptors.data)) ∧
      (∀ (cv : OpenCV) (descriptor : Feature2D) (img1 img2 : Image) (other : List KeyPoint)
        (trace : List Event) (k1 k2 : List KeyPoint) (d1 d2 : Descriptors) (tr : List Event),
        computeDescriptors cv descriptor img1 img2 (limitKeypoints keypoints)
            (limitKeypoints other) trace = (.ok ((k1, d1), (k2, d2)), tr) →
        cv.compute trace descriptor img1 (keypoints.take (min keypoints.length 500)) =
            .ok (k1, d1) ∧
          cv.compute (trace ++ [.compute descriptor 1]) descriptor img2
              (other.take (min other.length 500)) = .ok (k2, d2) ∧
          (cv.oneRowPerKeypoint → d1.rows = k1.length ∧ d2.rows = k2.length) ∧
          (cv.onlyRemovesKeypoints →
            k1.Sublist (keypoints.take (min keypoints.length 500)) ∧
              k1.length ≤ min keypoints.length 500 ∧
              (k1.length = min keypoints.length 500 ↔
                k1 = keypoints.take (min keypoints.length 500)) ∧
              k2.Sublist (other.take (min other.length 500)) ∧
              k2.length ≤ min other.length 500 ∧
              (k2.length = min other.length 500 ↔
                k2 = other.take (min other.length 500)))) := by
  refine ⟨limitKeypoints_eq keypoints, ?_, ?_⟩
  · intro descriptors h
    obtain ⟨cut, h1, h2, h3, h4⟩ := limitFeatures_eq keypoints descriptors h
    refine ⟨cut, h1, h2, ?_, h3, h4⟩
    rw [List.length_take]
    omega
  · intro cv descriptor img1 img2 other trace k1 k2 d1 d2 tr h
    obtain ⟨e1, l1⟩ := limitKeypoints_eq keypoints
    obtain ⟨e2, l2⟩ := limitKeypoints_eq other
    rw [e1, e2] at h
    rw [e1] at l1
    rw [e2] at l2
    obtain ⟨hc1, hc2⟩ := computeDescriptors_calls cv descriptor img1 img2 _ _ trace k1 k2 d1 d2
      tr h
    refine ⟨hc1, hc2, ?_, ?_⟩
    · intro hrow
      exact ⟨hrow _ _ _ _ _ _ hc1, hrow _ _ _ _ _ _ hc2⟩
    · intro hrem
      have hs1 := hrem _ _ _ _ _ _ hc1
      have hs2 := hrem _ _ _ _ _ _ hc2
      refine ⟨hs1, ?_, ?_, hs2, ?_, ?_⟩
      · rw [← l1]
        exact hs1.length_le
      · have hiff := sublist_length_eq_iff _ _ hs1
        rw [l1] at hiff
        exact hiff
      · rw [← l2]
        exact hs2.length_le
      · have hiff := sublist_length_eq_iff _ _ hs2
        rw [l2] at hiff
        exact hiff

theorem droppingCV_oneRowPerKeypoint : droppingCV.oneRowPerKeypoint := by
  intro hist descriptor img keypoints keypoints1 descriptors h
  simp only [droppingCV, Except.ok.injEq, Prod.mk.injEq] at h
  obtain ⟨h1, h2⟩ := h
  subst h1 h2
  rfl

theorem droppingCV_onlyRemovesKeypoints : droppingCV.onlyRemovesKeypoints := by
  intro hist descriptor img keypoints keypoints1 descriptors h
  simp only [droppingCV, Except.ok.injEq, Prod.mk.injEq] at h
  obtain ⟨h1, h2⟩ := h
  subst h1
  exact List.dropLast_sublist keypoints

/-- C11 as stated fails for combination_tester.cpp: of 600 detected keypoints the cap
keeps 500, and a descriptor computation that removes the last of them leaves 499
keypoints and 499 descriptor rows, not min(600, 500) = 500. -/
theorem compute_after_cap_removes_keypoint :
    min manyKeypoints.length 500 = 500 ∧
      (limitKeypoints manyKeypoints).length = 500 ∧
      computeDescriptors droppingCV (.BRIEF 32) sampleImage sampleImage
          (limitKeypoints manyKeypoints) (limitKeypoints manyKeypoints) [] =
        (.ok (((limitKeypoints manyKeypoints).dropLast,
            ⟨(limitKeypoints manyKeypoints).dropLast.length, 32, false, []⟩),
          ((limitKeypoints manyKeypoints).dropLast,
            ⟨(limitKeypoints manyKeypoints).dropLast.length, 32, false, []⟩)),
          [.compute (.BRIEF 32) 1, .compute (.BRIEF 32) 2]) ∧
      (limitKeypoints manyKeypoints).dropLast.length = 499 ∧
      (⟨(limitKeypoints manyKeypoints).dropLast.length, 32, false, []⟩ : Descriptors).rows =
        499 :=
  ⟨by decide!, by decide!, rfl, by decide!, by decide!⟩

/-- Six hundred keypoints with as many descriptor rows are cut to five hundred in
surf_surf.cpp; in combination_tester.cpp, with a computation that removes one keypoint,
descriptor rows and keypoints agree in number and are at most five hundred. -/
theorem cap_keeps_first_keypoints_witness :
    ((⟨600, 64, true, []⟩ : Descriptors).rows = manyKeypoints.length ∧
      ∃ cut, SurfSurf.limitFeatures manyKeypoints ⟨600, 64, true, []⟩ =
          .ok (manyKeypoints.take (min manyKeypoints.length 500), cut) ∧
        cut.rows = min manyKeypoints.length 500) ∧
      droppingCV.oneRowPerKeypoint ∧ droppingCV.onlyRemovesKeypoints ∧
      (⟨(limitKeypoints manyKeypoints).dropLast.length, 32, false, []⟩ : Descriptors).rows =
        (limitKeypoints manyKeypoints).dropLast.length ∧
      (limitKeypoints manyKeypoints).dropLast.length ≤ min manyKeypoints.length 500 :=
  ⟨⟨(List.length_replicate 600 _).symm,
      let ⟨cut, h1, h2, _⟩ :=
        (cap_keeps_first_keypoints manyKeypoints).2.1 ⟨600, 64, true, []⟩
          (List.length_replicate 600 _).symm
      ⟨cut, h1, h2⟩⟩,
    droppingCV_oneRowPerKeypoint, droppingCV_onlyRemovesKeypoints,
    (((cap_keeps_first_keypoints manyKeypoints).2.2 droppingCV (.BRIEF 32) sampleImage
      sampleImage manyKeypoints [] _ _ _ _ _ rfl).2.2.1 droppingCV_oneRowPerKeypoint).1,
    (((cap_keeps_first_keypoints manyKeypoints).2.2 droppingCV (.BRIEF 32) sampleImage
      sampleImage manyKeypoints [] _ _ _ _ _ rfl).2.2.2 droppingCV_onlyRemovesKeypoints).2.1⟩

/-! ## The single-match fallback -/

theorem resizeTo_length (n : Nat) (v : List (List DMatch)) : (resizeTo n v).length = n := by
  unfold resizeTo
  rw [List.length_append, List.length_take, List.length_replicate]
  omega

theorem fallbackKnn_length (leftover : List (List DMatch)) (regularMatches : List DMatch) :
    (fallbackKnn leftover regularMatches).length = regularMatches.length := by
  unfold fallbackKnn
  rw [List.length_zipWith, resizeTo_length, Nat.min_self]

theorem zipWith_replicate_nil (f : List DMatch → DMatch → List DMatch) (l : List DMatch) :
    List.zipWith f (List.replicate l.length []) l = l.map (f []) := by
  induction l with
  | nil => rfl
  | cons x rest ih =>
    rw [List.length_cons, List.replicate_succ, List.zipWith_cons_cons, ih, List.map_cons]

theorem fallbackKnn_nil (regularMatches : List DMatch) :
    fallbackKnn [] regularMatches = regularMatches.map (fun m => [m, fictitiousMatch m]) := by
  unfold fallbackKnn resizeTo
  rw [List.take_nil, List.nil_append, List.length_nil, Nat.sub_zero, zipWith_replicate_nil]
  rfl

theorem intOfSize_eq (n : Nat) (h : n < 2147483648) : intOfSize n = n := by
  unfold intOfSize
  omega

/-- C12: when knnMatch throws a cv::Exception, the fallback yields as many neighbour
lists as there are single matches, whatever the failed call left in knnMatches; when it
left nothing, the i-th list is [m_i, f_i] with f_i the fictitious match of distance
1.5 * m_i.distance; matchDescriptors returns these lists and afterMatching records
numMatches = n. -/
theorem fallback_synthesizes_second_neighbour (regularMatches : List DMatch) :
    (∀ leftover : List (List DMatch),
        (fallbackKnn leftover regularMatches).length = regularMatches.length) ∧
      fallbackKnn [] regularMatches = regularMatches.map (fun m => [m, fictitiousMatch m]) ∧
      (∀ entry ∈ fallbackKnn [] regularMatches, entry.length = 2) ∧
      (∀ m : DMatch, (fictitiousMatch m).distance = 15 / 10 * m.distance) ∧
      (∀ (cv : OpenCV) (matcher : DescriptorMatcher) (d1 d2 : Descriptors) (trace : List Event),
        cv.knnMatch trace matcher d1 d2 2 = ([], some .cvException) →
        cv.matchSingle (trace ++ [.knnMatch matcher 2]) matcher d1 d2 = .ok regularMatches →
        matchDescriptors cv matcher d1 d2 trace =
          (.ok (regularMatches.map (fun m => [m, fictitiousMatch m])),
            trace ++ [.knnMatch matcher 2, .matchSingle matcher])) ∧
      (∀ (cv : OpenCV) (detectorName descriptorName matcherName : String)
        (saveResult isSpecificCombination isBinary : Bool) (keypoints1 keypoints2 : List KeyPoint)
        (result : MatchResult) (trace : List Event), regularMatches.length < 2147483648 →
        (afterMatching cv detectorName descriptorName matcherName saveResult
          isSpecificCombination isBinary keypoints1 keypoints2
          (fallbackKnn [] regularMatches) result trace).result.numMatches =
          regularMatches.length) := by
  refine ⟨fun leftover => fallbackKnn_length leftover regularMatches,
    fallbackKnn_nil regularMatches, ?_, ?_, ?_, ?_⟩
  · intro entry he
    rw [fallbackKnn_nil, List.mem_map] at he
    obtain ⟨m, -, hm⟩ := he
    rw [← hm]
    rfl
  · intro m
    simp only [fictitiousMatch]
    ring
  · intro cv matcher d1 d2 trace hk hm
    unfold matchDescriptors
    rw [hk]
    simp only []
    rw [hm]
    simp only []
    rw [fallbackKnn_nil]
  · intro cv detectorName descriptorName matcherName saveResult isSpecificCombination isBinary
      keypoints1 keypoints2 result trace hn
    rw [(afterMatching_counts cv detectorName descriptorName matcherName saveResult
      isSpecificCombination isBinary keypoints1 keypoints2 _ result trace).1,
      fallbackKnn_length, intOfSize_eq _ hn]

/-- In a library whose knnMatch throws and whose single matching returns two matches,
the matching stage returns two lists of two neighbours each. -/
theorem fallback_synthesizes_second_neighbour_witness :
    (fallbackCV [⟨0, 0, 0, 2⟩, ⟨1, 3, 0, 4⟩]).knnMatch [] .bruteForce ⟨2, 32, true, []⟩
          ⟨4, 32, true, []⟩ 2 = ([], some .cvException) ∧
      matchDescriptors (fallbackCV [⟨0, 0, 0, 2⟩, ⟨1, 3, 0, 4⟩]) .bruteForce ⟨2, 32, true, []⟩
          ⟨4, 32, true, []⟩ [] =
        (.ok ([⟨0, 0, 0, 2⟩, ⟨1, 3, 0, 4⟩].map (fun m => [m, fictitiousMatch m])),
          [] ++ [.knnMatch .bruteForce 2, .matchSingle .bruteForce]) :=
  ⟨rfl,
    (fallback_synthesizes_second_neighbour [⟨0, 0, 0, 2⟩, ⟨1, 3, 0, 4⟩]).2.2.2.2.1
      (fallbackCV [⟨0, 0, 0, 2⟩, ⟨1, 3, 0, 4⟩]) .bruteForce ⟨2, 32, true, []⟩ ⟨4, 32, true, []⟩ []
      rfl rfl⟩

/-! ## The strategy registry: theorems -/

/-- C13 fails on the code: for the detector names BRIEF and FREAK createDetector
returns nullptr, so that processCombination returns at line 115 with the zeroed result
and without a single call of the library; the branch of line 121 that takes the FAST
detector is never reached. -/
theorem descriptor_only_detector_returns_early (cv : OpenCV) (img1 img2 : Image)
    (descriptorName matcherName : String) (saveResult isSpecificCombination : Bool)
    (trace : List Event) :
    createDetector "BRIEF" = none ∧ createDetector "FREAK" = none ∧
      processCombination cv img1 img2 "BRIEF" descriptorName matcherName saveResult
          isSpecificCombination trace =
        ⟨.returnedAt 115, ⟨0, 0, 0, false⟩,
          trace ++ [.procesando "BRIEF" descriptorName matcherName] ++ [.now]⟩ ∧
      processCombination cv img1 img2 "FREAK" descriptorName matcherName saveResult
          isSpecificCombination trace =
        ⟨.returnedAt 115, ⟨0, 0, 0, false⟩,
          trace ++ [.procesando "FREAK" descriptorName matcherName] ++ [.now]⟩ := by
  have hb : createDetector "BRIEF" = none := by decide
  have hf : createDetector "FREAK" = none := by decide
  refine ⟨hb, hf, ?_, ?_⟩
  · unfold processCombination tryBlock
    rw [hb]
  · unfold processCombination tryBlock
    rw [hf]

/-- C14: createDetector returns an object exactly for SIFT, SURF, ORB, BRISK and FAST,
createDescriptor exactly for SIFT, SURF, ORB, BRISK, BRIEF and FREAK, createMatcher
exactly for BF and FLANN with either value of the flag; every other name gives the null
result. -/
theorem registry_is_closed (name : String) :
    ((createDetector name).isSome = true ↔ name ∈ ["SIFT", "SURF", "ORB", "BRISK", "FAST"]) ∧
      ((createDescriptor name).isSome = true ↔
        name ∈ ["SIFT", "SURF", "ORB", "BRISK", "BRIEF", "FREAK"]) ∧
      (∀ isBinary : Bool, (createMatcher name isBinary).isSome = true ↔
        name ∈ ["BF", "FLANN"]) ∧
      (name ∉ ["SIFT", "SURF", "ORB", "BRISK", "FAST"] → createDetector name = none) ∧
      (name ∉ ["SIFT", "SURF", "ORB", "BRISK", "BRIEF", "FREAK"] →
        createDescriptor name = none) ∧
      (name ∉ ["BF", "FLANN"] → ∀ isBinary : Bool, createMatcher name isBinary = none) := by
  have hdet : (createDetector name).isSome = true ↔
      name ∈ ["SIFT", "SURF", "ORB", "BRISK", "FAST"] := by
    unfold createDetector
    simp only [List.mem_cons, List.mem_singleton, List.not_mem_nil, or_false]
    by_cases h1 : name = "SIFT"
    · simp [h1]
    by_cases h2 : name = "SURF"
    · simp [h2]
    by_cases h3 : name = "ORB"
    · simp [h3]
    by_cases h4 : name = "BRISK"
    · simp [h4]
    by_cases h5 : name = "FAST"
    · simp [h5]
    simp [h1, h2, h3, h4, h5]
  have hdesc : (createDescriptor name).isSome = true ↔
      name ∈ ["SIFT", "SURF", "ORB", "BRISK", "BRIEF", "FREAK"] := by
    unfold createDescriptor
    simp only [List.mem_cons, List.mem_singleton, List.not_mem_nil, or_false]
    by_cases h1 : name = "SIFT"
    · simp [h1]
    by_cases h2 : name = "SURF"
    · simp [h2]
    by_cases h3 : name = "ORB"
    · simp [h3]
    by_cases h4 : name = "BRISK"
    · simp [h4]
    by_cases h5 : name = "BRIEF"
    · simp [h5]
    by_cases h6 : name = "FREAK"
    · simp [h6]
    simp [h1, h2, h3, h4, h5, h6]
  have hmat : ∀ isBinary : Bool, (createMatcher name isBinary).isSome = true ↔
      name ∈ ["BF", "FLANN"] := by
    intro isBinary
    unfold createMatcher
    simp only [List.mem_cons, List.mem_singleton, List.not_mem_nil, or_false]
    by_cases h1 : name = "BF"
    · cases isBinary <;> simp [h1]
    by_cases h2 : name = "FLANN"
    · cases isBinary <;> simp [h2]
    simp [h1, h2]
  refine ⟨hdet, hdesc, hmat, ?_, ?_, ?_⟩
  · intro h
    cases hc : createDetector name with
    | none => rfl
    | some d => exact absurd (hdet.1 (by rw [hc]; rfl)) h
  · intro h
    cases hc : createDescriptor name with
    | none => rfl
    | some d => exact absurd (hdesc.1 (by rw [hc]; rfl)) h
  · intro h isBinary
    cases hc : createMatcher name isBinary with
    | none => rfl
    | some d => exact absurd ((hmat isBinary).1 (by rw [hc]; rfl)) h

/-- The name HARRIS is outside the recognized detectors and resolves to the null
result. -/
theorem registry_is_closed_witness :
    "HARRIS" ∉ ["SIFT", "SURF", "ORB", "BRISK", "FAST"] ∧ createDetector "HARRIS" = none :=
  ⟨by decide, (registry_is_closed "HARRIS").2.2.2.1 (by decide)⟩

/-- C15: createMatcher takes the configuration from the flag: BF gives the Hamming
brute-force matcher for a binary descriptor and the Euclidean one otherwise, FLANN gives
the LSH index (6 tables, key size 12, multi-probe level 1, 50 checks) for a binary
descriptor and the default tree-based index otherwise; for a recognized matcher name the
two values of the flag give different matchers. -/
theorem matcher_follows_flag :
    createMatcher "BF" true = some .bruteForceHamming ∧
      createMatcher "BF" false = some .bruteForce ∧
      createMatcher "FLANN" true = some (.flannLsh 6 12 1 50) ∧
      createMatcher "FLANN" false = some .flannBased ∧
      ∀ name ∈ ["BF", "FLANN"], createMatcher name true ≠ createMatcher name false := by
  refine ⟨by decide, by decide, by decide, by decide, ?_⟩
  intro name h
  simp only [List.mem_cons, List.mem_singleton, List.not_mem_nil, or_false] at h
  rcases h with h | h <;> subst h <;> decide

/-! ## The measured time -/

/-- C16 fails on the code: in the sample library, where every event takes one
millisecond, the same combination is recorded with 15 ms when no result image is shown
and with 26 ms when it is shown: the events of the two runs agree up to the call of
findHomography, and the eleven display calls stand before the second clock reading
(line 289). -/
theorem display_time_is_measured :
    (processCombination (sampleCV eventClock sampleKnn (.ok [[1]])) sampleImage sampleImage
          "SIFT" "SIFT" "BF" false false []).result = ⟨4, 4, 15, true⟩ ∧
      (processCombination (sampleCV eventClock sampleKnn (.ok [[1]])) sampleImage sampleImage
          "SIFT" "SIFT" "BF" true false []).result = ⟨4, 4, 26, true⟩ ∧
      (processCombination (sampleCV eventClock sampleKnn (.ok [[1]])) sampleImage sampleImage
          "SIFT" "SIFT" "BF" true false []).trace =
        (processCombination (sampleCV eventClock sampleKnn (.ok [[1]])) sampleImage sampleImage
            "SIFT" "SIFT" "BF" false false []).trace.dropLast ++
          showCalls "SIFT" "SIFT" "BF" true false ++ [.now] ∧
      (processCombination (sampleCV eventClock sampleKnn (.ok [[1]])) sampleImage sampleImage
          "SIFT" "SIFT" "BF" false false []).trace.getLast? = some .now ∧
      (showCalls "SIFT" "SIFT" "BF" true false).length = 11 := by
  decide!

/-! ## The estimated matrix: theorems -/

theorem homographyStage_success (cv : OpenCV) (goodMatches : List DMatch)
    (keypoints1 keypoints2 : List KeyPoint) (result : MatchResult) (trace : List Event)
    (h0 : result.homographySuccess = false)
    (h1 : (homographyStage cv goodMatches keypoints1 keypoints2 result
      trace).2.1.homographySuccess = true) :
    ∃ tr obj scene h, 4 ≤ goodMatches.length ∧ 4 ≤ obj.length ∧
      cv.findHomography tr obj scene = .ok h ∧ Homography.empty h = false ∧
      homographyStage cv goodMatches keypoints1 keypoints2 result trace =
        (.ok h, { result with homographySuccess := true },
          tr ++ [.findHomography obj scene]) := by
  unfold homographyStage at h1 ⊢
  by_cases hl : goodMatches.length ≥ 4
  · rw [if_pos hl] at h1 ⊢
    rcases hcp : collectPoints keypoints1 keypoints2 goodMatches [] [] trace with
      ⟨_ | ⟨obj, scene⟩, tr⟩
    · rw [hcp] at h1
      simp only [] at h1
      rw [h0] at h1
      exact absurd h1 (by decide)
    · rw [hcp] at h1
      simp only [] at h1 ⊢
      by_cases hn : obj.length ≥ 4 ∧ scene.length ≥ 4
      · rw [if_pos hn] at h1 ⊢
        cases hf : cv.findHomography tr obj scene with
        | error e =>
          rw [hf] at h1
          simp only [] at h1
          rw [h0] at h1
          exact absurd h1 (by decide)
        | ok h =>
          rw [hf] at h1
          simp only [Bool.not_eq_true'] at h1
          refine ⟨tr, obj, scene, h, hl, hn.1, hf, h1, ?_⟩
          simp only [h1, Bool.not_false]
      · rw [if_neg hn] at h1
        rw [h0] at h1
        exact absurd h1 (by decide)
  · rw [if_neg hl] at h1
    rw [h0] at h1
    exact absurd h1 (by decide)

/-- C18, amended: when the homography stage turns homographySuccess from false to true,
there were at least four good matches and findHomography was called on at least four
point pairs and returned a matrix that is not empty; and a call of processCombination
that reports homographySuccess = true has called findHomography exactly once. -/
theorem success_means_nonempty_matrix (cv : OpenCV) :
    (∀ (goodMatches : List DMatch) (keypoints1 keypoints2 : List KeyPoint)
        (result : MatchResult) (trace : List Event), result.homographySuccess = false →
        (homographyStage cv goodMatches keypoints1 keypoints2 result
          trace).2.1.homographySuccess = true →
        ∃ tr obj scene h, 4 ≤ goodMatches.length ∧ 4 ≤ obj.length ∧
          cv.findHomography tr obj scene = .ok h ∧ Homography.empty h = false ∧
          homographyStage cv goodMatches keypoints1 keypoints2 result trace =
            (.ok h, { result with homographySuccess := true },
              tr ++ [.findHomography obj scene])) ∧
      (∀ (img1 img2 : Image) (detectorName descriptorName matcherName : String)
        (saveResult isSpecificCombination : Bool) (trace : List Event),
        (processCombination cv img1 img2 detectorName descriptorName matcherName saveResult
          isSpecificCombination trace).result.homographySuccess = true →
        estimatorCalls (processCombination cv img1 img2 detectorName descriptorName
          matcherName saveResult isSpecificCombination trace).trace =
          estimatorCalls trace + 1) := by
  refine ⟨fun gm k1 k2 r tr h0 h1 => homographyStage_success cv gm k1 k2 r tr h0 h1, ?_⟩
  intro img1 img2 d s m save spec trace hs
  rcases processCombination_cases cv img1 img2 d s m save spec trace with
    ⟨-, -, -, hh, -⟩ | ⟨-, knn, -, -, ⟨hh, -⟩ | ⟨hc, -⟩⟩
  · rw [hs] at hh
    exact absurd hh (by decide)
  · rw [hs] at hh
    exact absurd hh (by decide)
  · exact hc

/-- Four good matches in the sample library whose estimator returns a one-entry
matrix. -/
theorem success_means_nonempty_matrix_witness :
    (⟨4, 4, 0, false⟩ : MatchResult).homographySuccess = false ∧
      (homographyStage (sampleCV eventClock sampleKnn (.ok [[1]]))
        (sampleKnn.filterMap List.head?) sampleKeypoints sampleKeypoints ⟨4, 4, 0, false⟩
        []).2.1.homographySuccess = true ∧
      ∃ tr obj scene h, 4 ≤ (sampleKnn.filterMap List.head?).length ∧ 4 ≤ obj.length ∧
        (sampleCV eventClock sampleKnn (.ok [[1]])).findHomography tr obj scene = .ok h ∧
        Homography.empty h = false ∧
        homographyStage (sampleCV eventClock sampleKnn (.ok [[1]]))
            (sampleKnn.filterMap List.head?) sampleKeypoints sampleKeypoints ⟨4, 4, 0, false⟩
            [] =
          (.ok h, { (⟨4, 4, 0, false⟩ : MatchResult) with homographySuccess := true },
            tr ++ [.findHomography obj scene]) :=
  ⟨rfl, by decide!,
    (success_means_nonempty_matrix (sampleCV eventClock sampleKnn (.ok [[1]]))).1
      (sampleKnn.filterMap List.head?) sampleKeypoints sampleKeypoints ⟨4, 4, 0, false⟩ [] rfl
      (by decide!)⟩

/-- C18 as stated fails: when findHomography returns the 3x3 matrix of zeros for four
good matches, processCombination reports homographySuccess = true although the matrix
is not invertible. -/
theorem singular_matrix_counts_as_success :
    (homographyStage (sampleCV eventClock sampleKnn (.ok zeroMatrix))
        (sampleKnn.filterMap List.head?) sampleKeypoints sampleKeypoints ⟨4, 4, 0, false⟩
        []).1.value? = some zeroMatrix ∧
      (processCombination (sampleCV eventClock sampleKnn (.ok zeroMatrix)) sampleImage
        sampleImage "SIFT" "SIFT" "BF" true false []).result.homographySuccess = true ∧
      zeroMatrix.length = 3 ∧ zeroMatrix.det = 0 ∧ zeroMatrix.nonDegenerate = false := by
  decide!

/-! ## The ways in which the program ends -/

theorem reportResults_spec (cv : OpenCV) (env : Environment) (processAll : Bool)
    (results : Results) (trace : List Event) :
    (reportResults cv env processAll results trace).report =
        some ⟨results, bestMatch results, fastestMatch results⟩ ∧
      ((reportResults cv env processAll results trace).termination = .returned 0 ∨
        ∃ e, processAll = true ∧
          (reportResults cv env processAll results trace).termination =
            .aborted (.uncaught e)) := by
  unfold reportResults
  simp only []
  split
  · split
    · exact ⟨rfl, Or.inl rfl⟩
    · split
      next e tr heq => exact ⟨rfl, Or.inr ⟨e, rfl, rfl⟩⟩
      · exact ⟨rfl, Or.inl rfl⟩
  · exact ⟨rfl, Or.inl rfl⟩

theorem reportResults_single (cv : OpenCV) (env : Environment) (results : Results)
    (trace : List Event) :
    (reportResults cv env false results trace).termination = .returned 0 := by
  rcases (reportResults_spec cv env false results trace).2 with h | ⟨e, h, -⟩
  · exact h
  · exact absurd h (by decide)

theorem processCombination_unsupported (cv : OpenCV) (img1 img2 : Image)
    (detectorName descriptorName matcherName : String)
    (saveResult isSpecificCombination : Bool) (trace : List Event)
    (h : createDetector detectorName = none ∨ createDescriptor descriptorName = none) :
    processCombination cv img1 img2 detectorName descriptorName matcherName saveResult
        isSpecificCombination trace =
      ⟨.returnedAt 115, ⟨0, 0, 0, false⟩,
        trace ++ [.procesando detectorName descriptorName matcherName] ++ [.now]⟩ := by
  unfold processCombination tryBlock
  rcases h with h | h
  · rw [h]
  · rw [h]
    cases createDetector detectorName <;> rfl

theorem main_of_no_images (cv : OpenCV) (env : Environment)
    (h : loadImages env.imread = none) : main cv env = ⟨.returned (-1), none, []⟩ := by
  unfold main
  rw [h]

theorem main_of_invalid (cv : OpenCV) (env : Environment)
    (h : selectCombination env.args env.input = .invalid) :
    main cv env = ⟨.returned (-1), none, []⟩ := by
  unfold main
  rw [h]
  cases loadImages env.imread with
  | none => rfl
  | some imgs => rfl

theorem main_of_invalid_pair (cv : OpenCV) (env : Environment) (d s m : String)
    (h : selectCombination env.args env.input = .specific d s m)
    (hv : isCombinationValid d s = false) : main cv env = ⟨.returned (-1), none, []⟩ := by
  unfold main
  rw [h]
  cases loadImages env.imread with
  | none => rfl
  | some imgs => simp only [hv, Bool.not_false, if_true]

theorem main_of_all (cv : OpenCV) (env : Environment) (imgs : Image × Image)
    (hl : loadImages env.imread = some imgs)
    (h : selectCombination env.args env.input = .all) :
    (main cv env).termination ≠ .returned (-1) := by
  unfold main
  rw [hl, h]
  simp only []
  cases (runGrid cv (downscale env.resize imgs.1) (downscale env.resize imgs.2) []).aborted with
  | some a => simp
  | none =>
    simp only []
    rcases (reportResults_spec cv env true
        (runGrid cv (downscale env.resize imgs.1) (downscale env.resize imgs.2) []).results
        (runGrid cv (downscale env.resize imgs.1) (downscale env.resize imgs.2) []).trace).2 with
      h2 | ⟨e, -, h2⟩ <;> rw [h2] <;> simp

theorem main_of_valid_pair (cv : OpenCV) (env : Environment) (imgs : Image × Image)
    (d s m : String) (hl : loadImages env.imread = some imgs)
    (h : selectCombination env.args env.input = .specific d s m)
    (hv : isCombinationValid d s = true) :
    (main cv env).termination ≠ .returned (-1) := by
  unfold main
  rw [hl, h]
  simp only [hv, Bool.not_true, Bool.false_eq_true, if_false]
  split
  · simp
  · rw [reportResults_single]
    simp

theorem main_minus_one (cv : OpenCV) (env : Environment) :
    (main cv env).termination = .returned (-1) ↔
      loadImages env.imread = none ∨ selectCombination env.args env.input = .invalid ∨
        ∃ d s m, selectCombination env.args env.input = .specific d s m ∧
          isCombinationValid d s = false := by
  constructor
  · intro h
    cases hl : loadImages env.imread with
    | none => exact Or.inl rfl
    | some imgs =>
      right
      cases hs : selectCombination env.args env.input with
      | invalid => exact Or.inl rfl
      | all => exact absurd h (main_of_all cv env imgs hl hs)
      | specific d s m =>
        right
        cases hv : isCombinationValid d s with
        | false => exact ⟨d, s, m, rfl, hv⟩
        | true => exact absurd h (main_of_valid_pair cv env imgs d s m hl hs hv)
  · rintro (h | h | ⟨d, s, m, h, hv⟩)
    · rw [main_of_no_images cv env h]
    · rw [main_of_invalid cv env h]
    · rw [main_of_invalid_pair cv env d s m h hv]

theorem main_no_report (cv : OpenCV) (env : Environment)
    (h : (main cv env).termination = .returned (-1)) : (main cv env).report = none := by
  rcases (main_minus_one cv env).1 h with h | h | ⟨d, s, m, h, hv⟩
  · rw [main_of_no_images cv env h]
  · rw [main_of_invalid cv env h]
  · rw [main_of_invalid_pair cv env d s m h hv]

theorem main_of_unsupported (cv : OpenCV) (env : Environment) (imgs : Image × Image)
    (d s m : String) (hl : loadImages env.imread = some imgs)
    (h : selectCombination env.args env.input = .specific d s m)
    (hv : isCombinationValid d s = true)
    (hu : createDetector d = none ∨ createDescriptor s = none) :
    (main cv env).termination = .returned 0 ∧
      (main cv env).report =
        some ⟨[((d, s, m), ⟨0, 0, 0, false⟩)], some ((d, s, m), ⟨0, 0, 0, false⟩),
          some ((d, s, m), ⟨0, 0, 0, false⟩)⟩ := by
  unfold main
  rw [hl, h]
  simp only [hv, Bool.not_true, Bool.false_eq_true, if_false]
  rw [processCombination_unsupported cv _ _ d s m true true [] hu]
  simp only []
  exact ⟨reportResults_single _ _ _ _, (reportResults_spec _ _ _ _ _).1⟩

/-- C17, amended: a run ends with exit code -1 exactly when the images cannot be
loaded, or the option or an index read from the console is invalid, or the single
combination that was asked for fails isCombinationValid; in each of these cases no
results are reported.  A single combination with an unrecognized detector or descriptor
name is recorded with the zeroed result and reported, and the run ends with exit code
0. -/
theorem whole_run_ends (cv : OpenCV) (env : Environment) :
    ((main cv env).termination = .returned (-1) ↔
        loadImages env.imread = none ∨ selectCombination env.args env.input = .invalid ∨
          ∃ d s m, selectCombination env.args env.input = .specific d s m ∧
            isCombinationValid d s = false) ∧
      ((main cv env).termination = .returned (-1) → (main cv env).report = none) ∧
      (∀ (imgs : Image × Image) (d s m : String), loadImages env.imread = some imgs →
        selectCombination env.args env.input = .specific d s m →
        isCombinationValid d s = true →
        createDetector d = none ∨ createDescriptor s = none →
        (main cv env).termination = .returned 0 ∧
          (main cv env).report =
            some ⟨[((d, s, m), ⟨0, 0, 0, false⟩)], some ((d, s, m), ⟨0, 0, 0, false⟩),
              some ((d, s, m), ⟨0, 0, 0, false⟩)⟩) :=
  ⟨main_minus_one cv env, main_no_report cv env,
    fun imgs d s m hl h hv hu => main_of_unsupported cv env imgs d s m hl h hv hu⟩

/-- The unknown detector name HARRIS on the command line: the run reports the zeroed
combination and ends with exit code 0. -/
theorem whole_run_ends_witness :
    loadImages (sampleEnvironment ["HARRIS", "SIFT", "BF"] 0).imread =
        some (sampleImage, sampleImage) ∧
      createDetector "HARRIS" = none ∧
      (main (sampleCV frozenClock sampleKnn (.ok [[1]]))
        (sampleEnvironment ["HARRIS", "SIFT", "BF"] 0)).termination = .returned 0 :=
  ⟨by decide, by decide,
    ((whole_run_ends (sampleCV frozenClock sampleKnn (.ok [[1]]))
      (sampleEnvironment ["HARRIS", "SIFT", "BF"] 0)).2.2 (sampleImage, sampleImage)
      "HARRIS" "SIFT" "BF" (by decide) rfl (by decide) (Or.inl (by decide))).1⟩

/-- C17 as stated fails: with both images loaded, the detector name BRIEF on the
command line, or the option 3 typed at the menu, ends the whole run with exit code -1
and without results. -/
theorem invalid_pair_ends_whole_run :
    loadImages (sampleEnvironment ["BRIEF", "SIFT", "BF"] 0).imread =
        some (sampleImage, sampleImage) ∧
      (main (sampleCV frozenClock sampleKnn (.ok [[1]]))
        (sampleEnvironment ["BRIEF", "SIFT", "BF"] 0)).termination = .returned (-1) ∧
      (main (sampleCV frozenClock sampleKnn (.ok [[1]]))
        (sampleEnvironment ["BRIEF", "SIFT", "BF"] 0)).report = none ∧
      (main (sampleCV frozenClock sampleKnn (.ok [[1]]))
        (sampleEnvironment [] 3)).termination = .returned (-1) ∧
      (main (sampleCV frozenClock sampleKnn (.ok [[1]]))
        (sampleEnvironment [] 3)).report = none := by
  decide!

end CombinationTester

namespace Segmentacion

theorem arreglar_bordes_of_nonneg (rect : Rect) (cols rows : Int) (hx : 0 ≤ rect.x)
    (hy : 0 ≤ rect.y) :
    0 ≤ (arreglar_bordes rect cols rows).x ∧ 0 ≤ (arreglar_bordes rect cols rows).y ∧
      (arreglar_bordes rect cols rows).x + (arreglar_bordes rect cols rows).width ≤ cols ∧
      (arreglar_bordes rect cols rows).y + (arreglar_bordes rect cols rows).height ≤ rows := by
  unfold arreglar_bordes
  simp only []
  split <;> split <;> split <;> split <;> (try dsimp only at *) <;> omega

/-- C20 fails on the code: dragging from (48, 0) to (-5, 10) gives the rectangle
x = -5, width = 53; in an image of 50 columns the width passes the first test
(53 > 50 - (-5) is false), then x is set to 0, and the rectangle ends at column 53,
outside the image. -/
theorem rectangle_leaves_image :
    rectOfPoints ⟨48, 0⟩ ⟨-5, 10⟩ = ⟨-5, 0, 53, 10⟩ ∧
      arreglar_bordes ⟨-5, 0, 53, 10⟩ 50 50 = ⟨0, 0, 53, 10⟩ ∧
      ¬ ((arreglar_bordes ⟨-5, 0, 53, 10⟩ 50 50).x +
        (arreglar_bordes ⟨-5, 0, 53, 10⟩ 50 50).width ≤ 50) := by
  decide

end Segmentacion

namespace Monedas

theorem classifyLoop_spec (diameter_mm : ℚ) (coins : List CoinInfo) (best_value : Int)
    (m : ℚ) :
    (classifyLoop diameter_mm coins best_value (some m) = best_value ∧
        ∀ c ∈ coins, m ≤ |diameter_mm - c.diameter_mm|) ∨
      ∃ before coin after, coins = before ++ coin :: after ∧
        classifyLoop diameter_mm coins best_value (some m) = coin.value ∧
        |diameter_mm - coin.diameter_mm| < m ∧
        (∀ c ∈ before, |diameter_mm - coin.diameter_mm| < |diameter_mm - c.diameter_mm|) ∧
        (∀ c ∈ after, |diameter_mm - coin.diameter_mm| ≤ |diameter_mm - c.diameter_mm|) := by
  induction coins generalizing best_value m with
  | nil => exact Or.inl ⟨rfl, by simp⟩
  | cons x rest ih =>
    rw [classifyLoop]
    by_cases hlt : |diameter_mm - x.diameter_mm| < m
    · have hb : belowMin |diameter_mm - x.diameter_mm| (some m) = true := by
        simp [belowMin, hlt]
      rw [if_pos hb]
      right
      rcases ih x.value |diameter_mm - x.diameter_mm| with ⟨hv, hall⟩ | ⟨before, coin, after, heq, hv, hlt2, hb2, ha2⟩
      · exact ⟨[], x, rest, rfl, hv, hlt, by simp, hall⟩
      · refine ⟨x :: before, coin, after, by rw [heq]; rfl, hv, lt_trans hlt2 hlt, ?_, ha2⟩
        intro c hc
        rcases List.mem_cons.1 hc with rfl | hc
        · exact hlt2
        · exact hb2 c hc
    · have hb : belowMin |diameter_mm - x.diameter_mm| (some m) = false := by
        simp [belowMin, hlt]
      rw [hb]
      simp only [Bool.false_eq_true, if_false]
      rcases ih best_value m with ⟨hv, hall⟩ | ⟨before, coin, after, heq, hv, hlt2, hb2, ha2⟩
      · left
        refine ⟨hv, ?_⟩
        intro c hc
        rcases List.mem_cons.1 hc with rfl | hc
        · exact not_lt.1 hlt
        · exact hall c hc
      · right
        refine ⟨x :: before, coin, after, by rw [heq]; rfl, hv, hlt2, ?_, ha2⟩
        intro c hc
        rcases List.mem_cons.1 hc with rfl | hc
        · exact lt_of_lt_of_le hlt2 (not_lt.1 hlt)
        · exact hb2 c hc

/-- C21: for the empty list classifyCoin returns 0; for a non-empty list it returns the
value of the coin type that stands first among those whose diameter is nearest to
diameter_mm: every type before it is strictly farther, every type after it is at least
as far. -/
theorem classifyCoin_nearest (diameter_mm : ℚ) :
    classifyCoin diameter_mm [] = 0 ∧
      ∀ coins : List CoinInfo, coins ≠ [] →
        ∃ before coin after, coins = before ++ coin :: after ∧
          classifyCoin diameter_mm coins = coin.value ∧
          (∀ c ∈ before, |diameter_mm - coin.diameter_mm| < |diameter_mm - c.diameter_mm|) ∧
          (∀ c ∈ after, |diameter_mm - coin.diameter_mm| ≤ |diameter_mm - c.diameter_mm|) ∧
          (∀ c ∈ coins, |diameter_mm - coin.diameter_mm| ≤ |diameter_mm - c.diameter_mm|) := by
  refine ⟨rfl, ?_⟩
  intro coins hne
  have key : ∃ before coin after, coins = before ++ coin :: after ∧
      classifyCoin diameter_mm coins = coin.value ∧
      (∀ c ∈ before, |diameter_mm - coin.diameter_mm| < |diameter_mm - c.diameter_mm|) ∧
      (∀ c ∈ after, |diameter_mm - coin.diameter_mm| ≤ |diameter_mm - c.diameter_mm|) := by
    cases coins with
    | nil => exact absurd rfl hne
    | cons x rest =>
      unfold classifyCoin
      rw [classifyLoop]
      simp only [belowMin, if_true]
      rcases classifyLoop_spec diameter_mm rest x.value |diameter_mm - x.diameter_mm| with
        ⟨hv, hall⟩ | ⟨before, coin, after, heq, hv, hlt, hb, ha⟩
      · exact ⟨[], x, rest, rfl, hv, by simp, hall⟩
      · refine ⟨x :: before, coin, after, by rw [heq]; rfl, hv, ?_, ha⟩
        intro c hc
        rcases List.mem_cons.1 hc with rfl | hc
        · exact hlt
        · exact hb c hc
  obtain ⟨before, coin, after, heq, hv, hb, ha⟩ := key
  refine ⟨before, coin, after, heq, hv, hb, ha, ?_⟩
  intro c hc
  rw [heq] at hc
  rcases List.mem_append.1 hc with hc | hc
  · exact le_of_lt (hb c hc)
  · rcases List.mem_cons.1 hc with rfl | hc
    · exact le_refl _
    · exact ha c hc

/-- A diameter of 22.25 mm lies midway between the 2 and the 5 crown coins: the earlier
type is returned. -/
theorem classifyCoin_nearest_witness :
    coin_types ≠ [] ∧ classifyCoin (2225 / 100) coin_types = 2 ∧
      ∃ before coin after, coin_types = before ++ coin :: after ∧
        classifyCoin (2225 / 100) coin_types = coin.value ∧
        (∀ c ∈ before, |(2225 / 100 : ℚ) - coin.diameter_mm| < |2225 / 100 - c.diameter_mm|) ∧
        (∀ c ∈ after, |(2225 / 100 : ℚ) - coin.diameter_mm| ≤ |2225 / 100 - c.diameter_mm|) ∧
        (∀ c ∈ coin_types,
          |(2225 / 100 : ℚ) - coin.diameter_mm| ≤ |2225 / 100 - c.diameter_mm|) :=
  ⟨by decide, by decide!, (classifyCoin_nearest (2225 / 100)).2 coin_types (by decide)⟩

end Monedas

namespace CombinationTester

/-! ## The ratio test on the fallback path and under the two thresholds -/

theorem fictitious_passes_iff (isBinary : Bool) (m : DMatch) :
    passesRatioTest (RATIO_THRESHOLD isBinary) [m, fictitiousMatch m] = true ↔
      0 < m.distance := by
  rw [passesRatioTest_two, decide_eq_true_iff]
  cases isBinary
  · simp only [RATIO_THRESHOLD, fictitiousMatch, Bool.false_eq_true, if_false]
    constructor <;> intro h <;> linarith
  · simp only [RATIO_THRESHOLD, fictitiousMatch, if_true]
    constructor <;> intro h <;> linarith

theorem goodMatchesSpec_fallback (isBinary : Bool) (regularMatches : List DMatch) :
    goodMatchesSpec (RATIO_THRESHOLD isBinary)
        (regularMatches.map (fun m => [m, fictitiousMatch m])) =
      regularMatches.filter (fun m => decide (0 < m.distance)) := by
  induction regularMatches with
  | nil => rfl
  | cons m rest ih =>
    rw [List.map_cons, goodMatchesSpec_cons, ih, List.filter_cons]
    by_cases h : 0 < m.distance
    · rw [(fictitious_passes_iff isBinary m).2 h]
      simp [h]
    · have hp : passesRatioTest (RATIO_THRESHOLD isBinary) [m, fictitiousMatch m] = false := by
        cases hc : passesRatioTest (RATIO_THRESHOLD isBinary) [m, fictitiousMatch m] with
        | false => rfl
        | true => exact absurd ((fictitious_passes_iff isBinary m).1 hc) h
      rw [hp]
      simp [h]

/-- C22: on the fallback path, for both thresholds an entry [m, f] built from a single
match passes the ratio test exactly when the distance of m is strictly positive; the
good matches are the single matches of positive distance, numGoodMatches is their
number, and a match of distance 0 is rejected. -/
theorem fallback_accepts_positive (isBinary : Bool) (regularMatches : List DMatch) :
    (∀ m : DMatch, passesRatioTest (RATIO_THRESHOLD isBinary) [m, fictitiousMatch m] = true ↔
        0 < m.distance) ∧
      filterGoodMatches (RATIO_THRESHOLD isBinary) (fallbackKnn [] regularMatches) =
        regularMatches.filter (fun m => decide (0 < m.distance)) ∧
      (∀ m : DMatch, m.distance = 0 →
        filterGoodMatches (RATIO_THRESHOLD isBinary) (fallbackKnn [] [m]) = []) ∧
      (∀ (cv : OpenCV) (detectorName descriptorName matcherName : String)
        (saveResult isSpecificCombination : Bool) (keypoints1 keypoints2 : List KeyPoint)
        (result : MatchResult) (trace : List Event), regularMatches.length < 2147483648 →
        (afterMatching cv detectorName descriptorName matcherName saveResult
          isSpecificCombination isBinary keypoints1 keypoints2
          (fallbackKnn [] regularMatches) result trace).result.numGoodMatches =
          (regularMatches.filter (fun m => decide (0 < m.distance))).length) := by
  have hfilter : ∀ l : List DMatch,
      filterGoodMatches (RATIO_THRESHOLD isBinary) (fallbackKnn [] l) =
        l.filter (fun m => decide (0 < m.distance)) := by
    intro l
    rw [filterGoodMatches_eq, fallbackKnn_nil, goodMatchesSpec_fallback]
  refine ⟨fictitious_passes_iff isBinary, hfilter regularMatches, ?_, ?_⟩
  · intro m hm
    rw [hfilter, List.filter_cons, hm]
    simp
  · intro cv detectorName descriptorName matcherName saveResult isSpecificCombination
      keypoints1 keypoints2 result trace hn
    rw [(afterMatching_counts cv detectorName descriptorName matcherName saveResult
      isSpecificCombination isBinary keypoints1 keypoints2 _ result trace).2, hfilter]
    apply intOfSize_eq
    exact lt_of_le_of_lt (List.length_filter_le _ _) hn

/-- Of an exact match and a match at distance 3, only the second is a good match. -/
theorem fallback_accepts_positive_witness :
    (DMatch.mk 0 0 0 0).distance = 0 ∧
      filterGoodMatches (RATIO_THRESHOLD true) (fallbackKnn [] [DMatch.mk 0 0 0 0]) = [] ∧
      filterGoodMatches (RATIO_THRESHOLD false)
          (fallbackKnn [] [DMatch.mk 0 0 0 0, DMatch.mk 1 1 0 3]) =
        [DMatch.mk 0 0 0 0, DMatch.mk 1 1 0 3].filter (fun m => decide (0 < m.distance)) :=
  ⟨rfl, (fallback_accepts_positive true []).2.2.1 (DMatch.mk 0 0 0 0) rfl,
    (fallback_accepts_positive false [DMatch.mk 0 0 0 0, DMatch.mk 1 1 0 3]).2.1⟩

theorem passesRatioTest_mono (entry : List DMatch) (h : ∀ m ∈ entry, 0 ≤ m.distance)
    (hp : passesRatioTest (RATIO_THRESHOLD false) entry = true) :
    passesRatioTest (RATIO_THRESHOLD true) entry = true := by
  match entry, h, hp with
  | [], _, hp => simp [passesRatioTest] at hp
  | [_], _, hp => simp [passesRatioTest] at hp
  | d0 :: d1 :: tail, h, hp =>
    rw [passesRatioTest_two, decide_eq_true_iff] at hp ⊢
    have h1 : 0 ≤ d1.distance := h d1 (by simp)
    simp only [RATIO_THRESHOLD, Bool.false_eq_true, if_false] at hp
    simp only [RATIO_THRESHOLD, if_true]
    linarith

theorem filter_sublist_of_imp {α : Type} (p q : α → Bool) (l : List α)
    (h : ∀ x ∈ l, p x = true → q x = true) : (l.filter p).Sublist (l.filter q) := by
  induction l with
  | nil => exact List.Sublist.slnil
  | cons x rest ih =>
    have ih := ih (fun y hy => h y (List.mem_cons_of_mem _ hy))
    rw [List.filter_cons, List.filter_cons]
    by_cases hp : p x = true
    · rw [if_pos hp, if_pos (h x (List.mem_cons_self _ _) hp)]
      exact ih.cons₂ x
    · rw [if_neg hp]
      by_cases hq : q x = true
      · rw [if_pos hq]
        exact ih.cons x
      · rw [if_neg hq]
        exact ih

/-- C23: on neighbour lists without negative distances, an entry that passes the ratio
test with the threshold 0.75 passes it with 0.80, and the good matches under 0.75 are a
sublist of the good matches under 0.80. -/
theorem ratio_filter_monotone (knnMatches : List (List DMatch))
    (h : ∀ entry ∈ knnMatches, ∀ m ∈ entry, 0 ≤ m.distance) :
    RATIO_THRESHOLD false = 75 / 100 ∧ RATIO_THRESHOLD true = 80 / 100 ∧
      (∀ entry ∈ knnMatches, passesRatioTest (RATIO_THRESHOLD false) entry = true →
        passesRatioTest (RATIO_THRESHOLD true) entry = true) ∧
      (filterGoodMatches (RATIO_THRESHOLD false) knnMatches).Sublist
        (filterGoodMatches (RATIO_THRESHOLD true) knnMatches) := by
  have hmono : ∀ entry ∈ knnMatches, passesRatioTest (RATIO_THRESHOLD false) entry = true →
      passesRatioTest (RATIO_THRESHOLD true) entry = true :=
    fun entry he hp => passesRatioTest_mono entry (h entry he) hp
  refine ⟨by norm_num [RATIO_THRESHOLD], by norm_num [RATIO_THRESHOLD], hmono, ?_⟩
  rw [filterGoodMatches_eq, filterGoodMatches_eq]
  unfold goodMatchesSpec
  exact List.Sublist.filterMap _ (filter_sublist_of_imp _ _ _ hmono)

/-- An entry with distances 0.78 and 1 passes under 0.80 only; one with 0.5 and 1 passes
under both. -/
theorem ratio_filter_monotone_witness :
    (∀ entry ∈ [[DMatch.mk 0 0 0 (78 / 100), DMatch.mk 0 1 0 1],
          [DMatch.mk 1 1 0 (1 / 2), DMatch.mk 1 2 0 1]], ∀ m ∈ entry, 0 ≤ m.distance) ∧
      (filterGoodMatches (RATIO_THRESHOLD false)
          [[DMatch.mk 0 0 0 (78 / 100), DMatch.mk 0 1 0 1],
            [DMatch.mk 1 1 0 (1 / 2), DMatch.mk 1 2 0 1]]).Sublist
        (filterGoodMatches (RATIO_THRESHOLD true)
          [[DMatch.mk 0 0 0 (78 / 100), DMatch.mk 0 1 0 1],
            [DMatch.mk 1 1 0 (1 / 2), DMatch.mk 1 2 0 1]]) :=
  ⟨by decide!, (ratio_filter_monotone _ (by decide!)).2.2.2⟩

/-! ## The counts of a result -/

theorem matchDescriptors_length (cv : OpenCV) (hcv : cv.sizesFitInt)
    (matcher : DescriptorMatcher) (descriptors1 descriptors2 : Descriptors)
    (trace : List Event) (knnMatches : List (List DMatch)) (tr : List Event)
    (h : matchDescriptors cv matcher descriptors1 descriptors2 trace = (.ok knnMatches, tr)) :
    knnMatches.length < 2147483648 := by
  have hk := hcv.1 trace matcher descriptors1 descriptors2 2
  unfold matchDescriptors at h
  split at h
  next knn hq =>
    rw [hq] at hk
    simp only [Prod.mk.injEq, Except.ok.injEq] at h
    rw [← h.1]
    exact hk
  next knn hq =>
    split at h
    · simp at h
    next regular hr =>
      simp only [Prod.mk.injEq, Except.ok.injEq] at h
      rw [← h.1, fallbackKnn_length]
      exact hcv.2 _ _ _ _ regular hr
  · simp at h

theorem filterGoodMatches_length_le (t : ℚ) (knnMatches : List (List DMatch)) :
    (filterGoodMatches t knnMatches).length ≤ knnMatches.length := by
  rw [filterGoodMatches_eq]
  exact le_trans (goodMatchesSpec_sublist t knnMatches).length_le (List.length_filterMap_le _ _)

theorem afterMatching_bounds (cv : OpenCV) (detectorName descriptorName matcherName : String)
    (saveResult isSpecificCombination : Bool) (isBinary : Bool)
    (keypoints1 keypoints2 : List KeyPoint) (knnMatches : List (List DMatch))
    (trace : List Event) (hlen : knnMatches.length < 2147483648) :
    0 ≤ (afterMatching cv detectorName descriptorName matcherName saveResult
        isSpecificCombination isBinary keypoints1 keypoints2 knnMatches ⟨0, 0, 0, false⟩
        trace).result.numGoodMatches ∧
      (afterMatching cv detectorName descriptorName matcherName saveResult
        isSpecificCombination isBinary keypoints1 keypoints2 knnMatches ⟨0, 0, 0, false⟩
        trace).result.numGoodMatches ≤
        (afterMatching cv detectorName descriptorName matcherName saveResult
          isSpecificCombination isBinary keypoints1 keypoints2 knnMatches ⟨0, 0, 0, false⟩
          trace).result.numMatches ∧
      ((afterMatching cv detectorName descriptorName matcherName saveResult
          isSpecificCombination isBinary keypoints1 keypoints2 knnMatches ⟨0, 0, 0, false⟩
          trace).result.homographySuccess = true →
        4 ≤ (afterMatching cv detectorName descriptorName matcherName saveResult
          isSpecificCombination isBinary keypoints1 keypoints2 knnMatches ⟨0, 0, 0, false⟩
          trace).result.numGoodMatches) := by
  have hle := filterGoodMatches_length_le (RATIO_THRESHOLD isBinary) knnMatches
  obtain ⟨hn, hg⟩ := afterMatching_counts cv detectorName descriptorName matcherName
    saveResult isSpecificCombination isBinary keypoints1 keypoints2 knnMatches
    ⟨0, 0, 0, false⟩ trace
  rw [hn, hg, intOfSize_eq _ hlen, intOfSize_eq _ (lt_of_le_of_lt hle hlen)]
  refine ⟨by omega, by omega, ?_⟩
  intro hs
  rcases (afterMatching_cases cv detectorName descriptorName matcherName saveResult
      isSpecificCombination isBinary keypoints1 keypoints2 knnMatches ⟨0, 0, 0, false⟩
      trace).2 with ⟨hr, -⟩ | ⟨hr, -⟩ | ⟨h, -, -, h4, -⟩
  · rw [hr] at hs
    simp at hs
  · rw [hr] at hs
    simp at hs
  · omega

/-- C24: when the lists of matches returned by the library have fewer than 2^31
entries, every result of processCombination satisfies 0 <= numGoodMatches <=
numMatches, and homographySuccess = true implies numGoodMatches >= 4. -/
theorem result_counts_are_ordered (cv : OpenCV) (hcv : cv.sizesFitInt) (img1 img2 : Image)
    (detectorName descriptorName matcherName : String)
    (saveResult isSpecificCombination : Bool) (trace : List Event) :
    0 ≤ (processCombination cv img1 img2 detectorName descriptorName matcherName saveResult
        isSpecificCombination trace).result.numGoodMatches ∧
      (processCombination cv img1 img2 detectorName descriptorName matcherName saveResult
        isSpecificCombination trace).result.numGoodMatches ≤
        (processCombination cv img1 img2 detectorName descriptorName matcherName saveResult
          isSpecificCombination trace).result.numMatches ∧
      ((processCombination cv img1 img2 detectorName descriptorName matcherName saveResult
          isSpecificCombination trace).result.homographySuccess = true →
        4 ≤ (processCombination cv img1 img2 detectorName descriptorName matcherName
          saveResult isSpecificCombination trace).result.numGoodMatches) := by
  obtain ⟨-, hn, hg, hh, -⟩ := processCombination_fields cv img1 img2 detectorName
    descriptorName matcherName saveResult isSpecificCombination trace
  rw [hn, hg, hh]
  rcases tryBlock_cases cv img1 img2 detectorName descriptorName matcherName saveResult
      isSpecificCombination ⟨0, 0, 0, false⟩
      (trace ++ [.procesando detectorName descriptorName matcherName] ++ [.now]) with
    ⟨-, hr, -⟩ | ⟨k1, k2, knn, tr, -, ⟨matcher, d1, d2, tr0, hmat⟩, hrun⟩
  · rw [hr]
    exact ⟨le_refl _, le_refl _, fun h => absurd h (by decide)⟩
  · rw [hrun]
    exact afterMatching_bounds cv detectorName descriptorName matcherName saveResult
      isSpecificCombination _ k1 k2 knn tr
      (matchDescriptors_length cv hcv matcher d1 d2 tr0 knn tr hmat)

theorem sampleCV_sizesFitInt (clock : List Event → Int)
    (estimate : Except Thrown Homography) :
    (sampleCV clock sampleKnn estimate).sizesFitInt := by
  constructor
  · intro hist matcher d1 d2 k
    show sampleKnn.length < 2147483648
    decide
  · intro hist matcher d1 d2 regular hr
    have : regular = [] := by
      simp only [sampleCV, Except.ok.injEq] at hr
      exact hr.symm
    rw [this]
    decide

/-- In the sample library a run with four good matches out of four reports success. -/
theorem result_counts_are_ordered_witness :
    (sampleCV eventClock sampleKnn (.ok [[1]])).sizesFitInt ∧
      (processCombination (sampleCV eventClock sampleKnn (.ok [[1]])) sampleImage sampleImage
        "SIFT" "SIFT" "BF" true false []).result.homographySuccess = true ∧
      4 ≤ (processCombination (sampleCV eventClock sampleKnn (.ok [[1]])) sampleImage
        sampleImage "SIFT" "SIFT" "BF" true false []).result.numGoodMatches :=
  ⟨sampleCV_sizesFitInt _ _, by decide!,
    (result_counts_are_ordered (sampleCV eventClock sampleKnn (.ok [[1]]))
      (sampleCV_sizesFitInt _ _) sampleImage sampleImage "SIFT" "SIFT" "BF" true false []).2.2
      (by decide!)⟩

/-! ## Early returns and the measured time -/

theorem processCombination_returnedAt (cv : OpenCV) (img1 img2 : Image)
    (detectorName descriptorName matcherName : String)
    (saveResult isSpecificCombination : Bool) (trace : List Event) (line : Nat)
    (h : (processCombination cv img1 img2 detectorName descriptorName matcherName saveResult
      isSpecificCombination trace).exit = .returnedAt line) :
    (processCombination cv img1 img2 detectorName descriptorName matcherName saveResult
      isSpecificCombination trace).result = ⟨0, 0, 0, false⟩ := by
  have he := (processCombination_fields cv img1 img2 detectorName descriptorName matcherName
    saveResult isSpecificCombination trace).1
  rw [h] at he
  have hres : (tryBlock cv img1 img2 detectorName descriptorName matcherName saveResult
      isSpecificCombination ⟨0, 0, 0, false⟩
      (trace ++ [.procesando detectorName descriptorName matcherName] ++ [.now])).result =
      ⟨0, 0, 0, false⟩ := by
    rcases tryBlock_cases cv img1 img2 detectorName descriptorName matcherName saveResult
        isSpecificCombination ⟨0, 0, 0, false⟩
        (trace ++ [.procesando detectorName descriptorName matcherName] ++ [.now]) with
      ⟨-, hr, -⟩ | ⟨k1, k2, knn, tr, -, -, hrun⟩
    · exact hr
    · rw [hrun] at he
      have hb := congrArg Exit.beforeCounts he
      rw [afterMatching_beforeCounts] at hb
      simp [Exit.beforeCounts] at hb
  unfold processCombination
  simp only []
  split
  · exact hres
  · exact hres
  next h1 h2 =>
    exact absurd he.symm (h1 line)

theorem combinationBody_returnedAt (cv : OpenCV) (img_object img_scene : Image)
    (detector descriptor matcher : String) (st : GridState) (line : Nat)
    (hskip : (matcher == "FLANN" && isBinaryDescriptor descriptor) = false)
    (h : (processCombination cv img_object img_scene detector descriptor matcher true false
      st.trace).exit = .returnedAt line) :
    (combinationBody cv img_object img_scene detector descriptor matcher st).results =
      mapAssign st.results (detector, descriptor, matcher) ⟨0, 0, 0, false⟩ := by
  have hres := processCombination_returnedAt cv img_object img_scene detector descriptor
    matcher true false st.trace line h
  unfold combinationBody
  simp only [hskip, Bool.false_eq_true, if_false]
  rw [h, hres]
  simp only []
  split
  · rfl
  · split
    · rfl
    · rfl

theorem fastestMatch_zero (results : Results)
    (hz : ∃ r ∈ results, r.2.processingTime = 0)
    (hn : ∀ r ∈ results, 0 ≤ r.2.processingTime) :
    ∃ f, fastestMatch results = some f ∧ f ∈ results ∧ f.2.processingTime = 0 := by
  obtain ⟨r, hr, hr0⟩ := hz
  have hsome : ∃ f, fastestMatch results = some f := by
    cases results with
    | nil => simp at hr
    | cons first rest => exact ⟨_, rfl⟩
  obtain ⟨f, hf⟩ := hsome
  obtain ⟨before, after, heq, hb, ha⟩ := fastestMatch_first results f hf
  have hfm : f ∈ results := by
    rw [heq]
    simp
  refine ⟨f, hf, hfm, ?_⟩
  have hf0 := hn f hfm
  rw [heq] at hr
  rcases List.mem_append.1 hr with hin | hin
  · have := hb r hin
    omega
  · rcases List.mem_cons.1 hin with hin | hin
    · rw [← hin]
      exact hr0
    · have := ha r hin
      omega

/-- C25: a call of processCombination that leaves its try block by one of the return
statements (line 115 for an unsupported detector or descriptor, line 150 for an empty
descriptor matrix, line 172 for an unsupported matcher) returns a result whose
processingTime is 0, and the traversal records that result under the key of the
combination; a results mapping that holds an entry with processingTime 0 and no
negative time has a fastest combination, and its processingTime is 0. -/
theorem early_return_has_zero_time (cv : OpenCV) (img1 img2 : Image)
    (detectorName descriptorName matcherName : String)
    (saveResult isSpecificCombination : Bool) (trace : List Event) (st : GridState)
    (results : Results) :
    ((createDetector detectorName = none ∨ createDescriptor descriptorName = none) →
      (processCombination cv img1 img2 detectorName descriptorName matcherName saveResult
        isSpecificCombination trace).exit = .returnedAt 115) ∧
    (∀ line, (processCombination cv img1 img2 detectorName descriptorName matcherName
        saveResult isSpecificCombination trace).exit = .returnedAt line →
      (processCombination cv img1 img2 detectorName descriptorName matcherName saveResult
        isSpecificCombination trace).result.processingTime = 0 ∧
      ((line = 115 ∧
          (createDetector detectorName = none ∨ createDescriptor descriptorName = none)) ∨
        line = 150 ∨
        (line = 172 ∧
          createMatcher matcherName (isBinaryDescriptor descriptorName) = none))) ∧
    (∀ line, (matcherName == "FLANN" && isBinaryDescriptor descriptorName) = false →
      (processCombination cv img1 img2 detectorName descriptorName matcherName true false
        st.trace).exit = .returnedAt line →
      (combinationBody cv img1 img2 detectorName descriptorName matcherName st).results =
          mapAssign st.results (detectorName, descriptorName, matcherName)
            (processCombination cv img1 img2 detectorName descriptorName matcherName true
              false st.trace).result ∧
        (processCombination cv img1 img2 detectorName descriptorName matcherName true
          false st.trace).result.processingTime = 0) ∧
    ((∃ r ∈ results, r.2.processingTime = 0) → (∀ r ∈ results, 0 ≤ r.2.processingTime) →
      ∃ f, fastestMatch results = some f ∧ f ∈ results ∧ f.2.processingTime = 0) := by
  refine ⟨?_, ?_, ?_, fastestMatch_zero results⟩
  · intro h
    rw [processCombination_unsupported cv img1 img2 detectorName descriptorName matcherName
      saveResult isSpecificCombination trace h]
  · intro line h
    refine ⟨?_, ?_⟩
    · rw [processCombination_returnedAt cv img1 img2 detectorName descriptorName matcherName
        saveResult isSpecificCombination trace line h]
    · rw [(processCombination_fields cv img1 img2 detectorName descriptorName matcherName
        saveResult isSpecificCombination trace).1] at h
      exact tryBlock_returnedAt cv img1 img2 detectorName descriptorName matcherName
        saveResult isSpecificCombination _ _ line h
  · intro line hskip h
    have hres := processCombination_returnedAt cv img1 img2 detectorName descriptorName
      matcherName true false st.trace line h
    refine ⟨?_, ?_⟩
    · rw [combinationBody_returnedAt cv img1 img2 detectorName descriptorName matcherName st
        line hskip h, hres]
    · rw [hres]

/-- With no keypoint found the call returns at line 150 with processingTime 0 although
the clock has advanced, and the early entry of the sample mapping is its fastest. -/
theorem early_return_has_zero_time_witness :
    (processCombination featurelessCV sampleImage sampleImage "SIFT" "SIFT" "BF" true false
        []).exit = .returnedAt 150 ∧
      (processCombination featurelessCV sampleImage sampleImage "SIFT" "SIFT" "BF" true false
        []).result.processingTime = 0 ∧
      ∃ f, fastestMatch sampleResults = some f ∧ f ∈ sampleResults ∧
        f.2.processingTime = 0 :=
  ⟨by decide!,
    ((early_return_has_zero_time featurelessCV sampleImage sampleImage "SIFT" "SIFT" "BF" true
      false [] ⟨[], [], none⟩ sampleResults).2.1 150 (by decide!)).1,
    (early_return_has_zero_time featurelessCV sampleImage sampleImage "SIFT" "SIFT" "BF" true
      false [] ⟨[], [], none⟩ sampleResults).2.2.2
      ⟨(("SIFT", "SIFT", "BF"), ⟨0, 0, 0, false⟩), by decide, rfl⟩ (by decide)⟩

/-! ## The downscale factor -/

theorem scaleOf_eq (img : Image) :
    scaleOf img = min (800 / (img.cols : ℚ)) (800 / (img.rows : ℚ)) := by
  unfold scaleOf
  norm_num [MAX_SIZE]

/-- C26: for an image with positive dimensions of which one exceeds 800, the factor
s = min(800/cols, 800/rows), in exact rationals, satisfies 0 < s < 1, s*cols <= 800 and
s*rows <= 800, maps the larger dimension to exactly 800, and is the one factor that the
call of resize receives for both axes; an image with cols <= 800 and rows <= 800 is left
as it is. -/
theorem downscale_fits (resize : Image → ℚ → Image) (img : Image) :
    (0 < img.cols → 0 < img.rows → (img.cols > 800 ∨ img.rows > 800) →
      0 < scaleOf img ∧ scaleOf img < 1 ∧
        scaleOf img * img.cols ≤ 800 ∧ scaleOf img * img.rows ≤ 800 ∧
        scaleOf img * (max img.cols img.rows : ℕ) = 800 ∧
        downscale resize img = resize img (scaleOf img)) ∧
      (img.cols ≤ 800 → img.rows ≤ 800 → downscale resize img = img) := by
  constructor
  · intro hc hr hbig
    have hcq : (0 : ℚ) < img.cols := by exact_mod_cast hc
    have hrq : (0 : ℚ) < img.rows := by exact_mod_cast hr
    have h1 : scaleOf img * img.cols ≤ 800 := by
      rw [scaleOf_eq]
      calc min (800 / (img.cols : ℚ)) (800 / (img.rows : ℚ)) * img.cols
          ≤ 800 / (img.cols : ℚ) * img.cols :=
            mul_le_mul_of_nonneg_right (min_le_left _ _) hcq.le
        _ = 800 := div_mul_cancel₀ _ hcq.ne.symm
    have h2 : scaleOf img * img.rows ≤ 800 := by
      rw [scaleOf_eq]
      calc min (800 / (img.cols : ℚ)) (800 / (img.rows : ℚ)) * img.rows
          ≤ 800 / (img.rows : ℚ) * img.rows :=
            mul_le_mul_of_nonneg_right (min_le_right _ _) hrq.le
        _ = 800 := div_mul_cancel₀ _ hrq.ne.symm
    have hpos : 0 < scaleOf img := by
      rw [scaleOf_eq]
      exact lt_min (div_pos (by norm_num) hcq) (div_pos (by norm_num) hrq)
    refine ⟨hpos, ?_, h1, h2, ?_, ?_⟩
    · rcases hbig with hbig | hbig
      · have hb : (800 : ℚ) < img.cols := by exact_mod_cast hbig
        by_contra hge
        have : (img.cols : ℚ) ≤ scaleOf img * img.cols := by
          have := mul_le_mul_of_nonneg_right (not_lt.1 hge) hcq.le
          linarith
        linarith
      · have hb : (800 : ℚ) < img.rows := by exact_mod_cast hbig
        by_contra hge
        have : (img.rows : ℚ) ≤ scaleOf img * img.rows := by
          have := mul_le_mul_of_nonneg_right (not_lt.1 hge) hrq.le
          linarith
        linarith
    · rcases le_total img.cols img.rows with hle | hle
      · rw [max_eq_right hle, scaleOf_eq]
        have hq : (img.cols : ℚ) ≤ img.rows := by exact_mod_cast hle
        rw [min_eq_right (div_le_div_of_nonneg_left (by norm_num) hcq hq)]
        exact div_mul_cancel₀ _ hrq.ne.symm
      · rw [max_eq_left hle, scaleOf_eq]
        have hq : (img.rows : ℚ) ≤ img.cols := by exact_mod_cast hle
        rw [min_eq_left (div_le_div_of_nonneg_left (by norm_num) hrq hq)]
        exact div_mul_cancel₀ _ hcq.ne.symm
    · unfold downscale
      rw [if_pos]
      simpa [MAX_SIZE] using hbig
  · intro hc hr
    unfold downscale
    rw [if_neg]
    simp only [MAX_SIZE, not_or, not_lt, gt_iff_lt]
    exact ⟨hc, hr⟩

/-- An image of 1600 by 1200 gets the factor 1/2, which maps its 1600 columns to 800
and its 1200 rows to 600. -/
theorem downscale_fits_witness :
    scaleOf largeImage = 1 / 2 ∧
      (0 < scaleOf largeImage ∧ scaleOf largeImage < 1 ∧
        scaleOf largeImage * largeImage.cols ≤ 800 ∧
        scaleOf largeImage * largeImage.rows ≤ 800 ∧
        scaleOf largeImage * (max largeImage.cols largeImage.rows : ℕ) = 800 ∧
        downscale (fun img _ => img) largeImage =
          (fun img _ => img) largeImage (scaleOf largeImage)) ∧
      downscale (fun _ _ => largeImage) sampleImage = sampleImage :=
  ⟨by decide!,
    (downscale_fits (fun img _ => img) largeImage).1 (by decide) (by decide)
      (Or.inl (by decide)),
    (downscale_fits (fun _ _ => largeImage) sampleImage).2 (by decide) (by decide)⟩

/-! ## Failures and the counts of the result -/

theorem processCombination_caught_homography (cv : OpenCV) (img1 img2 : Image)
    (detectorName descriptorName matcherName : String)
    (saveResult isSpecificCombination : Bool) (trace : List Event) (e : Thrown)
    (he : (processCombination cv img1 img2 detectorName descriptorName matcherName saveResult
      isSpecificCombination trace).exit = .caught .homography e) :
    (processCombination cv img1 img2 detectorName descriptorName matcherName saveResult
        isSpecificCombination trace).result.homographySuccess = false ∧
      ∃ (knnMatches : List (List DMatch)) (tr : List Event),
        (∃ matcher d1 d2 tr0,
          matchDescriptors cv matcher d1 d2 tr0 = (.ok knnMatches, tr)) ∧
        (processCombination cv img1 img2 detectorName descriptorName matcherName saveResult
            isSpecificCombination trace).result.numMatches = intOfSize knnMatches.length ∧
        (processCombination cv img1 img2 detectorName descriptorName matcherName saveResult
            isSpecificCombination trace).result.numGoodMatches =
          intOfSize (filterGoodMatches
            (RATIO_THRESHOLD (isBinaryDescriptor descriptorName)) knnMatches).length ∧
        4 ≤ (filterGoodMatches
          (RATIO_THRESHOLD (isBinaryDescriptor descriptorName)) knnMatches).length := by
  obtain ⟨hx, hn, hg, hh, -⟩ := processCombination_fields cv img1 img2 detectorName
    descriptorName matcherName saveResult isSpecificCombination trace
  rw [hx] at he
  rw [hn, hg, hh]
  rcases tryBlock_cases cv img1 img2 detectorName descriptorName matcherName saveResult
      isSpecificCombination ⟨0, 0, 0, false⟩
      (trace ++ [.procesando detectorName descriptorName matcherName] ++ [.now]) with
    ⟨hb, -, -⟩ | ⟨k1, k2, knn, tr, -, hprov, hrun⟩
  · rw [he] at hb
    simp [Exit.beforeCounts] at hb
  · rw [hrun] at he ⊢
    rcases (afterMatching_cases cv detectorName descriptorName matcherName saveResult
        isSpecificCombination (isBinaryDescriptor descriptorName) k1 k2 knn ⟨0, 0, 0, false⟩
        tr).2 with ⟨-, -, hne⟩ | ⟨hr, -, h4, -⟩ | ⟨h, -, -, -, -, hne⟩
    · exact absurd he (hne e)
    · rw [hr]
      exact ⟨rfl, knn, tr, hprov, rfl, rfl, h4⟩
    · exact absurd he (hne e)

/-- C8, amended: when the try block of processCombination is left by a return
statement or by an exception raised during detection, description or matching, the
result is zeroed; when findHomography throws, homographySuccess is false while
numMatches and numGoodMatches are the sizes of the neighbour lists that the matching of
this call returned and of the good matches among them, of which there are at least
four, so that with sizes that fit an int the result has 4 <= numGoodMatches <=
numMatches and is not zeroed; an unsupported detector or descriptor name makes the call
return at line 115, and the return of line 172 happens only for an unsupported matcher
name. -/
theorem failure_before_counts_is_zeroed (cv : OpenCV) (img1 img2 : Image)
    (detectorName descriptorName matcherName : String)
    (saveResult isSpecificCombination : Bool) (trace : List Event) :
    ((processCombination cv img1 img2 detectorName descriptorName matcherName saveResult
          isSpecificCombination trace).exit.beforeCounts = true →
        (processCombination cv img1 img2 detectorName descriptorName matcherName saveResult
            isSpecificCombination trace).result.numMatches = 0 ∧
          (processCombination cv img1 img2 detectorName descriptorName matcherName saveResult
            isSpecificCombination trace).result.numGoodMatches = 0 ∧
          (processCombination cv img1 img2 detectorName descriptorName matcherName saveResult
            isSpecificCombination trace).result.homographySuccess = false) ∧
      (∀ e, (processCombination cv img1 img2 detectorName descriptorName matcherName
            saveResult isSpecificCombination trace).exit = .caught .homography e →
        (processCombination cv img1 img2 detectorName descriptorName matcherName saveResult
            isSpecificCombination trace).result.homographySuccess = false ∧
          (∃ (knnMatches : List (List DMatch)) (tr : List Event),
            (∃ matcher d1 d2 tr0,
              matchDescriptors cv matcher d1 d2 tr0 = (.ok knnMatches, tr)) ∧
            (processCombination cv img1 img2 detectorName descriptorName matcherName saveResult
                isSpecificCombination trace).result.numMatches = intOfSize knnMatches.length ∧
            (processCombination cv img1 img2 detectorName descriptorName matcherName
                saveResult isSpecificCombination trace).result.numGoodMatches =
              intOfSize (filterGoodMatches
                (RATIO_THRESHOLD (isBinaryDescriptor descriptorName)) knnMatches).length ∧
            4 ≤ (filterGoodMatches
              (RATIO_THRESHOLD (isBinaryDescriptor descriptorName)) knnMatches).length) ∧
          (cv.sizesFitInt →
            4 ≤ (processCombination cv img1 img2 detectorName descriptorName matcherName
                saveResult isSpecificCombination trace).result.numGoodMatches ∧
              (processCombination cv img1 img2 detectorName descriptorName matcherName
                  saveResult isSpecificCombination trace).result.numGoodMatches ≤
                (processCombination cv img1 img2 detectorName descriptorName matcherName
                  saveResult isSpecificCombination trace).result.numMatches)) ∧
      (createDetector detectorName = none ∨ createDescriptor descriptorName = none →
        (processCombination cv img1 img2 detectorName descriptorName matcherName saveResult
          isSpecificCombination trace).exit = .returnedAt 115) ∧
      ((processCombination cv img1 img2 detectorName descriptorName matcherName saveResult
          isSpecificCombination trace).exit = .returnedAt 172 →
        createMatcher matcherName (isBinaryDescriptor descriptorName) = none) := by
  have hf := processCombination_fields cv img1 img2 detectorName descriptorName
    matcherName saveResult isSpecificCombination trace
  refine ⟨?_, ?_, ?_, ?_⟩
  · intro hb
    rcases processCombination_cases cv img1 img2 detectorName descriptorName matcherName
        saveResult isSpecificCombination trace with ⟨-, h1, h2, h3, -⟩ | ⟨hb2, -⟩
    · exact ⟨h1, h2, h3⟩
    · exact absurd (hb.symm.trans hb2) (by decide)
  · intro e he
    obtain ⟨hs, knn, tr, hprov, hn, hg, h4⟩ := processCombination_caught_homography cv img1
      img2 detectorName descriptorName matcherName saveResult isSpecificCombination trace e he
    refine ⟨hs, ⟨knn, tr, hprov, hn, hg, h4⟩, ?_⟩
    intro hcv
    obtain ⟨matcher, d1, d2, tr0, hmat⟩ := hprov
    have hlen := matchDescriptors_length cv hcv matcher d1 d2 tr0 knn tr hmat
    have hle := filterGoodMatches_length_le
      (RATIO_THRESHOLD (isBinaryDescriptor descriptorName)) knn
    rw [hn, hg, intOfSize_eq _ hlen, intOfSize_eq _ (lt_of_le_of_lt hle hlen)]
    omega
  · intro h
    rw [hf.1]
    unfold tryBlock
    rcases h with h | h
    · rw [h]
    · rw [h]
      cases createDetector detectorName <;> rfl
  · intro h
    rw [hf.1] at h
    rcases tryBlock_returnedAt cv img1 img2 detectorName descriptorName matcherName
        saveResult isSpecificCombination _ _ 172 h with ⟨h1, -⟩ | h1 | ⟨-, h1⟩
    · exact absurd h1 (by decide)
    · exact absurd h1 (by decide)
    · exact h1

/-- An unknown detector name makes the call return at line 115 with a zeroed result; an
estimator that throws on four good matches leaves a result with at least four good
matches. -/
theorem failure_before_counts_is_zeroed_witness :
    ((processCombination (sampleCV eventClock sampleKnn (.ok [[1]])) sampleImage sampleImage
          "HARRIS" "SIFT" "BF" true false []).exit.beforeCounts = true ∧
      (processCombination (sampleCV eventClock sampleKnn (.ok [[1]])) sampleImage sampleImage
          "HARRIS" "SIFT" "BF" true false []).result.numMatches = 0 ∧
      (processCombination (sampleCV eventClock sampleKnn (.ok [[1]])) sampleImage sampleImage
          "HARRIS" "SIFT" "BF" true false []).result.numGoodMatches = 0 ∧
      (processCombination (sampleCV eventClock sampleKnn (.ok [[1]])) sampleImage sampleImage
          "HARRIS" "SIFT" "BF" true false []).result.homographySuccess = false) ∧
      (processCombination (sampleCV eventClock sampleKnn (.error .cvException)) sampleImage
          sampleImage "SIFT" "SIFT" "BF" true false []).exit =
        .caught .homography .cvException ∧
      (sampleCV eventClock sampleKnn (.error .cvException)).sizesFitInt ∧
      4 ≤ (processCombination (sampleCV eventClock sampleKnn (.error .cvException))
          sampleImage sampleImage "SIFT" "SIFT" "BF" true false []).result.numGoodMatches ∧
      (processCombination (sampleCV eventClock sampleKnn (.error .cvException)) sampleImage
          sampleImage "SIFT" "SIFT" "BF" true false []).result.numGoodMatches ≤
        (processCombination (sampleCV eventClock sampleKnn (.error .cvException)) sampleImage
          sampleImage "SIFT" "SIFT" "BF" true false []).result.numMatches :=
  ⟨⟨by decide!,
      (failure_before_counts_is_zeroed (sampleCV eventClock sampleKnn (.ok [[1]])) sampleImage
        sampleImage "HARRIS" "SIFT" "BF" true false []).1 (by decide!)⟩,
    by decide!, sampleCV_sizesFitInt _ _,
    ((failure_before_counts_is_zeroed (sampleCV eventClock sampleKnn (.error .cvException))
      sampleImage sampleImage "SIFT" "SIFT" "BF" true false []).2.1 .cvException
      (by decide!)).2.2 (sampleCV_sizesFitInt _ _)⟩

end CombinationTester
